import Mathlib

/-!
# Capital Ship Battles: battle-tick simulation

A shallow embedding of the battle core of the repository (Ship, Turret, Projectile,
BattleState, NetworkManager, CSB helper functions) together with the parts of the SFML
library these classes call.

Conventions of the embedding.

* C++ float values are exact rationals: rounding, infinities and NaN are not modelled, and a
  division by zero yields 0 as everywhere in Lean.
* The transcendental functions of the C maths library (sqrt, cos, sin, atan2) are not code of
  the repository; they are a parameter of type Libm.
* sf::Time is a signed count of microseconds (Int).
* A layer index is an index into the two-element array m_shipList, hence a Fin 2.
* Threads are not modelled: every member function runs atomically. The lock and unlock calls
  of the member functions are recorded on their own, in the section on locks.
* The pixel buffer of an sf::Image is a flat row-major list, as in SFML. Reading outside the
  buffer is undefined behaviour in C++; the model reads a transparent pixel there and ignores
  a write there.
-/

namespace CSBattles

/-! ## SFML value types -/

/-- sf::Vector2f with exact rational components. -/
structure Vector2f where
  x : ℚ
  y : ℚ
deriving DecidableEq

/-- sf::Vector2i, a vector of C++ int. -/
structure Vector2i where
  x : Int
  y : Int
deriving DecidableEq

/-- sf::Time, a number of microseconds. -/
abbrev Time := Int

/-- sf::seconds for a whole number of milliseconds, used for the literal time constants. -/
def Time.ofMillis (ms : Int) : Time := ms * 1000

/-- sf::Time::asSeconds, microseconds divided by one million. -/
def Time.asSeconds (t : Time) : ℚ := (t : ℚ) / 1000000

/-- Conversion float to int: truncation toward zero. -/
def truncate (q : ℚ) : Int := Int.tdiv q.num (q.den : Int)

/-- std::fmod on exact values: the remainder with the sign of the dividend. -/
def fmod (a b : ℚ) : ℚ := a - b * (truncate (a / b) : ℚ)

/-- The functions of the C maths library used by the program, taken as a parameter. -/
structure Libm where
  sqrt : ℚ → ℚ
  cos : ℚ → ℚ
  sin : ℚ → ℚ
  atan2 : ℚ → ℚ → ℚ

namespace Vector2f

/-- Component-wise sum. -/
def add (a b : Vector2f) : Vector2f := ⟨a.x + b.x, a.y + b.y⟩

/-- Component-wise difference. -/
def sub (a b : Vector2f) : Vector2f := ⟨a.x - b.x, a.y - b.y⟩

/-- Product with a scalar on the right. -/
def mul (a : Vector2f) (k : ℚ) : Vector2f := ⟨a.x * k, a.y * k⟩

/-- Quotient by a scalar. -/
def div (a : Vector2f) (k : ℚ) : Vector2f := ⟨a.x / k, a.y / k⟩

/-- Conversion sf::Vector2i(sf::Vector2f): both components truncated. -/
def toVector2i (a : Vector2f) : Vector2i := ⟨truncate a.x, truncate a.y⟩

end Vector2f

/-- Conversion sf::Vector2f(sf::Vector2i). -/
def Vector2i.toVector2f (a : Vector2i) : Vector2f := ⟨(a.x : ℚ), (a.y : ℚ)⟩

/-- sf::FloatRect. -/
structure FloatRect where
  left : ℚ
  top : ℚ
  width : ℚ
  height : ℚ
deriving DecidableEq

namespace FloatRect

/-- sf::Rect::contains(x, y): the rectangle is closed on its min edges and open on its max
edges, and a negative width or height is handled. -/
def contains (r : FloatRect) (x y : ℚ) : Bool :=
  let minX := min r.left (r.left + r.width)
  let maxX := max r.left (r.left + r.width)
  let minY := min r.top (r.top + r.height)
  let maxY := max r.top (r.top + r.height)
  decide (minX ≤ x) && decide (x < maxX) && decide (minY ≤ y) && decide (y < maxY)

/-- sf::Rect::intersects(rectangle): the intersection has a positive area. -/
def intersects (r1 r2 : FloatRect) : Bool :=
  let r1MinX := min r1.left (r1.left + r1.width)
  let r1MaxX := max r1.left (r1.left + r1.width)
  let r1MinY := min r1.top (r1.top + r1.height)
  let r1MaxY := max r1.top (r1.top + r1.height)
  let r2MinX := min r2.left (r2.left + r2.width)
  let r2MaxX := max r2.left (r2.left + r2.width)
  let r2MinY := min r2.top (r2.top + r2.height)
  let r2MaxY := max r2.top (r2.top + r2.height)
  let interLeft := max r1MinX r2MinX
  let interTop := max r1MinY r2MinY
  let interRight := min r1MaxX r2MaxX
  let interBottom := min r1MaxY r2MaxY
  decide (interLeft < interRight) && decide (interTop < interBottom)

end FloatRect

/-- sf::IntRect((0, 0), (width, height)).contains(x, y) for the bounds test of the ray cast. -/
def IntRect.contains (width height : Nat) (x y : Int) : Bool :=
  decide (0 ≤ x) && decide (x < (width : Int)) && decide (0 ≤ y) && decide (y < (height : Int))

/-- sf::Transform, a 3x3 matrix (row, column). -/
structure Transform where
  a00 : ℚ
  a01 : ℚ
  a02 : ℚ
  a10 : ℚ
  a11 : ℚ
  a12 : ℚ
  a20 : ℚ
  a21 : ℚ
  a22 : ℚ
deriving DecidableEq

namespace Transform

/-- sf::Transform::Identity. -/
def identity : Transform := ⟨1, 0, 0, 0, 1, 0, 0, 0, 1⟩

/-- sf::Transform::transformPoint. -/
def transformPoint (t : Transform) (p : Vector2f) : Vector2f :=
  ⟨t.a00 * p.x + t.a01 * p.y + t.a02, t.a10 * p.x + t.a11 * p.y + t.a12⟩

/-- Determinant computed by sf::Transform::getInverse. -/
def det (t : Transform) : ℚ :=
  t.a00 * (t.a22 * t.a11 - t.a21 * t.a12) - t.a10 * (t.a22 * t.a01 - t.a21 * t.a02)
    + t.a20 * (t.a12 * t.a01 - t.a11 * t.a02)

/-- sf::Transform::getInverse: the inverse matrix, or the identity when the determinant is 0. -/
def getInverse (t : Transform) : Transform :=
  let d := t.det
  if d ≠ 0 then
    ⟨(t.a22 * t.a11 - t.a21 * t.a12) / d,
     -(t.a22 * t.a01 - t.a21 * t.a02) / d,
     (t.a12 * t.a01 - t.a11 * t.a02) / d,
     -(t.a22 * t.a10 - t.a20 * t.a12) / d,
     (t.a22 * t.a00 - t.a20 * t.a02) / d,
     -(t.a12 * t.a00 - t.a10 * t.a02) / d,
     (t.a21 * t.a10 - t.a20 * t.a11) / d,
     -(t.a21 * t.a00 - t.a20 * t.a01) / d,
     (t.a11 * t.a00 - t.a10 * t.a01) / d⟩
  else identity

/-- sf::Transform::transformRect: the axis-aligned bounding box of the four transformed
corners. -/
def transformRect (t : Transform) (r : FloatRect) : FloatRect :=
  let p0 := t.transformPoint ⟨r.left, r.top⟩
  let p1 := t.transformPoint ⟨r.left, r.top + r.height⟩
  let p2 := t.transformPoint ⟨r.left + r.width, r.top⟩
  let p3 := t.transformPoint ⟨r.left + r.width, r.top + r.height⟩
  let left := min (min (min p0.x p1.x) p2.x) p3.x
  let right := max (max (max p0.x p1.x) p2.x) p3.x
  let top := min (min (min p0.y p1.y) p2.y) p3.y
  let bottom := max (max (max p0.y p1.y) p2.y) p3.y
  ⟨left, top, right - left, bottom - top⟩

end Transform

/-- The state of an sf::Transformable with unit scale: origin, position and rotation in
degrees. -/
structure Transformable where
  origin : Vector2f
  position : Vector2f
  rotation : ℚ
deriving DecidableEq

namespace Transformable

/-- Value of pi used by sf::Transformable::getTransform. -/
def sfmlPi : ℚ := 3141592654 / 1000000000

/-- sf::Transformable::getTransform for unit scale. -/
def getTransform (L : Libm) (t : Transformable) : Transform :=
  let angle := -t.rotation * sfmlPi / 180
  let cosine := L.cos angle
  let sine := L.sin angle
  let tx := -t.origin.x * cosine - t.origin.y * sine + t.position.x
  let ty := t.origin.x * sine - t.origin.y * cosine + t.position.y
  ⟨cosine, sine, tx, -sine, cosine, ty, 0, 0, 1⟩

/-- sf::Transformable::setRotation: the angle is reduced to the range [0, 360). -/
def setRotation (t : Transformable) (angle : ℚ) : Transformable :=
  let r := fmod angle 360
  { t with rotation := if r < 0 then r + 360 else r }

/-- sf::Transformable::rotate. -/
def rotate (t : Transformable) (angle : ℚ) : Transformable :=
  t.setRotation (t.rotation + angle)

/-- sf::Transformable::move. -/
def move (t : Transformable) (offset : Vector2f) : Transformable :=
  { t with position := t.position.add offset }

end Transformable

/-! ## CSB_Functions -/

namespace CSB

/-- CSB::PI. -/
def PI : ℚ := 314159265359 / 100000000000

/-- CSB::DEGREES_PER_SECOND. -/
def DEGREES_PER_SECOND : ℚ := 45

/-- CSB::vectorAngle: the angle of a vector in degrees, made positive. -/
def vectorAngle (L : Libm) (v : Vector2f) : ℚ :=
  fmod (L.atan2 v.y v.x * (180 / PI) + 360) 360

/-- CSB::angleToPoint. -/
def angleToPoint (L : Libm) (source target : Vector2f) : ℚ :=
  vectorAngle L (target.sub source)

/-- CSB::faceTargetAndCheck: turns the entity towards the target; returns the turned entity
and whether it now faces the target. -/
def faceTargetAndCheck (L : Libm) (entity : Transformable) (target : Vector2f) (deltaTime : Time) :
    Transformable × Bool :=
  let angle := angleToPoint L entity.position target
  let angleDifference := angle - entity.rotation
  let direction : ℚ :=
    if (angleDifference < 0 ∧ |angleDifference| < 180) ∨
       (180 ≤ |angleDifference| ∧ entity.rotation < angle) then -1 else 1
  let turn := direction * Time.asSeconds deltaTime * DEGREES_PER_SECOND
  if |angleDifference| ≤ |turn| then (entity.rotate angleDifference, true)
  else (entity.rotate turn, false)

end CSB

/-! ## sf::Image, reduced to the alpha channel -/

/-- The pixels of an sf::Image: its size and, for each pixel of the row-major buffer, whether
its alpha is non-zero. -/
structure Image where
  width : Nat
  height : Nat
  pixels : List Bool
deriving DecidableEq

namespace Image

/-- sf::Image::create(width, height, colour) with a fully transparent colour. -/
def create (width height : Nat) : Image := ⟨width, height, List.replicate (width * height) false⟩

/-- Alpha test getPixel(x, y).a != 0, reading the buffer at x + y * width. -/
def getPixel (img : Image) (x y : Nat) : Bool := img.pixels.getD (x + y * img.width) false

/-- sf::Image::setPixel(x, y, colour), writing the buffer at x + y * width; the flag tells
whether the colour has a non-zero alpha. -/
def setPixel (img : Image) (x y : Nat) (solid : Bool) : Image :=
  { img with pixels := img.pixels.set (x + y * img.width) solid }

/-- The cells inside the image whose alpha is non-zero. -/
def solidCells (img : Image) : Finset (Nat × Nat) :=
  (Finset.range img.width ×ˢ Finset.range img.height).filter fun c => img.getPixel c.1 c.2 = true

end Image

/-! ## Projectile -/

/-- ProjectileType. -/
inductive ProjectileType where
  | LASER
  | MISSILE
  | PLASMA
deriving DecidableEq

/-- ShotInfo: a queued request to spawn one projectile. -/
structure ShotInfo where
  projType : ProjectileType
  layer : Fin 2
  spawn : Vector2f
  target : Vector2f
deriving DecidableEq

/-- Projectile, an sf::RectangleShape with the members of the class. -/
structure Projectile where
  toTransformable : Transformable
  size : Vector2f
  m_projType : ProjectileType
  m_layer : Fin 2
  m_velocity : Vector2f
  m_isFinished : Bool
deriving DecidableEq

namespace Projectile

/-- Size set by the constructor for each type. -/
def typeSize : ProjectileType → Vector2f
  | .LASER => ⟨8, 4⟩
  | .MISSILE => ⟨24, 8⟩
  | .PLASMA => ⟨10, 10⟩

/-- Speed chosen by the constructor for each type. -/
def typeSpeed : ProjectileType → ℚ
  | .LASER => 1000
  | .MISSILE => 750
  | .PLASMA => 600

/-- Projectile::Projectile(const ShotInfo&). -/
def ofShotInfo (L : Libm) (info : ShotInfo) : Projectile :=
  let size := typeSize info.projType
  let speed := typeSpeed info.projType
  let t0 : Transformable := ⟨size.div 2, info.spawn, 0⟩
  let diff := info.target.sub t0.position
  let t1 := t0.setRotation (CSB.vectorAngle L diff)
  let diffLength := L.sqrt (diff.x * diff.x + diff.y * diff.y)
  { toTransformable := t1
    size := size
    m_projType := info.projType
    m_layer := info.layer
    m_velocity := (diff.div diffLength).mul speed
    m_isFinished := false }

/-- Projectile::update. -/
def update (p : Projectile) (deltaTime : Time) : Projectile :=
  { p with toTransformable := p.toTransformable.move (p.m_velocity.mul (Time.asSeconds deltaTime)) }

/-- Projectile::getLayer. -/
def getLayer (p : Projectile) : Fin 2 := p.m_layer

/-- Projectile::getVelocity. -/
def getVelocity (p : Projectile) : Vector2f := p.m_velocity

/-- Projectile::requiresCleanup. -/
def requiresCleanup (p : Projectile) : Bool := p.m_isFinished

/-- sf::Shape::getGlobalBounds of the rectangle, which has no outline. -/
def getGlobalBounds (L : Libm) (p : Projectile) : FloatRect :=
  (p.toTransformable.getTransform L).transformRect ⟨0, 0, p.size.x, p.size.y⟩

end Projectile

/-! ## Turret -/

/-- TurretInfo: the build information of a turret. -/
structure TurretInfo where
  projType : ProjectileType
  localPosition : Vector2f
deriving DecidableEq

/-- Turret, an sf::RectangleShape with the members of the class. The pointer m_parentTransform
is not a field: the transform it points at is the field m_transform of the owning ship and is
passed to the member functions that read it. -/
structure Turret where
  toTransformable : Transformable
  m_projType : ProjectileType
  m_reloadTime : Time
  m_timeSinceLastShot : Time
  m_isTrackingTarget : Bool
  m_targetPosition : Vector2f
  m_targetlayer : Fin 2
deriving DecidableEq

namespace Turret

/-- Reload time set by the constructor for each type. -/
def typeReloadTime : ProjectileType → Time
  | .LASER => Time.ofMillis 500
  | .MISSILE => Time.ofMillis 1000
  | .PLASMA => Time.ofMillis 3000

/-- Turret::Turret. The member m_targetlayer is left uninitialised by the constructor and is
written by fireCommand before fire reads it; the model starts it at 0. -/
def ofTurretInfo (info : TurretInfo) : Turret :=
  { toTransformable := ⟨⟨16, 16⟩, info.localPosition, 0⟩
    m_projType := info.projType
    m_reloadTime := typeReloadTime info.projType
    m_timeSinceLastShot := typeReloadTime info.projType
    m_isTrackingTarget := false
    m_targetPosition := ⟨0, 0⟩
    m_targetlayer := 0 }

/-- Turret::getTurretInfo. -/
def getTurretInfo (t : Turret) : TurretInfo := ⟨t.m_projType, t.toTransformable.position⟩

/-- Turret::fire: pushes a ShotInfo on the fire list and resets the turret. -/
def fire (parentTransform : Transform) (t : Turret) (fireList : List ShotInfo) :
    Turret × List ShotInfo :=
  ({ t with m_isTrackingTarget := false, m_timeSinceLastShot := 0 },
   fireList ++ [⟨t.m_projType, t.m_targetlayer,
                 parentTransform.transformPoint t.toTransformable.position, t.m_targetPosition⟩])

/-- Turret::update. The call of faceTargetAndCheck is the right operand of a short-circuit
conjunction, so it is made only while the turret is tracking. -/
def update (L : Libm) (parentTransform : Transform) (t : Turret) (deltaTime : Time)
    (fireList : List ShotInfo) : Turret × List ShotInfo :=
  let t1 := { t with m_timeSinceLastShot := t.m_timeSinceLastShot + deltaTime }
  if t1.m_isTrackingTarget then
    let r := CSB.faceTargetAndCheck L t1.toTransformable
      (parentTransform.getInverse.transformPoint t1.m_targetPosition) deltaTime
    let t2 := { t1 with toTransformable := r.1 }
    if r.2 then fire parentTransform t2 fireList else (t2, fireList)
  else (t1, fireList)

/-- Turret::fireCommand. -/
def fireCommand (t : Turret) (target : Vector2f) (layer : Fin 2) : Turret :=
  if t.m_reloadTime < t.m_timeSinceLastShot then
    { t with m_isTrackingTarget := true, m_targetPosition := target, m_targetlayer := layer }
  else t

end Turret

/-! ## Ship -/

/-- Ship::MovementState. -/
inductive MovementState where
  | IDLE
  | ROTATING
  | MOVING
  | DECELERATING
deriving DecidableEq

/-- Ship, an sf::Sprite with the members of the class. The fields texWidth and texHeight are
the size of the hull texture, which gives the local bounds of the sprite. The field
m_transform is the matrix cached inside sf::Transformable: it is recomputed by every call of
getTransform, and it is what the pointer m_parentTransform of the ship's turrets points at. -/
structure Ship where
  toTransformable : Transformable
  texWidth : Nat
  texHeight : Nat
  m_movementState : MovementState
  m_speed : ℚ
  m_acceleration : ℚ
  m_deceleration : ℚ
  m_destination : Vector2f
  m_turrets : List Turret
  m_keyImage : Image
  m_transform : Transform
deriving DecidableEq

namespace Ship

/-- Ship::KEY_SIZE_FACTOR. -/
def KEY_SIZE_FACTOR : Nat := 4

/-- Inner two loops of the constructor: whether the block of the texture that starts at
(x, y) holds a pixel that is not fully transparent. -/
def blockHasSolidPixel (texture : Image) (x y : Nat) : Bool :=
  (List.range KEY_SIZE_FACTOR).any fun j =>
    (List.range KEY_SIZE_FACTOR).any fun i => texture.getPixel (x + i) (y + j)

/-- Outer two loops of the constructor: the destruction key of a hull texture. The loop
variables x and y take the values 0, 4, 8, ... below the width and the height. -/
def buildKey (texture : Image) : Image :=
  (List.range ((texture.height + (KEY_SIZE_FACTOR - 1)) / KEY_SIZE_FACTOR)).foldl
    (fun key yb =>
      (List.range ((texture.width + (KEY_SIZE_FACTOR - 1)) / KEY_SIZE_FACTOR)).foldl
        (fun key xb =>
          if blockHasSolidPixel texture (xb * KEY_SIZE_FACTOR) (yb * KEY_SIZE_FACTOR) then
            key.setPixel (xb * KEY_SIZE_FACTOR / KEY_SIZE_FACTOR)
              (yb * KEY_SIZE_FACTOR / KEY_SIZE_FACTOR) true
          else key)
        key)
    (Image.create (texture.width / KEY_SIZE_FACTOR) (texture.height / KEY_SIZE_FACTOR))

/-- Call of getTransform on the ship: the cached matrix becomes the current transform. -/
def refreshTransform (L : Libm) (s : Ship) : Ship :=
  { s with m_transform := s.toTransformable.getTransform L }

/-- Ship::addTurrets. Each pushed turret is given the address returned by getTransform, so
the cached matrix is recomputed when at least one turret is added. -/
def addTurrets (L : Libm) (s : Ship) (newTurrets : List TurretInfo) : Ship :=
  match newTurrets with
  | [] => s
  | _ :: _ => { s.refreshTransform L with m_turrets := s.m_turrets ++ newTurrets.map Turret.ofTurretInfo }

/-- Ship::Ship: a ship built at a position and angle from a turret list and a hull texture. -/
def create (L : Libm) (position : Vector2f) (angle : ℚ) (turretList : List TurretInfo)
    (hullTexture : Image) : Ship :=
  let t0 : Transformable := ⟨⟨0, 0⟩, position, 0⟩
  let t1 := t0.setRotation angle
  let t2 : Transformable :=
    { t1 with origin := Vector2f.div ⟨(hullTexture.width : ℚ), (hullTexture.height : ℚ)⟩ 2 }
  addTurrets L
    { toTransformable := t2
      texWidth := hullTexture.width
      texHeight := hullTexture.height
      m_movementState := MovementState.IDLE
      m_speed := 0
      m_acceleration := 20
      m_deceleration := 10
      m_destination := ⟨0, 0⟩
      m_turrets := []
      m_keyImage := buildKey hullTexture
      m_transform := Transform.identity }
    turretList

/-- Ship::requiresCleanup. -/
def requiresCleanup (s : Ship) : Bool := decide (s.m_turrets.length = 0)

/-- sf::Sprite::getLocalBounds. -/
def getLocalBounds (s : Ship) : FloatRect := ⟨0, 0, (s.texWidth : ℚ), (s.texHeight : ℚ)⟩

/-- sf::Sprite::getGlobalBounds. -/
def getGlobalBounds (L : Libm) (s : Ship) : FloatRect :=
  (s.toTransformable.getTransform L).transformRect s.getLocalBounds

/-- Ship::moveCommand. -/
def moveCommand (s : Ship) (target : Vector2f) : Ship :=
  { s with m_speed := 0, m_destination := target, m_movementState := MovementState.ROTATING }

/-- Ship::fireCommand. -/
def fireCommand (s : Ship) (target : Vector2f) (layer : Fin 2) : Ship :=
  { s with m_turrets := s.m_turrets.map fun t => t.fireCommand target layer }

/-- Ship::getPixelPosition. -/
def getPixelPosition (L : Libm) (s : Ship) (globalPosition : Vector2f) : Vector2i :=
  ((s.toTransformable.getTransform L).getInverse.transformPoint globalPosition).toVector2i

/-- Value returned by Ship::collide(const sf::Vector2f&). -/
def collidePointResult (L : Libm) (s : Ship) (globalPosition : Vector2f) : Bool :=
  let pixelPosition := s.getPixelPosition L globalPosition
  if s.getLocalBounds.contains (pixelPosition.toVector2f).x (pixelPosition.toVector2f).y then
    s.m_keyImage.getPixel (pixelPosition.x.toNat / KEY_SIZE_FACTOR)
      (pixelPosition.y.toNat / KEY_SIZE_FACTOR)
  else false

/-- Ship::collide(const sf::Vector2f&): the returned value and the ship after the call. -/
def collidePoint (L : Libm) (s : Ship) (globalPosition : Vector2f) : Bool × Ship :=
  (s.collidePointResult L globalPosition, s.refreshTransform L)

/-- Loop of Ship::firstPixelHit with n iterations left, loop variable x, row variable y and
error term err. -/
def firstPixelHitLoop (key : Image) (isSteep : Bool) (xStep yStep : Int) (xDiff yDiff : ℚ) :
    Nat → Int → Int → ℚ → Vector2i
  | 0, _, _, _ => ⟨-1, -1⟩
  | n + 1, x, y, err =>
    if IntRect.contains key.width key.height y x &&
        (if isSteep then key.getPixel y.toNat x.toNat else key.getPixel x.toNat y.toNat) then
      if isSteep then ⟨y, x⟩ else ⟨x, y⟩
    else
      let err1 := err - yDiff
      if err1 < 0 then
        firstPixelHitLoop key isSteep xStep yStep xDiff yDiff n (x + xStep) (y + yStep) (err1 + xDiff)
      else
        firstPixelHitLoop key isSteep xStep yStep xDiff yDiff n (x + xStep) y err1

/-- Ray cast of Ship::firstPixelHit between two cells of the key. The loop runs while x is
different from the end column and steps x by one towards it, that is |end - start| times. -/
def castRay (key : Image) (pixelStartPosition pixelEndPosition : Vector2i) : Vector2i :=
  let isSteep := decide (|pixelEndPosition.x - pixelStartPosition.x| <
    |pixelEndPosition.y - pixelStartPosition.y|)
  let start : Vector2i :=
    if isSteep then ⟨pixelStartPosition.y, pixelStartPosition.x⟩ else pixelStartPosition
  let stop : Vector2i :=
    if isSteep then ⟨pixelEndPosition.y, pixelEndPosition.x⟩ else pixelEndPosition
  let xStep : Int := if stop.x < start.x then -1 else 1
  let yStep : Int := if start.y < stop.y then 1 else -1
  let xDiff : ℚ := ((|stop.x - start.x| : Int) : ℚ)
  let yDiff : ℚ := ((|stop.y - start.y| : Int) : ℚ)
  firstPixelHitLoop key isSteep xStep yStep xDiff yDiff (stop.x - start.x).natAbs
    start.x start.y (xDiff / 2)

/-- Ship::firstPixelHit. -/
def firstPixelHit (L : Libm) (s : Ship) (proj : Projectile) (deltaTime : Time) : Vector2i :=
  let endPosition := proj.toTransformable.position
  let startPosition :=
    proj.toTransformable.position.sub (proj.getVelocity.mul (Time.asSeconds deltaTime))
  let pixelStartPosition :=
    ((s.getPixelPosition L startPosition).toVector2f.div (KEY_SIZE_FACTOR : ℚ)).toVector2i
  let pixelEndPosition :=
    ((s.getPixelPosition L endPosition).toVector2f.div (KEY_SIZE_FACTOR : ℚ)).toVector2i
  castRay s.m_keyImage pixelStartPosition pixelEndPosition

/-- The write of Ship::collide to the key: the pixel that was hit becomes transparent. -/
def blackOut (s : Ship) (pixelHit : Vector2i) : Ship :=
  { s with m_keyImage := s.m_keyImage.setPixel pixelHit.x.toNat pixelHit.y.toNat false }

/-- Loop of Ship::collide over the turrets: a turret is erased when the point collision test
at its anchor point fails, and the turrets that are kept stay in their order. -/
def eraseHitTurrets (L : Libm) (s : Ship) : Ship :=
  let keep := fun (t : Turret) =>
    s.collidePointResult L
      ((s.toTransformable.getTransform L).transformPoint t.toTransformable.position)
  { s with m_turrets := s.m_turrets.filter keep }

/-- Ship::collide(const Projectile&, const sf::Time&): the returned value and the ship after
the call. The call of getGlobalBounds recomputes the cached matrix. -/
def collide (L : Libm) (s : Ship) (proj : Projectile) (deltaTime : Time) : Bool × Ship :=
  let s1 := s.refreshTransform L
  if (s1.getGlobalBounds L).intersects (proj.getGlobalBounds L) then
    let pixelHit := s1.firstPixelHit L proj deltaTime
    if pixelHit.x ≠ -1 then (true, (s1.blackOut pixelHit).eraseHitTurrets L)
    else (false, s1)
  else (false, s1)

/-- Loop of Ship::update over the turrets, which all read the cached matrix of the ship. -/
def updateTurrets (L : Libm) (parentTransform : Transform) (deltaTime : Time) :
    List Turret → List ShotInfo → List Turret × List ShotInfo
  | [], fireList => ([], fireList)
  | t :: ts, fireList =>
    let r := t.update L parentTransform deltaTime fireList
    let q := updateTurrets L parentTransform deltaTime ts r.2
    (r.1 :: q.1, q.2)

/-- Movement part of Ship::update: the switch on the movement state. -/
def updateMovement (L : Libm) (s : Ship) (deltaTime : Time) : Ship :=
  let vectorDistance := s.m_destination.sub s.toTransformable.position
  let vectorLength :=
    L.sqrt (vectorDistance.x * vectorDistance.x + vectorDistance.y * vectorDistance.y)
  match s.m_movementState with
  | MovementState.IDLE => s
  | MovementState.ROTATING =>
    let r := CSB.faceTargetAndCheck L s.toTransformable s.m_destination deltaTime
    { s with toTransformable := r.1
             m_movementState := if r.2 then MovementState.MOVING else MovementState.ROTATING }
  | MovementState.MOVING =>
    let speed := s.m_speed + s.m_acceleration * Time.asSeconds deltaTime
    let moved := s.toTransformable.move
      (((vectorDistance.div vectorLength).mul speed).mul (Time.asSeconds deltaTime))
    { s with m_speed := speed
             toTransformable := moved
             m_movementState :=
               if vectorLength / speed * 2 ≤ speed / s.m_deceleration then
                 MovementState.DECELERATING
               else MovementState.MOVING }
  | MovementState.DECELERATING =>
    let speed := s.m_speed - s.m_deceleration * Time.asSeconds deltaTime
    if speed ≤ 0 ∨ vectorLength < 1 / 10000 then
      { s with m_speed := 0, m_movementState := MovementState.IDLE }
    else
      { s with m_speed := speed
               toTransformable := s.toTransformable.move
                 (((vectorDistance.div vectorLength).mul speed).mul (Time.asSeconds deltaTime)) }

/-- Ship::update: the ship after the tick and the fire list after the turrets have pushed
their shots on it. -/
def update (L : Libm) (s : Ship) (deltaTime : Time) (fireList : List ShotInfo) :
    Ship × List ShotInfo :=
  let s1 := s.updateMovement L deltaTime
  let r := updateTurrets L s1.m_transform deltaTime s1.m_turrets fireList
  ({ s1 with m_turrets := r.1 }, r.2)

end Ship

/-! ## BattleState -/

/-- BattleState, reduced to the members the tick reads and writes. The two entries of the
array m_shipList are the fields m_shipList0 and m_shipList1. The field hullTexture is the
image of the hull asset that createShip loads through the resource manager. The field
leftBattle records that changeToBuildState has replaced the battle by the build state. -/
structure BattleState where
  m_isFinished : Bool
  m_projList : List Projectile
  m_shipList0 : List Ship
  m_shipList1 : List Ship
  m_readyToFire : List ShotInfo
  hullTexture : Image
  leftBattle : Bool
deriving DecidableEq

namespace BattleState

/-- Entry m_shipList[layer]. -/
def shipList (b : BattleState) (layer : Fin 2) : List Ship :=
  if layer = 0 then b.m_shipList0 else b.m_shipList1

/-- Assignment to the entry m_shipList[layer]. -/
def setShipList (b : BattleState) (layer : Fin 2) (ships : List Ship) : BattleState :=
  if layer = 0 then { b with m_shipList0 := ships } else { b with m_shipList1 := ships }

/-- m_viewBounds, the playable area set by the constructor. -/
def m_viewBounds : FloatRect := ⟨0, 0, 4000, 4000⟩

/-- BattleState::createShip. -/
def createShip (L : Libm) (b : BattleState) (team : Fin 2) (position : Vector2f) (angle : ℚ)
    (turretBuildList : List TurretInfo) : BattleState :=
  b.setShipList team
    (b.shipList team ++ [Ship.create L position angle turretBuildList b.hullTexture])

/-- BattleState::issueMoveCommand. The subscript m_shipList[shipLayer][shipID] is undefined
for an index outside the list; the model returns none there. -/
def issueMoveCommand (b : BattleState) (shipLayer : Fin 2) (shipID : Nat)
    (destination : Vector2f) : Option BattleState :=
  match (b.shipList shipLayer)[shipID]? with
  | none => none
  | some ship =>
    some (b.setShipList shipLayer ((b.shipList shipLayer).set shipID (ship.moveCommand destination)))

/-- BattleState::issueFireCommand, with the same convention for the subscript. -/
def issueFireCommand (b : BattleState) (shipLayer : Fin 2) (shipID : Nat) (target : Vector2f)
    (targetLayer : Fin 2) : Option BattleState :=
  match (b.shipList shipLayer)[shipID]? with
  | none => none
  | some ship =>
    some (b.setShipList shipLayer
      ((b.shipList shipLayer).set shipID (ship.fireCommand target targetLayer)))

/-- BattleState::createProjectile. -/
def createProjectile (L : Libm) (b : BattleState) (info : ShotInfo) : BattleState :=
  { b with m_projList := b.m_projList ++ [Projectile.ofShotInfo L info] }

/-- Loop of BattleState::collide over the ships from the iterator to the end of the list.
Returns wasCollision, these ships after the loop, and whether a ship was erased. -/
def collideLoop (L : Libm) (proj : Projectile) (deltaTime : Time) :
    List Ship → Bool × List Ship × Bool
  | [] => (false, [], false)
  | ship :: rest =>
    let r := ship.collide L proj deltaTime
    if r.1 then
      if r.2.requiresCleanup then (true, rest, true) else (true, r.2 :: rest, false)
    else
      let q := collideLoop L proj deltaTime rest
      (q.1, r.2 :: q.2.1, q.2.2)

/-- BattleState::collide: the returned value and the battle after the call. The flag
m_isFinished is assigned only when a ship is erased, with the test that the list of the
projectile's layer is empty. -/
def collide (L : Libm) (b : BattleState) (proj : Projectile) (deltaTime : Time) :
    Bool × BattleState :=
  let projLayer := proj.getLayer
  let r := collideLoop L proj deltaTime (b.shipList projLayer)
  let b1 := b.setShipList projLayer r.2.1
  (r.1, if r.2.2 then { b1 with m_isFinished := decide (r.2.1.length = 0) } else b1)

/-- Loop of BattleState::resolveProjectiles over the projectiles from the iterator to the end
of the list: the battle after the loop and the projectiles that were kept. The operands of
the removal test are evaluated left to right with short circuit. -/
def resolveLoop (L : Libm) (deltaTime : Time) :
    BattleState → List Projectile → BattleState × List Projectile
  | b, [] => (b, [])
  | b, p :: ps =>
    let p1 := p.update deltaTime
    if p1.requiresCleanup then resolveLoop L deltaTime b ps
    else
      let c := collide L b p1 deltaTime
      if c.1 then resolveLoop L deltaTime c.2 ps
      else if !(p1.getGlobalBounds L).intersects m_viewBounds then resolveLoop L deltaTime c.2 ps
      else
        let r := resolveLoop L deltaTime c.2 ps
        (r.1, p1 :: r.2)

/-- BattleState::resolveProjectiles. -/
def resolveProjectiles (L : Libm) (b : BattleState) (deltaTime : Time) : BattleState :=
  let r := resolveLoop L deltaTime b b.m_projList
  { r.1 with m_projList := r.2 }

/-- Loop of BattleState::update over the ships of one layer, threading the fire list. -/
def updateShips (L : Libm) (deltaTime : Time) :
    List Ship → List ShotInfo → List Ship × List ShotInfo
  | [], fireList => ([], fireList)
  | ship :: rest, fireList =>
    let r := ship.update L deltaTime fireList
    let q := updateShips L deltaTime rest r.2
    (r.1 :: q.1, q.2)

/-- BattleState::changeToBuildState. -/
def changeToBuildState (b : BattleState) : BattleState := { b with leftBattle := true }

/-- BattleState::update. -/
def update (L : Libm) (b : BattleState) (deltaTime : Time) : BattleState :=
  let b1 := b.m_readyToFire.foldl (createProjectile L) b
  let b2 := { b1 with m_readyToFire := [] }
  let b3 := b2.resolveProjectiles L deltaTime
  let r0 := updateShips L deltaTime b3.m_shipList0 b3.m_readyToFire
  let r1 := updateShips L deltaTime b3.m_shipList1 r0.2
  let b4 := { b3 with m_shipList0 := r0.1, m_shipList1 := r1.1, m_readyToFire := r1.2 }
  if b4.m_isFinished then b4.changeToBuildState else b4

end BattleState

/-! ## NetworkManager -/

/-- PacketType, with its wire values 0 to 3. -/
inductive PacketType where
  | CONNECT
  | DISCONNECT
  | MOVE
  | FIRE
deriving DecidableEq

/-- One value inserted in an sf::Packet by an overload of the insertion operator: an 8-bit,
32-bit or 64-bit integer, or a float. The byte layout of the values is not modelled; a 32-bit
value inserted as an int and extracted as an unsigned int is the same value. -/
inductive PacketValue where
  | uint8 (v : Fin 256)
  | uint32 (v : Fin 4294967296)
  | uint64 (v : Fin 18446744073709551616)
  | float (v : ℚ)
deriving DecidableEq

/-- The data of an sf::Packet that has not been extracted yet. -/
abbrev Packet := List PacketValue

namespace Packet

/-- Extraction of an 8-bit integer: the value and the rest of the packet, or none when the
next value of the packet is not one. -/
def readUint8 : Packet → Option (Fin 256 × Packet)
  | PacketValue.uint8 v :: rest => some (v, rest)
  | _ => none

/-- Extraction of a 32-bit integer. -/
def readUint32 : Packet → Option (Fin 4294967296 × Packet)
  | PacketValue.uint32 v :: rest => some (v, rest)
  | _ => none

/-- Extraction of a 64-bit integer. -/
def readUint64 : Packet → Option (Fin 18446744073709551616 × Packet)
  | PacketValue.uint64 v :: rest => some (v, rest)
  | _ => none

/-- Extraction of a float. -/
def readFloat : Packet → Option (ℚ × Packet)
  | PacketValue.float v :: rest => some (v, rest)
  | _ => none

end Packet

/-- The static_cast of a received byte to PacketType; none for a byte that is no enumerator,
for which the switch of receive has no case. -/
def PacketType.ofRaw (raw : Fin 256) : Option PacketType :=
  if raw.val = 0 then some PacketType.CONNECT
  else if raw.val = 1 then some PacketType.DISCONNECT
  else if raw.val = 2 then some PacketType.MOVE
  else if raw.val = 3 then some PacketType.FIRE
  else none

/-- Wire value of a packet type. -/
def PacketType.toRaw : PacketType → Fin 256
  | PacketType.CONNECT => 0
  | PacketType.DISCONNECT => 1
  | PacketType.MOVE => 2
  | PacketType.FIRE => 3

/-- The static_cast of a received byte to ProjectileType; none for a byte that is no
enumerator. -/
def ProjectileType.ofRaw (raw : Fin 256) : Option ProjectileType :=
  if raw.val = 0 then some ProjectileType.LASER
  else if raw.val = 1 then some ProjectileType.MISSILE
  else if raw.val = 2 then some ProjectileType.PLASMA
  else none

/-- Underlying value of a projectile type. -/
def ProjectileType.toRaw : ProjectileType → Fin 256
  | ProjectileType.LASER => 0
  | ProjectileType.MISSILE => 1
  | ProjectileType.PLASMA => 2

/-- NetworkManager. The field battle is the battle m_battle points at, connected tells whether
m_socket is connected, and sent lists the packets passed to m_socket.send, oldest first. -/
structure NetworkManager where
  m_isHost : Bool
  m_shipTurrets : List TurretInfo
  battle : BattleState
  connected : Bool
  sent : List Packet
deriving DecidableEq

namespace NetworkManager

/-- NetworkManager::send. -/
def send (nm : NetworkManager) (packet : Packet) : NetworkManager :=
  { nm with sent := nm.sent ++ [packet] }

/-- Extraction of the fields of a MOVE or FIRE packet after the packet type: the ship index
and the global position. -/
def readCommand (packet : Packet) : Option (Nat × Vector2f) :=
  match packet.readUint32 with
  | none => none
  | some (shipID, rest1) =>
    match Packet.readFloat rest1 with
    | none => none
    | some (x, rest2) =>
      match Packet.readFloat rest2 with
      | none => none
      | some (y, _) => some (shipID.val, ⟨x, y⟩)

/-- Loop of NetworkManager::unpackageShip: extraction of the build information of the given
number of turrets. -/
def readTurrets : Nat → Packet → Option (List TurretInfo × Packet)
  | 0, packet => some ([], packet)
  | n + 1, packet =>
    match packet.readUint8 with
    | none => none
    | some (projType, rest1) =>
      match Packet.readFloat rest1 with
      | none => none
      | some (x, rest2) =>
        match Packet.readFloat rest2 with
        | none => none
        | some (y, rest3) =>
          match ProjectileType.ofRaw projType, readTurrets n rest3 with
          | some ty, some (turretList, rest4) => some (⟨ty, ⟨x, y⟩⟩ :: turretList, rest4)
          | _, _ => none

/-- NetworkManager::unpackageShip. The turret count is a size_t, extracted as a 64-bit integer.
The result is none when an extraction fails or a byte is no projectile type. -/
def unpackageShip (L : Libm) (nm : NetworkManager) (shipPacket : Packet) : Option NetworkManager :=
  match Packet.readFloat shipPacket with
  | none => none
  | some (x, rest1) =>
    match Packet.readFloat rest1 with
    | none => none
    | some (y, rest2) =>
      match Packet.readFloat rest2 with
      | none => none
      | some (angle, rest3) =>
        match Packet.readUint64 rest3 with
        | none => none
        | some (turretAmount, rest4) =>
          match readTurrets turretAmount.val rest4 with
          | none => none
          | some (turretList, _) =>
            some { nm with battle := nm.battle.createShip L 1 ⟨x, y⟩ angle turretList }

/-- The values NetworkManager::sendShip inserts in the packet after the packet type. -/
def shipPayload (isHost : Bool) (shipTurrets : List TurretInfo) : Packet :=
  (if isHost then
    [PacketValue.float 1800, PacketValue.float 1800, PacketValue.float 45]
  else
    [PacketValue.float 2200, PacketValue.float 2200, PacketValue.float 225])
  ++ [PacketValue.uint64 (Fin.ofNat shipTurrets.length)]
  ++ shipTurrets.flatMap fun turretInfo =>
      [PacketValue.uint8 turretInfo.projType.toRaw, PacketValue.float turretInfo.localPosition.x,
       PacketValue.float turretInfo.localPosition.y]

/-- NetworkManager::sendShip. -/
def sendShip (nm : NetworkManager) : NetworkManager :=
  nm.send (PacketValue.uint8 PacketType.CONNECT.toRaw :: shipPayload nm.m_isHost nm.m_shipTurrets)

/-- Body of the loop of NetworkManager::receive for one received packet. The result is none
when an extraction fails, which leaves the extracted variable uninitialised in C++, or when
the ship index is outside the list of layer 1. A byte that is no packet type matches no case
of the switch. -/
def receiveOne (L : Libm) (nm : NetworkManager) (packet : Packet) : Option NetworkManager :=
  match packet.readUint8 with
  | none => none
  | some (rawPacketType, rest) =>
    match PacketType.ofRaw rawPacketType with
    | some PacketType.CONNECT => unpackageShip L nm rest
    | some PacketType.DISCONNECT => some { nm with connected := false }
    | some PacketType.MOVE =>
      match readCommand rest with
      | none => none
      | some (shipID, globalPosition) =>
        match nm.battle.issueMoveCommand 1 shipID globalPosition with
        | none => none
        | some b => some { nm with battle := b }
    | some PacketType.FIRE =>
      match readCommand rest with
      | none => none
      | some (shipID, globalPosition) =>
        match nm.battle.issueFireCommand 1 shipID globalPosition 0 with
        | none => none
        | some b => some { nm with battle := b }
    | none => some nm

/-- NetworkManager::receive on the packets the socket delivers, oldest first: the loop ends
when the socket is disconnected or has no more packet. -/
def receive (L : Libm) : NetworkManager → List Packet → Option NetworkManager
  | nm, [] => some nm
  | nm, packet :: rest =>
    if nm.connected then
      match receiveOne L nm packet with
      | none => none
      | some nm1 => receive L nm1 rest
    else some nm

/-- A MOVE packet as BattleState::handleInput builds it. -/
def movePacket (shipID : Fin 4294967296) (x y : ℚ) : Packet :=
  [PacketValue.uint8 PacketType.MOVE.toRaw, PacketValue.uint32 shipID, PacketValue.float x,
   PacketValue.float y]

/-- A FIRE packet as BattleState::handleInput builds it. -/
def firePacket (shipID : Fin 4294967296) (x y : ℚ) : Packet :=
  [PacketValue.uint8 PacketType.FIRE.toRaw, PacketValue.uint32 shipID, PacketValue.float x,
   PacketValue.float y]

end NetworkManager

/-! ## Sequences of calls -/

/-- A call of a public member function of Ship after construction. -/
inductive ShipCall where
  | update (deltaTime : Time)
  | moveCommand (target : Vector2f)
  | fireCommand (target : Vector2f) (layer : Fin 2)
  | collidePoint (globalPosition : Vector2f)
  | collide (proj : Projectile) (deltaTime : Time)
  | addTurrets (newTurrets : List TurretInfo)

/-- The ship after one call; the shots pushed by update and the returned values are dropped. -/
def Ship.call (L : Libm) (s : Ship) : ShipCall → Ship
  | ShipCall.update deltaTime => (s.update L deltaTime []).1
  | ShipCall.moveCommand target => s.moveCommand target
  | ShipCall.fireCommand target layer => s.fireCommand target layer
  | ShipCall.collidePoint globalPosition => (s.collidePoint L globalPosition).2
  | ShipCall.collide proj deltaTime => (s.collide L proj deltaTime).2
  | ShipCall.addTurrets newTurrets => s.addTurrets L newTurrets

/-- The ship after a sequence of calls. -/
def Ship.calls (L : Libm) (s : Ship) (cs : List ShipCall) : Ship := cs.foldl (Ship.call L) s

/-- The ships seen after each of a sequence of ticks with no command in between. -/
def Ship.ticks (L : Libm) : Ship → List Time → List Ship
  | _, [] => []
  | s, deltaTime :: rest => (s.update L deltaTime []).1 :: Ship.ticks L (s.update L deltaTime []).1 rest

/-- The movement states seen after a move command and after each of the ticks that follow. -/
def Ship.statesAfterMove (L : Libm) (s : Ship) (target : Vector2f) (deltaTimes : List Time) :
    List MovementState :=
  ((s.moveCommand target) :: Ship.ticks L (s.moveCommand target) deltaTimes).map
    fun t => t.m_movementState

/-- The turret and the fire list after a sequence of ticks with no command in between. -/
def Turret.ticks (L : Libm) (parentTransform : Transform) :
    Turret → List ShotInfo → List Time → Turret × List ShotInfo
  | t, fireList, [] => (t, fireList)
  | t, fireList, deltaTime :: rest =>
    Turret.ticks L parentTransform (t.update L parentTransform deltaTime fireList).1
      (t.update L parentTransform deltaTime fireList).2 rest

/-- Two fire commands to a turret, with ticks between them and ticks after the second one,
starting from an empty fire list: the turret and the fire list at the end. -/
def Turret.twoCommands (L : Libm) (parentTransform : Transform) (t : Turret)
    (target1 : Vector2f) (layer1 : Fin 2) (between : List Time)
    (target2 : Vector2f) (layer2 : Fin 2) (after : List Time) : Turret × List ShotInfo :=
  let r1 := Turret.ticks L parentTransform (t.fireCommand target1 layer1) [] between
  Turret.ticks L parentTransform (r1.1.fireCommand target2 layer2) r1.2 after

/-- The cell of the destruction key that Ship::collide(point) reads for the anchor point of a
turret of the ship. -/
def Ship.anchorCell (L : Libm) (s : Ship) (t : Turret) : Vector2i :=
  let pixelPosition :=
    s.getPixelPosition L ((s.toTransformable.getTransform L).transformPoint t.toTransformable.position)
  ⟨((pixelPosition.x.toNat / Ship.KEY_SIZE_FACTOR : Nat) : Int),
   ((pixelPosition.y.toNat / Ship.KEY_SIZE_FACTOR : Nat) : Int)⟩

/-- The image a is the image b with some of its pixels made transparent. -/
def Image.Damaged (a b : Image) : Prop :=
  a.width = b.width ∧ a.height = b.height ∧
    ∀ i, a.pixels.getD i false = true → b.pixels.getD i false = true

/-- Position of a movement state in the cycle of a move: Rotating, Moving, Decelerating,
Idle. -/
def MovementState.rank : MovementState → Nat
  | MovementState.ROTATING => 0
  | MovementState.MOVING => 1
  | MovementState.DECELERATING => 2
  | MovementState.IDLE => 3

/-- The transitions Ship::update may make in one tick: stay, or go to the next state of the
cycle; an idle ship stays idle. -/
def MovementState.Step (a b : MovementState) : Prop :=
  b = a ∨ (a = MovementState.ROTATING ∧ b = MovementState.MOVING) ∨
    (a = MovementState.MOVING ∧ b = MovementState.DECELERATING) ∨
    (a = MovementState.DECELERATING ∧ b = MovementState.IDLE)

/-- Every ship of both layers has at least one turret. -/
def BattleState.AllArmed (b : BattleState) : Prop :=
  ∀ l, ∀ s ∈ b.shipList l, 0 < s.m_turrets.length

/-- The states of the cycle of a move from a given state on. -/
def MovementState.cycleFrom : MovementState → List MovementState
  | MovementState.ROTATING =>
    [MovementState.ROTATING, MovementState.MOVING, MovementState.DECELERATING, MovementState.IDLE]
  | MovementState.MOVING => [MovementState.MOVING, MovementState.DECELERATING, MovementState.IDLE]
  | MovementState.DECELERATING => [MovementState.DECELERATING, MovementState.IDLE]
  | MovementState.IDLE => [MovementState.IDLE]

/-- The battle after the removal test of BattleState::resolveProjectiles on a moved
projectile: BattleState::collide is called only for a projectile that is not flagged
finished. -/
def BattleState.afterTest (L : Libm) (b : BattleState) (p1 : Projectile) (deltaTime : Time) :
    BattleState :=
  if p1.requiresCleanup then b else (b.collide L p1 deltaTime).2

/-- The removal test of BattleState::resolveProjectiles on a moved projectile. -/
def BattleState.removes (L : Libm) (b : BattleState) (p1 : Projectile) (deltaTime : Time) : Bool :=
  p1.requiresCleanup || (b.collide L p1 deltaTime).1 ||
    !(p1.getGlobalBounds L).intersects BattleState.m_viewBounds

/-- A call of a public member function of Turret after construction. An update carries the
transform of the parent ship that the turret reads during the call. -/
inductive TurretCall where
  | update (parentTransform : Transform) (deltaTime : Time)
  | fireCommand (target : Vector2f) (layer : Fin 2)

/-- The time a call lets pass: the deltaTime of an update, nothing for a fire command. -/
def TurretCall.deltaTime : TurretCall → Time
  | TurretCall.update _ deltaTime => deltaTime
  | TurretCall.fireCommand _ _ => 0

/-- The turret after one call and the shots the call pushed on an empty fire list. -/
def Turret.call (L : Libm) (t : Turret) : TurretCall → Turret × List ShotInfo
  | TurretCall.update parentTransform deltaTime => t.update L parentTransform deltaTime []
  | TurretCall.fireCommand target layer => (t.fireCommand target layer, [])

/-- The turret after a sequence of calls. -/
def Turret.calls (L : Libm) (t : Turret) (cs : List TurretCall) : Turret :=
  cs.foldl (fun u c => (u.call L c).1) t

/-- For every shot the turret emits during a sequence of calls, except the first one, the sum
of the deltaTimes of the updates after the emission of the shot before, up to and including
the update that emits the shot. The second argument is that sum so far, none before the first
emission. -/
def Turret.shotGaps (L : Libm) : Turret → Option Time → List TurretCall → List Time
  | _, _, [] => []
  | t, since, c :: cs =>
    if (t.call L c).2 = [] then
      Turret.shotGaps L (t.call L c).1 (since.map fun e => e + c.deltaTime) cs
    else
      (since.map fun e => e + c.deltaTime).toList ++ Turret.shotGaps L (t.call L c).1 (some 0) cs

/-! ## Quantities the claims speak of

Values the code computes on the way, named so that the theorems can speak of them, and the
closed forms the ray cast is compared with. -/

/-- The position NetworkManager::sendShip writes for the host flag. -/
def NetworkManager.sentPosition (isHost : Bool) : Vector2f :=
  if isHost then ⟨1800, 1800⟩ else ⟨2200, 2200⟩

/-- The angle NetworkManager::sendShip writes for the host flag. -/
def NetworkManager.sentAngle (isHost : Bool) : ℚ := if isHost then 45 else 225

/-- The values NetworkManager::sendShip inserts for the turrets. -/
def NetworkManager.turretPayload (shipTurrets : List TurretInfo) : Packet :=
  shipTurrets.flatMap fun turretInfo =>
    [PacketValue.uint8 turretInfo.projType.toRaw, PacketValue.float turretInfo.localPosition.x,
     PacketValue.float turretInfo.localPosition.y]

/-- The distance from the ship to its destination that Ship::update computes at the start of
a tick. -/
def Ship.remainingDistance (L : Libm) (s : Ship) : ℚ :=
  L.sqrt ((s.m_destination.sub s.toTransformable.position).x *
      (s.m_destination.sub s.toTransformable.position).x +
    (s.m_destination.sub s.toTransformable.position).y *
      (s.m_destination.sub s.toTransformable.position).y)

/-- The first two steps of BattleState::update: a projectile is created for every queued shot
and the queue is cleared. -/
def BattleState.spawnQueued (L : Libm) (b : BattleState) : BattleState :=
  { b.m_readyToFire.foldl (BattleState.createProjectile L) b with m_readyToFire := [] }

/-- Closed form of the Bresenham line: the number of steps along the minor axis made after i
steps along the major axis of a line with the given extents, which is i * dMinor / dMajor
rounded to the nearest integer, a half rounded down. -/
def bresenhamOffset (dMajor dMinor i : Nat) : Nat := (2 * i * dMinor + dMajor - 1) / (2 * dMajor)

/-- The test the loop of Ship::firstPixelHit makes on a cell: the bounds test, which is given
the row before the column for a line that is not steep, and the alpha test. -/
def Ship.cellTest (key : Image) (isSteep : Bool) (c : Vector2i) : Bool :=
  IntRect.contains key.width key.height (if isSteep then c.x else c.y)
      (if isSteep then c.y else c.x) &&
    key.getPixel c.x.toNat c.y.toNat

/-- The cell of step i of a Bresenham line in major and minor coordinates. -/
def Ship.lineCell (isSteep : Bool) (major0 minor0 stepMajor stepMinor : Int) (n m i : Nat) :
    Vector2i :=
  if isSteep then
    ⟨minor0 + (bresenhamOffset n m i : Int) * stepMinor, major0 + (i : Int) * stepMajor⟩
  else
    ⟨major0 + (i : Int) * stepMajor, minor0 + (bresenhamOffset n m i : Int) * stepMinor⟩

/-- Whether the line between two cells is steep, as Ship::firstPixelHit tests it. -/
def Ship.isSteepLine (a b : Vector2i) : Bool := decide (|b.x - a.x| < |b.y - a.y|)

/-- The cells of the Bresenham line from the cell a towards the cell b, in order from a, the
cell b left out. -/
def Ship.bresenhamCells (a b : Vector2i) : List Vector2i :=
  if Ship.isSteepLine a b then
    (List.range (b.y - a.y).natAbs).map
      (Ship.lineCell true a.y a.x (if b.y < a.y then -1 else 1) (if a.x < b.x then 1 else -1)
        (b.y - a.y).natAbs (b.x - a.x).natAbs)
  else
    (List.range (b.x - a.x).natAbs).map
      (Ship.lineCell false a.x a.y (if b.x < a.x then -1 else 1) (if a.y < b.y then 1 else -1)
        (b.x - a.x).natAbs (b.y - a.y).natAbs)

/-- Whether a cell lies inside the key and is solid. -/
def Image.solidAt (key : Image) (c : Vector2i) : Bool :=
  IntRect.contains key.width key.height c.x c.y && key.getPixel c.x.toNat c.y.toNat

/-- The cell pixelStartPosition of Ship::firstPixelHit: the key cell of the position the
projectile had before its move. -/
def Ship.startCell (L : Libm) (s : Ship) (proj : Projectile) (deltaTime : Time) : Vector2i :=
  ((s.getPixelPosition L
      (proj.toTransformable.position.sub (proj.getVelocity.mul (Time.asSeconds deltaTime)))).toVector2f.div
    (Ship.KEY_SIZE_FACTOR : ℚ)).toVector2i

/-- The cell pixelEndPosition of Ship::firstPixelHit: the key cell of the position of the
projectile. -/
def Ship.endCell (L : Libm) (s : Ship) (proj : Projectile) : Vector2i :=
  ((s.getPixelPosition L proj.toTransformable.position).toVector2f.div
    (Ship.KEY_SIZE_FACTOR : ℚ)).toVector2i

/-- The point at the parameter t of the straight segment from the centre of the cell a to the
centre of the cell b, in cell coordinates. -/
def Ship.segmentPoint (a b : Vector2i) (t : ℚ) : Vector2f :=
  ⟨(a.x : ℚ) + 1 / 2 + t * ((b.x : ℚ) - (a.x : ℚ)), (a.y : ℚ) + 1 / 2 + t * ((b.y : ℚ) - (a.y : ℚ))⟩

/-- Whether a point lies strictly inside a cell. -/
def Ship.insideCell (p : Vector2f) (c : Vector2i) : Bool :=
  decide ((c.x : ℚ) < p.x) && decide (p.x < (c.x : ℚ) + 1) &&
    decide ((c.y : ℚ) < p.y) && decide (p.y < (c.y : ℚ) + 1)

/-- The arc from the rotation r to the bearing a, both in [0, 360), measured in the positive
direction: (a - r) mod 360. -/
def CSB.arcTo (r a : ℚ) : ℚ := if r ≤ a then a - r else a - r + 360

/-- The alpha test on the pixel (x, y) of an image, for a position inside the image. -/
def Image.alphaAt (img : Image) (x y : Nat) : Bool :=
  decide (x < img.width) && decide (y < img.height) && img.getPixel x y

/-- Whether at least one of the 16 pixels (4 cx + i, 4 cy + j), with i and j below 4, of the
image has a non-zero alpha. -/
def Image.blockAlpha (img : Image) (cx cy : Nat) : Bool :=
  (List.range 4).any fun j => (List.range 4).any fun i => img.alphaAt (4 * cx + i) (4 * cy + j)

/-- The divisors of the divisions by the distance to the destination and by the speed that
Ship::update evaluates in a tick, in the order of the source: vectorDistance / vectorLength and
vectorLength / m_speed in MOVING, vectorDistance / vectorLength in the else branch of
DECELERATING. -/
def Ship.updateDivisors (L : Libm) (s : Ship) (deltaTime : Time) : List ℚ :=
  match s.m_movementState with
  | MovementState.IDLE => []
  | MovementState.ROTATING => []
  | MovementState.MOVING =>
    [s.remainingDistance L, s.m_speed + s.m_acceleration * Time.asSeconds deltaTime]
  | MovementState.DECELERATING =>
    if s.m_speed - s.m_deceleration * Time.asSeconds deltaTime ≤ 0 ∨
        s.remainingDistance L < 1 / 10000 then []
    else [s.remainingDistance L]

/-- Step 2 of the tick as the specification words it: position += velocity x deltaTime. -/
def Projectile.advance (p : Projectile) (deltaTime : Time) : Projectile :=
  let position : Vector2f :=
    ⟨p.toTransformable.position.x + p.m_velocity.x * Time.asSeconds deltaTime,
     p.toTransformable.position.y + p.m_velocity.y * Time.asSeconds deltaTime⟩
  { p with toTransformable := ⟨p.toTransformable.origin, position, p.toTransformable.rotation⟩ }

/-- Step 3 of the tick for one projectile as the specification words it: the ships of the
layer are tested in list order with the collision test of a ship; the first ship that
registers a hit consumes the projectile, and the ships after it are not tested; a struck ship
whose turret count has become zero is removed from the list. Returns whether the projectile
was consumed and the ships after the tests. -/
def BattleState.specTestShips (L : Libm) (proj : Projectile) (deltaTime : Time) :
    List Ship → Bool × List Ship
  | [] => (false, [])
  | ship :: rest =>
    if (ship.collide L proj deltaTime).1 then
      (true,
       if (ship.collide L proj deltaTime).2.m_turrets.length = 0 then rest
       else (ship.collide L proj deltaTime).2 :: rest)
    else
      ((BattleState.specTestShips L proj deltaTime rest).1,
       (ship.collide L proj deltaTime).2 :: (BattleState.specTestShips L proj deltaTime rest).2)

/-- Step 3 of the tick as the specification words it: every projectile is tested, in list
order, against the ships of its layer. Takes and returns the ship lists of layer 0 and of
layer 1, and returns for every projectile whether it was consumed. -/
def BattleState.specTestAll (L : Libm) (deltaTime : Time) :
    List Ship × List Ship → List Projectile → (List Ship × List Ship) × List Bool
  | ships, [] => (ships, [])
  | ships, p :: ps =>
    let tested :=
      BattleState.specTestShips L p deltaTime (if p.m_layer = 0 then ships.1 else ships.2)
    let ships1 := if p.m_layer = 0 then (tested.2, ships.2) else (ships.1, tested.2)
    ((BattleState.specTestAll L deltaTime ships1 ps).1,
     tested.1 :: (BattleState.specTestAll L deltaTime ships1 ps).2)

/-- Step 4 of the tick as the specification words it: the projectiles that collided, left the
playable bounds or are finished are removed. -/
def BattleState.removeSpent (L : Libm) : List Projectile → List Bool → List Projectile
  | p :: ps, collided :: cs =>
    if collided || !(p.getGlobalBounds L).intersects BattleState.m_viewBounds || p.requiresCleanup
    then BattleState.removeSpent L ps cs
    else p :: BattleState.removeSpent L ps cs
  | _, _ => []

/-- The phased procedure of the specification for the projectile part of a tick, written
without the functions of BattleState: the projectile list is extended by one projectile per
queued shot, in queue order; every projectile is advanced; every projectile is tested; the
spent projectiles are removed. Returns the projectile list and the ship lists of layer 0 and of
layer 1. -/
def BattleState.phasedProjectiles (L : Libm) (b : BattleState) (deltaTime : Time) :
    List Projectile × List Ship × List Ship :=
  let spawned := b.m_projList ++ b.m_readyToFire.map (Projectile.ofShotInfo L)
  let advanced := spawned.map fun p => p.advance deltaTime
  let tested := BattleState.specTestAll L deltaTime (b.m_shipList0, b.m_shipList1) advanced
  (BattleState.removeSpent L advanced tested.2, tested.1.1, tested.1.2)

/-! ## Locks

The mutexes of the program and the order in which each member function locks them, unlocks
them and touches the containers they are meant to guard. The loops are unrolled over the data
that decides their control flow. -/

/-- The mutexes declared in BattleState.cpp (shipMutex, projMutex) and in Ship.cpp
(turretMutex). -/
inductive Mutex where
  | shipMutex
  | projMutex
  | turretMutex
deriving DecidableEq

/-- The containers of BattleState: the two ship lists m_shipList, the projectile list
m_projList and the pending-fire queue m_readyToFire. -/
inductive Container where
  | shipLists
  | projList
  | fireQueue
deriving DecidableEq

/-- What a statement does with a container: it walks through it (an iterator or a range-based
loop, begin, end, size), or it changes it (push_back, erase, clear). -/
inductive AccessKind where
  | traverse
  | mutate
deriving DecidableEq

/-- One step of a thread that matters for the locking discipline. -/
inductive LockEvent where
  | lock (m : Mutex)
  | unlock (m : Mutex)
  | access (c : Container) (k : AccessKind)
deriving DecidableEq

namespace LockEvent

/-- Runs a sequence of steps from a set of held mutexes (an sf::Mutex may be locked again by
the thread that holds it). A guard names, for a container and a kind of access, the mutex that
has to be held. The result is the set of mutexes held at the end, or none when an access is
made while its mutex is not held. -/
def run (guard : Container → AccessKind → Option Mutex) :
    List LockEvent → List Mutex → Option (List Mutex)
  | [], held => some held
  | lock m :: rest, held => run guard rest (m :: held)
  | unlock m :: rest, held => run guard rest (held.erase m)
  | access c k :: rest, held =>
    match guard c k with
    | none => run guard rest held
    | some m => if m ∈ held then run guard rest held else none

/-- The discipline of the specification: every traversal or mutation of the ship lists needs
shipMutex, of the projectile list projMutex, and of the pending-fire queue the mutex that is
taken to be dedicated to it. -/
def specGuard (queueMutex : Mutex) : Container → AccessKind → Option Mutex
  | Container.shipLists, _ => some Mutex.shipMutex
  | Container.projList, _ => some Mutex.projMutex
  | Container.fireQueue, _ => some queueMutex

/-- The discipline the code follows on every path: every traversal or mutation of the
projectile list needs projMutex and every mutation of the ship lists needs shipMutex. -/
def codeGuard : Container → AccessKind → Option Mutex
  | Container.projList, _ => some Mutex.projMutex
  | Container.shipLists, AccessKind.mutate => some Mutex.shipMutex
  | _, _ => none

/-- The discipline on the ship lists alone, traversals included. -/
def shipGuard : Container → AccessKind → Option Mutex
  | Container.shipLists, _ => some Mutex.shipMutex
  | _, _ => none

end LockEvent

/-- Turret::fire: the push_back on the fire list, with no lock of its own. -/
def Turret.fireEvents : List LockEvent :=
  [LockEvent.access Container.fireQueue AccessKind.mutate]

/-- Ship::update: turretMutex is locked around the loop over the turrets; a turret that comes
to face its target calls fire. The list tells for each turret whether it fires. -/
def Ship.updateEvents (fires : List Bool) : List LockEvent :=
  [LockEvent.lock Mutex.turretMutex] ++
  fires.flatMap (fun f => if f then Turret.fireEvents else []) ++
  [LockEvent.unlock Mutex.turretMutex]

/-- Ship::collide(projectile): on a hit turretMutex is locked around the erasure of the
turrets. -/
def Ship.collideEvents (hit : Bool) : List LockEvent :=
  if hit then [LockEvent.lock Mutex.turretMutex, LockEvent.unlock Mutex.turretMutex] else []

/-- Ship::fireCommand and Ship::draw: turretMutex is locked around the loop over the
turrets. -/
def Ship.turretLoopEvents : List LockEvent :=
  [LockEvent.lock Mutex.turretMutex, LockEvent.unlock Mutex.turretMutex]

namespace BattleState

/-- BattleState::createShip: the push_back is made between shipMutex.lock() and
shipMutex.unlock(). -/
def createShipEvents : List LockEvent :=
  [LockEvent.lock Mutex.shipMutex, LockEvent.access Container.shipLists AccessKind.mutate,
   LockEvent.unlock Mutex.shipMutex]

/-- BattleState::createProjectile: the push_back is made between projMutex.lock() and
projMutex.unlock(). -/
def createProjectileEvents : List LockEvent :=
  [LockEvent.lock Mutex.projMutex, LockEvent.access Container.projList AccessKind.mutate,
   LockEvent.unlock Mutex.projMutex]

/-- The erasure of a dead ship in BattleState::collide: the erase is made between
shipMutex.lock() and shipMutex.unlock(), the call of size() that follows is not. -/
def eraseShipEvents : List LockEvent :=
  [LockEvent.lock Mutex.shipMutex, LockEvent.access Container.shipLists AccessKind.mutate,
   LockEvent.unlock Mutex.shipMutex, LockEvent.access Container.shipLists AccessKind.traverse]

/-- BattleState::collide: the iterator is taken with begin(); every pass of the loop compares
it with end() and calls Ship::collide on the ship; a miss steps the iterator; a hit erases the
ship when it is dead. The loop tests the given number of ships without a hit and then, when
the option holds a value, a ship that is hit, erased or not. -/
def collideEvents (misses : Nat) (hit : Option Bool) : List LockEvent :=
  [LockEvent.access Container.shipLists AccessKind.traverse] ++
  (List.replicate misses
    ([LockEvent.access Container.shipLists AccessKind.traverse] ++ Ship.collideEvents false ++
      [LockEvent.access Container.shipLists AccessKind.traverse])).flatten ++
  (match hit with
   | none => [LockEvent.access Container.shipLists AccessKind.traverse]
   | some erased =>
     [LockEvent.access Container.shipLists AccessKind.traverse] ++ Ship.collideEvents true ++
       (if erased then eraseShipEvents else []))

/-- What BattleState::resolveProjectiles does with one projectile: whether it is flagged
finished (collide is then not called), how the loop of collide runs for it, and whether it is
erased from the list. -/
structure ProjectileRun where
  finished : Bool
  misses : Nat
  hit : Option Bool
  erased : Bool

/-- One pass of the loop of BattleState::resolveProjectiles. -/
def resolveOneEvents (r : ProjectileRun) : List LockEvent :=
  [LockEvent.access Container.projList AccessKind.traverse] ++
  (if r.finished then [] else collideEvents r.misses r.hit) ++
  [LockEvent.access Container.projList (if r.erased then AccessKind.mutate else AccessKind.traverse)]

/-- BattleState::resolveProjectiles: the whole loop runs between projMutex.lock() and
projMutex.unlock(). -/
def resolveProjectilesEvents (runs : List ProjectileRun) : List LockEvent :=
  [LockEvent.lock Mutex.projMutex] ++ runs.flatMap resolveOneEvents ++
  [LockEvent.unlock Mutex.projMutex]

/-- The loop of BattleState::update over the ships of both layers, between shipMutex.lock() and
shipMutex.unlock(); the list holds, for every ship, which of its turrets fire. -/
def shipLoopEvents (ships : List (List Bool)) : List LockEvent :=
  [LockEvent.lock Mutex.shipMutex] ++
  ships.flatMap (fun fires =>
    LockEvent.access Container.shipLists AccessKind.traverse :: Ship.updateEvents fires) ++
  [LockEvent.unlock Mutex.shipMutex]

/-- BattleState::update: the queued shots are walked through and turned into projectiles
between projMutex.lock() and projMutex.unlock(); the queue is cleared after the unlock; then
come resolveProjectiles and the loop over the ships. -/
def updateEvents (queued : Nat) (runs : List ProjectileRun) (ships : List (List Bool)) :
    List LockEvent :=
  [LockEvent.lock Mutex.projMutex] ++
  (List.replicate queued
    (LockEvent.access Container.fireQueue AccessKind.traverse :: createProjectileEvents)).flatten ++
  [LockEvent.unlock Mutex.projMutex, LockEvent.access Container.fireQueue AccessKind.mutate] ++
  resolveProjectilesEvents runs ++ shipLoopEvents ships

/-- BattleState::draw: the ships are drawn between shipMutex.lock() and shipMutex.unlock(), the
projectiles between projMutex.lock() and projMutex.unlock(). -/
def drawEvents (ships projectiles : Nat) : List LockEvent :=
  [LockEvent.lock Mutex.shipMutex] ++
  (List.replicate ships
    (LockEvent.access Container.shipLists AccessKind.traverse :: Ship.turretLoopEvents)).flatten ++
  [LockEvent.unlock Mutex.shipMutex, LockEvent.lock Mutex.projMutex] ++
  List.replicate projectiles (LockEvent.access Container.projList AccessKind.traverse) ++
  [LockEvent.unlock Mutex.projMutex]

/-- BattleState::issueMoveCommand: the ship is taken from the list by its index and commanded;
no mutex is locked and the list is neither walked through nor changed. -/
def issueMoveCommandEvents : List LockEvent := []

/-- BattleState::issueFireCommand: as issueMoveCommand, and Ship::fireCommand locks
turretMutex. -/
def issueFireCommandEvents : List LockEvent := Ship.turretLoopEvents

end BattleState

/-- A block of steps keeps the discipline and the held mutexes when it is run with the
mutexes of a set held. -/
def LockEvent.Keeps (g : Container → AccessKind → Option Mutex) (need : List Mutex)
    (block : List LockEvent) : Prop :=
  ∀ held, (∀ m ∈ need, m ∈ held) → LockEvent.run g block held = some held

/-! ## Sample inputs

Concrete inputs on which the definitions above are evaluated. They are axis-aligned: every
rotation is 0 and every direction is along the x axis, so the maths library is used at the
angle 0, on the x axis and at perfect squares only. -/

/-- Bisection for the integer square root: the largest k with k * k at most n lies between
lo and hi. -/
def isqrtLoop (n : Nat) : Nat → Nat → Nat → Nat
  | 0, lo, _ => lo
  | fuel + 1, lo, hi =>
    if hi ≤ lo + 1 then lo
    else if (lo + hi) / 2 * ((lo + hi) / 2) ≤ n then isqrtLoop n fuel ((lo + hi) / 2) hi
    else isqrtLoop n fuel lo ((lo + hi) / 2)

/-- Integer square root of a number below 2 ^ 64. -/
def isqrt (n : Nat) : Nat := isqrtLoop n 64 0 (n + 1)

/-- A stand-in for the maths library that is exact where the sample inputs use it: sqrt on
squares of rationals, cos and sin at the angle 0 (their Taylor polynomials of degree two at 0),
atan2 on the x axis, with CSB.PI for pi. -/
def sampleLibm : Libm where
  sqrt q := (isqrt q.num.toNat : ℚ) / (isqrt q.den : ℚ)
  cos a := 1 - a * a / 2
  sin a := a
  atan2 y x :=
    if y = 0 then (if 0 ≤ x then 0 else CSB.PI) else if 0 < y then CSB.PI / 2 else -(CSB.PI / 2)

/-- A hull texture of 4 x 4 pixels, all of them solid: its key has the single cell (0, 0). -/
def sampleHull : Image := ⟨4, 4, List.replicate 16 true⟩

/-- A ship at (2, 2) with rotation 0, so that global and local coordinates coincide, with one
laser turret anchored at the pixel (1, 1). -/
def sampleShip : Ship :=
  Ship.create sampleLibm ⟨2, 2⟩ 0 [⟨ProjectileType.LASER, ⟨1, 1⟩⟩] sampleHull

/-- A laser on the given layer at (1, 2) flying along the x axis at its speed of 1000: a tick
of 4000 microseconds moves it to (5, 2), from the key cell (0, 0) to the key cell (1, 0). -/
def sampleShot (layer : Fin 2) : Projectile :=
  { toTransformable := ⟨⟨4, 2⟩, ⟨1, 2⟩, 0⟩
    size := ⟨8, 4⟩
    m_projType := ProjectileType.LASER
    m_layer := layer
    m_velocity := ⟨1000, 0⟩
    m_isFinished := false }

/-- A battle with one ship on layer 0, two ships on layer 1, and one shot in flight on each
layer, the shot of layer 0 first. -/
def sampleBattle : BattleState :=
  { m_isFinished := false
    m_projList := [sampleShot 0, sampleShot 1]
    m_shipList0 := [sampleShip]
    m_shipList1 := [sampleShip, sampleShip]
    m_readyToFire := []
    hullTexture := sampleHull
    leftBattle := false }

/-- A laser turret, reload 0.5 s, anchored at (1, 1) with rotation 0, 0.1 s after its
construction. -/
def sampleTurret : Turret :=
  (Turret.update sampleLibm Transform.identity
    (Turret.ofTurretInfo ⟨ProjectileType.LASER, ⟨1, 1⟩⟩) 100000 []).1

/-- A network manager of a joining player in the sample battle. -/
def sampleNetworkManager : NetworkManager :=
  { m_isHost := false
    m_shipTurrets := [⟨ProjectileType.LASER, ⟨1, 1⟩⟩]
    battle := sampleBattle
    connected := true
    sent := [] }

/-- The sample ship, at (2, 2) with rotation 0, ordered to move to (37, 2). -/
def sampleMover : Ship := sampleShip.moveCommand ⟨37, 2⟩

/-- The sample mover at (42, 2), decelerating with the speed 10. -/
def sampleBraker : Ship :=
  { sampleMover with
    toTransformable := ⟨⟨2, 2⟩, ⟨42, 2⟩, 0⟩
    m_speed := 10
    m_movementState := MovementState.DECELERATING }

/-- The sample mover with another rotation. -/
def sampleTurner (rotation : ℚ) : Ship :=
  { sampleMover with toTransformable := ⟨⟨2, 2⟩, ⟨2, 2⟩, rotation⟩ }

/-- A battle with one ship on each layer and the sample shot of layer 0 in flight. -/
def sampleDuel : BattleState :=
  { sampleBattle with m_projList := [sampleShot 0], m_shipList1 := [sampleShip] }

/-- A hull texture of 12 x 12 pixels whose solid pixels are those of the middle block of
4 x 4 pixels: of the 3 x 3 cells of its key only the cell (1, 1) is solid. -/
def ringHull : Image :=
  ⟨12, 12, (List.range 144).map fun i =>
    decide (4 ≤ i % 12) && decide (i % 12 < 8) && decide (4 ≤ i / 12) && decide (i / 12 < 8)⟩

/-- A ship with the hull ringHull at (6, 6) with rotation 0, so that global and local
coordinates coincide. -/
def ringShip : Ship := Ship.create sampleLibm ⟨6, 6⟩ 0 [] ringHull

/-- A projectile at (9, 5) that a tick of 4000 microseconds has moved there from (1, 1): from
the key cell (0, 0) to the key cell (2, 1). -/
def slantShot : Projectile :=
  { toTransformable := ⟨⟨4, 2⟩, ⟨9, 5⟩, 0⟩
    size := ⟨8, 4⟩
    m_projType := ProjectileType.LASER
    m_layer := 0
    m_velocity := ⟨2000, 1000⟩
    m_isFinished := false }

/-- A hull texture of 6 x 8 pixels whose only solid pixel is (4, 0). -/
def oddHull : Image := ⟨6, 8, (List.range 48).map fun i => decide (i = 4)⟩

/-- A hull texture of 4 x 8 pixels whose rows 4 to 7 are solid: its key has one column and two
rows, the cell (0, 0) transparent and the cell (0, 1) solid. -/
def tallHull : Image := ⟨4, 8, (List.range 32).map fun i => decide (16 ≤ i)⟩

/-- A ship with the hull tallHull at (2, 4) with rotation 0, so that global and local
coordinates coincide. -/
def tallShip : Ship := Ship.create sampleLibm ⟨2, 4⟩ 0 [] tallHull

/-- A missile at (10, 2) that a tick of 12000 microseconds has moved there from (1, 2), along
the top row of the cells: from the key cell (0, 0) to the key cell (2, 0). -/
def levelShot : Projectile :=
  { toTransformable := ⟨⟨12, 4⟩, ⟨10, 2⟩, 0⟩
    size := ⟨24, 8⟩
    m_projType := ProjectileType.MISSILE
    m_layer := 0
    m_velocity := ⟨750, 0⟩
    m_isFinished := false }

/-- The sample ship after a move command to its own position (2, 2) and a tick of one second,
in which it finds itself facing the destination. -/
def sampleStayer : Ship := ((sampleShip.moveCommand ⟨2, 2⟩).update sampleLibm 1000000 []).1

/-- A sequence of calls on a turret at (1, 1) under the identity transform: the reload is
awaited for 0.6 s, a target on the axis the turret faces is ordered and shot at in the next
tick of 1000 microseconds, and the same is done once more. -/
def sampleCalls : List TurretCall :=
  [TurretCall.update Transform.identity 600000, TurretCall.fireCommand ⟨5, 1⟩ 0,
   TurretCall.update Transform.identity 1000, TurretCall.update Transform.identity 600000,
   TurretCall.fireCommand ⟨5, 1⟩ 0, TurretCall.update Transform.identity 1000]

/-- A laser of layer 0 at (2000, 2000), far from every sample ship, flying along the x axis. -/
def farShot : Projectile := { sampleShot 0 with toTransformable := ⟨⟨4, 2⟩, ⟨2000, 2000⟩, 0⟩ }

/-- A laser of layer 0 at (4001, 2000), flying along the x axis: its bounds reach from x = 3997
to x = 4005, and a tick of 4000 microseconds moves them to x = 4001 to x = 4009, outside the
playable area. -/
def strayShot : Projectile := { sampleShot 0 with toTransformable := ⟨⟨4, 2⟩, ⟨4001, 2000⟩, 0⟩ }

/-- The sample battle with the far shot and the stray shot in flight. -/
def sampleSky : BattleState := { sampleBattle with m_projList := [farShot, strayShot] }

/-- The sample battle with one queued shot of layer 1, spawned at (100, 2) towards (200, 2). -/
def sampleVolley : BattleState :=
  { sampleBattle with m_readyToFire := [⟨ProjectileType.LASER, 1, ⟨100, 2⟩, ⟨200, 2⟩⟩] }

/-- A hull texture of 6 x 8 pixels whose only solid pixel is (2, 4), in the block of the key
cell (0, 1): its key has one column and two rows, the cell (0, 0) transparent and the cell
(0, 1) solid. -/
def sideHull : Image := ⟨6, 8, (List.range 48).map fun i => decide (i = 26)⟩

/-- A ship with the hull sideHull at (3, 4) with rotation 0, so that global and local
coordinates coincide. -/
def sideShip : Ship := Ship.create sampleLibm ⟨3, 4⟩ 0 [] sideHull

/-! # Theorems -/

/-! ## C1: the destruction key only loses pixels -/

theorem Image.Damaged.refl (a : Image) : Image.Damaged a a := ⟨rfl, rfl, fun _ h => h⟩

theorem Image.Damaged.trans {a b c : Image} (h1 : Image.Damaged a b) (h2 : Image.Damaged b c) :
    Image.Damaged a c :=
  ⟨h1.1.trans h2.1, h1.2.1.trans h2.2.1, fun i h => h2.2.2 i (h1.2.2 i h)⟩

theorem Image.setPixel_false_damaged (img : Image) (x y : Nat) :
    Image.Damaged (img.setPixel x y false) img := by
  refine ⟨rfl, rfl, fun i h => ?_⟩
  simp only [Image.setPixel, List.getD_eq_getElem?_getD, List.getElem?_set] at h ⊢
  split at h
  · split at h <;> simp at h
  · exact h

theorem Image.Damaged.solidCells_subset {a b : Image} (h : Image.Damaged a b) :
    a.solidCells ⊆ b.solidCells := by
  intro c hc
  simp only [Image.solidCells, Finset.mem_filter, Finset.mem_product, Finset.mem_range] at hc ⊢
  refine ⟨⟨h.1 ▸ hc.1.1, h.2.1 ▸ hc.1.2⟩, ?_⟩
  have := hc.2
  unfold Image.getPixel at this ⊢
  rw [h.1] at this
  exact h.2.2 _ this

theorem Ship.updateMovement_keyImage (L : Libm) (s : Ship) (dt : Time) :
    (s.updateMovement L dt).m_keyImage = s.m_keyImage := by
  unfold Ship.updateMovement
  cases s.m_movementState
  · rfl
  · rfl
  · rfl
  · simp only []
    split
    · rfl
    · rfl

theorem Ship.update_keyImage (L : Libm) (s : Ship) (dt : Time) (fl : List ShotInfo) :
    (s.update L dt fl).1.m_keyImage = s.m_keyImage := by
  simp only [Ship.update, Ship.updateMovement_keyImage]

theorem Ship.addTurrets_keyImage (L : Libm) (s : Ship) (l : List TurretInfo) :
    (s.addTurrets L l).m_keyImage = s.m_keyImage := by
  cases l <;> rfl

theorem Ship.collide_keyImage (L : Libm) (s : Ship) (p : Projectile) (dt : Time) :
    (s.collide L p dt).2.m_keyImage = s.m_keyImage ∨
    ∃ x y, (s.collide L p dt).2.m_keyImage = s.m_keyImage.setPixel x y false := by
  unfold Ship.collide
  simp only []
  split
  · split
    · exact Or.inr ⟨_, _, rfl⟩
    · exact Or.inl rfl
  · exact Or.inl rfl

theorem Ship.call_damaged (L : Libm) (s : Ship) (c : ShipCall) :
    Image.Damaged (s.call L c).m_keyImage s.m_keyImage := by
  cases c with
  | update dt => simp only [Ship.call, Ship.update_keyImage]; exact Image.Damaged.refl _
  | moveCommand t => exact Image.Damaged.refl _
  | fireCommand t l => exact Image.Damaged.refl _
  | collidePoint g => exact Image.Damaged.refl _
  | collide p dt =>
    rcases Ship.collide_keyImage L s p dt with h | ⟨x, y, h⟩
    · simp only [Ship.call, h]; exact Image.Damaged.refl _
    · simp only [Ship.call, h]; exact Image.setPixel_false_damaged _ _ _
  | addTurrets l => simp only [Ship.call, Ship.addTurrets_keyImage]; exact Image.Damaged.refl _

theorem Ship.calls_damaged (L : Libm) (cs : List ShipCall) (s : Ship) :
    Image.Damaged (s.calls L cs).m_keyImage s.m_keyImage := by
  induction cs generalizing s with
  | nil => exact Image.Damaged.refl _
  | cons c cs ih => exact (ih (s.call L c)).trans (Ship.call_damaged L s c)

/-- C1. Damage-mask monotonicity: after any sequence of calls of the public member functions of
a ship (update, moveCommand, fireCommand, point collide, projectile collide, addTurrets) the
set of solid cells of its destruction key is a subset of the set before the calls, the key
has kept its size, and every pixel that was transparent before is transparent after. -/
theorem damage_mask_monotone (L : Libm) (s : Ship) (cs : List ShipCall) :
    (s.calls L cs).m_keyImage.solidCells ⊆ s.m_keyImage.solidCells ∧
    (s.calls L cs).m_keyImage.width = s.m_keyImage.width ∧
    (s.calls L cs).m_keyImage.height = s.m_keyImage.height ∧
    ∀ x y, s.m_keyImage.getPixel x y = false → (s.calls L cs).m_keyImage.getPixel x y = false := by
  have h := Ship.calls_damaged L cs s
  refine ⟨h.solidCells_subset, h.1, h.2.1, fun x y hxy => ?_⟩
  by_contra hne
  have ht : (s.calls L cs).m_keyImage.getPixel x y = true := by simpa using hne
  unfold Image.getPixel at ht hxy
  rw [h.1] at ht
  have := h.2.2 _ ht
  rw [hxy] at this
  exact absurd this (by decide)


/-! ## C2: a projectile damages at most one ship -/

theorem Ship.collide_false (L : Libm) (s : Ship) (p : Projectile) (dt : Time)
    (h : (s.collide L p dt).1 = false) : (s.collide L p dt).2 = s.refreshTransform L := by
  by_cases h1 : ((s.refreshTransform L).getGlobalBounds L).intersects (p.getGlobalBounds L) = true
  · by_cases h2 : ((s.refreshTransform L).firstPixelHit L p dt).x = -1
    · simp [Ship.collide, h1, h2]
    · simp [Ship.collide, h1, h2] at h
  · simp [Ship.collide, h1]

theorem BattleState.collideLoop_spec (L : Libm) (proj : Projectile) (dt : Time) (ships : List Ship) :
    ((BattleState.collideLoop L proj dt ships).1 = false ∧
      (∀ s ∈ ships, (s.collide L proj dt).1 = false) ∧
      (BattleState.collideLoop L proj dt ships).2.1 = ships.map (Ship.refreshTransform L) ∧
      (BattleState.collideLoop L proj dt ships).2.2 = false) ∨
    (∃ pre s post, ships = pre ++ s :: post ∧
      (∀ t ∈ pre, (t.collide L proj dt).1 = false) ∧
      (s.collide L proj dt).1 = true ∧
      (BattleState.collideLoop L proj dt ships).1 = true ∧
      (BattleState.collideLoop L proj dt ships).2.1 =
        pre.map (Ship.refreshTransform L) ++
          (if (s.collide L proj dt).2.requiresCleanup then [] else [(s.collide L proj dt).2]) ++ post ∧
      (BattleState.collideLoop L proj dt ships).2.2 = (s.collide L proj dt).2.requiresCleanup) := by
  induction ships with
  | nil => left; simp [BattleState.collideLoop]
  | cons s rest ih =>
    by_cases hs : (s.collide L proj dt).1 = true
    · right
      refine ⟨[], s, rest, rfl, by simp, hs, ?_⟩
      by_cases hc : (s.collide L proj dt).2.requiresCleanup = true
      · simp [BattleState.collideLoop, hs, hc]
      · simp [BattleState.collideLoop, hs, hc]
    · have hs' : (s.collide L proj dt).1 = false := by simpa using hs
      rcases ih with ⟨h1, h2, h3, h4⟩ | ⟨pre, t, post, h1, h2, h3, h4, h5, h6⟩
      · left
        refine ⟨?_, ?_, ?_, ?_⟩
        · simp [BattleState.collideLoop, hs', h1]
        · intro u hu
          rcases List.mem_cons.1 hu with rfl | hu
          · exact hs'
          · exact h2 u hu
        · simp [BattleState.collideLoop, hs', h3, Ship.collide_false L s proj dt hs']
        · simp [BattleState.collideLoop, hs', h4]
      · right
        refine ⟨s :: pre, t, post, by simp [h1], ?_, h3, ?_, ?_, ?_⟩
        · intro u hu
          rcases List.mem_cons.1 hu with rfl | hu
          · exact hs'
          · exact h2 u hu
        · simp [BattleState.collideLoop, hs', h4]
        · simp [BattleState.collideLoop, hs', h5, Ship.collide_false L s proj dt hs']
        · simp [BattleState.collideLoop, hs', h6]

theorem BattleState.shipList_setShipList_same (b : BattleState) (l : Fin 2) (ships : List Ship) :
    (b.setShipList l ships).shipList l = ships := by
  unfold BattleState.setShipList BattleState.shipList
  split <;> simp_all

theorem BattleState.shipList_setShipList_other (b : BattleState) (l k : Fin 2) (ships : List Ship)
    (h : k ≠ l) : (b.setShipList l ships).shipList k = b.shipList k := by
  unfold BattleState.setShipList BattleState.shipList
  fin_cases l <;> fin_cases k <;> simp_all

theorem BattleState.collide_shipList_same (L : Libm) (b : BattleState) (proj : Projectile) (dt : Time) :
    (b.collide L proj dt).2.shipList proj.getLayer =
      (BattleState.collideLoop L proj dt (b.shipList proj.getLayer)).2.1 := by
  unfold BattleState.collide
  simp only []
  split
  · exact BattleState.shipList_setShipList_same _ _ _
  · exact BattleState.shipList_setShipList_same _ _ _

theorem BattleState.collide_shipList_other (L : Libm) (b : BattleState) (proj : Projectile) (dt : Time)
    (k : Fin 2) (h : k ≠ proj.getLayer) :
    (b.collide L proj dt).2.shipList k = b.shipList k := by
  unfold BattleState.collide
  simp only []
  split
  · exact BattleState.shipList_setShipList_other _ _ _ _ h
  · exact BattleState.shipList_setShipList_other _ _ _ _ h

/-- C2. BattleState::collide tests the ships of the projectile's layer in list order and stops at
the first ship whose Ship::collide returns true. Either no ship is hit, and every ship of the
layer is left as it was; or the list splits into the ships before the hit ship, which were
tested without a hit and are left as they were, the hit ship, which is replaced by its
damaged state or erased when it has no turret left, and the ships after it, which are not
touched at all. The ships of the other layer are unchanged. A ship that was tested without a
hit differs from its former state only in the transform matrix cached by SFML, which the call
of getGlobalBounds recomputes: its key, turrets, pose and movement are what they were. -/
theorem collide_damages_first_hit_only (L : Libm) (b : BattleState) (proj : Projectile) (dt : Time) :
    (∀ k, k ≠ proj.getLayer → (b.collide L proj dt).2.shipList k = b.shipList k) ∧
    (∀ t : Ship, (t.refreshTransform L).m_keyImage = t.m_keyImage ∧
      (t.refreshTransform L).m_turrets = t.m_turrets ∧
      (t.refreshTransform L).toTransformable = t.toTransformable ∧
      (t.refreshTransform L).m_movementState = t.m_movementState ∧
      (t.refreshTransform L).m_speed = t.m_speed ∧
      (t.refreshTransform L).m_destination = t.m_destination) ∧
    (((b.collide L proj dt).1 = false ∧
      (∀ s ∈ b.shipList proj.getLayer, (s.collide L proj dt).1 = false) ∧
      (b.collide L proj dt).2.shipList proj.getLayer =
        (b.shipList proj.getLayer).map (Ship.refreshTransform L)) ∨
    (∃ pre s post, b.shipList proj.getLayer = pre ++ s :: post ∧
      (∀ t ∈ pre, (t.collide L proj dt).1 = false) ∧
      (s.collide L proj dt).1 = true ∧
      (b.collide L proj dt).1 = true ∧
      (b.collide L proj dt).2.shipList proj.getLayer =
        pre.map (Ship.refreshTransform L) ++
          (if (s.collide L proj dt).2.requiresCleanup then [] else [(s.collide L proj dt).2]) ++
          post)) := by
  refine ⟨fun k hk => BattleState.collide_shipList_other L b proj dt k hk,
    fun t => ⟨rfl, rfl, rfl, rfl, rfl, rfl⟩, ?_⟩
  rw [BattleState.collide_shipList_same]
  have h1 : (b.collide L proj dt).1 = (BattleState.collideLoop L proj dt (b.shipList proj.getLayer)).1 := rfl
  rw [h1]
  rcases BattleState.collideLoop_spec L proj dt (b.shipList proj.getLayer) with
    ⟨h1, h2, h3, _⟩ | ⟨pre, s, post, h1, h2, h3, h4, h5, _⟩
  · exact Or.inl ⟨h1, h2, h3⟩
  · exact Or.inr ⟨pre, s, post, h1, h2, h3, h4, h5⟩


/-! ## C3: a ship without turrets does not survive the tick -/

theorem Ship.updateTurrets_length (L : Libm) (T : Transform) (dt : Time) (ts : List Turret)
    (fl : List ShotInfo) : (Ship.updateTurrets L T dt ts fl).1.length = ts.length := by
  induction ts generalizing fl with
  | nil => rfl
  | cons t ts ih => simp [Ship.updateTurrets, ih]

theorem Ship.updateMovement_turrets (L : Libm) (s : Ship) (dt : Time) :
    (s.updateMovement L dt).m_turrets = s.m_turrets := by
  unfold Ship.updateMovement
  cases s.m_movementState
  · rfl
  · rfl
  · rfl
  · simp only []
    split
    · rfl
    · rfl

theorem Ship.update_turrets_length (L : Libm) (s : Ship) (dt : Time) (fl : List ShotInfo) :
    (s.update L dt fl).1.m_turrets.length = s.m_turrets.length := by
  simp only [Ship.update, Ship.updateTurrets_length, Ship.updateMovement_turrets]

theorem BattleState.updateShips_armed (L : Libm) (dt : Time) (ships : List Ship) (fl : List ShotInfo)
    (h : ∀ s ∈ ships, 0 < s.m_turrets.length) :
    ∀ s ∈ (BattleState.updateShips L dt ships fl).1, 0 < s.m_turrets.length := by
  induction ships generalizing fl with
  | nil => intro s hs; simp [BattleState.updateShips] at hs
  | cons a rest ih =>
    intro s hs
    simp only [BattleState.updateShips, List.mem_cons] at hs
    rcases hs with rfl | hs
    · rw [Ship.update_turrets_length]; exact h a (List.mem_cons_self _ _)
    · exact ih _ (fun t ht => h t (List.mem_cons_of_mem _ ht)) s hs

theorem BattleState.collideLoop_armed (L : Libm) (proj : Projectile) (dt : Time) (ships : List Ship)
    (h : ∀ s ∈ ships, 0 < s.m_turrets.length) :
    ∀ s ∈ (BattleState.collideLoop L proj dt ships).2.1, 0 < s.m_turrets.length := by
  induction ships with
  | nil => intro s hs; simp [BattleState.collideLoop] at hs
  | cons a rest ih =>
    have hrest : ∀ s ∈ rest, 0 < s.m_turrets.length := fun t ht => h t (List.mem_cons_of_mem _ ht)
    intro s hs
    by_cases ha : (a.collide L proj dt).1 = true
    · by_cases hc : (a.collide L proj dt).2.requiresCleanup = true
      · simp only [BattleState.collideLoop, ha, hc, if_true] at hs
        exact hrest s hs
      · simp only [BattleState.collideLoop, ha, hc, if_true] at hs
        rcases List.mem_cons.1 hs with heq | hs
        · rw [heq]
          simp only [Ship.requiresCleanup, decide_eq_true_eq] at hc
          exact Nat.pos_of_ne_zero hc
        · exact hrest s hs
    · have ha' : (a.collide L proj dt).1 = false := by simpa using ha
      simp only [BattleState.collideLoop, ha'] at hs
      rcases List.mem_cons.1 hs with heq | hs
      · rw [heq, Ship.collide_false L a proj dt ha']
        exact h a (List.mem_cons_self _ _)
      · exact ih hrest s hs

theorem BattleState.collide_armed (L : Libm) (b : BattleState) (proj : Projectile) (dt : Time)
    (h : b.AllArmed) : (b.collide L proj dt).2.AllArmed := by
  intro l
  by_cases hl : l = proj.getLayer
  · subst hl
    rw [BattleState.collide_shipList_same]
    exact BattleState.collideLoop_armed L proj dt _ (h _)
  · rw [BattleState.collide_shipList_other L b proj dt l hl]
    exact h l

theorem BattleState.resolveLoop_armed (L : Libm) (dt : Time) (ps : List Projectile) (b : BattleState)
    (h : b.AllArmed) : (BattleState.resolveLoop L dt b ps).1.AllArmed := by
  induction ps generalizing b with
  | nil => exact h
  | cons p ps ih =>
    simp only [BattleState.resolveLoop]
    split
    · exact ih b h
    · split
      · exact ih _ (BattleState.collide_armed L b _ dt h)
      · split
        · exact ih _ (BattleState.collide_armed L b _ dt h)
        · exact ih _ (BattleState.collide_armed L b _ dt h)

theorem BattleState.foldl_createProjectile_shipList (L : Libm) (infos : List ShotInfo) (b : BattleState)
    (l : Fin 2) : (infos.foldl (BattleState.createProjectile L) b).shipList l = b.shipList l := by
  induction infos generalizing b with
  | nil => rfl
  | cons i is ih => simp only [List.foldl_cons, ih]; rfl

/-- C3. If every ship of both layer lists has at least one turret before BattleState::update, then
every ship that is in the lists after that update has at least one turret: a ship whose turret
count reaches zero during the tick is erased by BattleState::collide in that tick. -/
theorem update_keeps_ships_armed (L : Libm) (b : BattleState) (dt : Time)
    (h : ∀ l, ∀ s ∈ b.shipList l, 0 < s.m_turrets.length) :
    ∀ l, ∀ s ∈ (b.update L dt).shipList l, 0 < s.m_turrets.length := by
  have h1 : BattleState.AllArmed
      ({ b.m_readyToFire.foldl (BattleState.createProjectile L) b with m_readyToFire := [] } : BattleState) := by
    intro l s hs
    have : ({ b.m_readyToFire.foldl (BattleState.createProjectile L) b with m_readyToFire := [] } : BattleState).shipList l
        = b.shipList l := BattleState.foldl_createProjectile_shipList L _ b l
    rw [this] at hs
    exact h l s hs
  have h3 := BattleState.resolveLoop_armed L dt
    ({ b.m_readyToFire.foldl (BattleState.createProjectile L) b with m_readyToFire := [] } : BattleState).m_projList _ h1
  intro l s hs
  have key : ∀ (b3 : BattleState) (fl : List ShotInfo), b3.AllArmed →
      ∀ x ∈ (if l = 0 then (BattleState.updateShips L dt b3.m_shipList0 fl).1
        else (BattleState.updateShips L dt b3.m_shipList1
          (BattleState.updateShips L dt b3.m_shipList0 fl).2).1), 0 < x.m_turrets.length := by
    intro b3 fl hb3 x hx
    split at hx
    · exact BattleState.updateShips_armed L dt _ _ (by simpa [BattleState.shipList] using hb3 0) x hx
    · exact BattleState.updateShips_armed L dt _ _ (by simpa [BattleState.shipList] using hb3 1) x hx
  unfold BattleState.update at hs
  simp only [] at hs
  split at hs
  · exact key _ _ h3 s (by simpa [BattleState.shipList, BattleState.changeToBuildState, BattleState.resolveProjectiles] using hs)
  · exact key _ _ h3 s (by simpa [BattleState.shipList, BattleState.resolveProjectiles] using hs)


/-! ## C5: reload gating -/

theorem Turret.fireCommand_reloadTime (t : Turret) (target : Vector2f) (layer : Fin 2) :
    (t.fireCommand target layer).m_reloadTime = t.m_reloadTime := by
  unfold Turret.fireCommand
  split <;> rfl

theorem Turret.update_cases (L : Libm) (T : Transform) (t : Turret) (dt : Time) (fl : List ShotInfo) :
    ((t.update L T dt fl).2 = fl ∧
      (t.update L T dt fl).1.m_isTrackingTarget = t.m_isTrackingTarget ∧
      (t.update L T dt fl).1.m_timeSinceLastShot = t.m_timeSinceLastShot + dt ∧
      (t.update L T dt fl).1.m_reloadTime = t.m_reloadTime) ∨
    (t.m_isTrackingTarget = true ∧
      (t.update L T dt fl).2.length = fl.length + 1 ∧
      (t.update L T dt fl).1.m_isTrackingTarget = false ∧
      (t.update L T dt fl).1.m_timeSinceLastShot = 0 ∧
      (t.update L T dt fl).1.m_reloadTime = t.m_reloadTime) := by
  by_cases h : t.m_isTrackingTarget = true
  · by_cases hf : (CSB.faceTargetAndCheck L t.toTransformable
        (T.getInverse.transformPoint t.m_targetPosition) dt).2 = true
    · right
      simp [Turret.update, Turret.fire, h, hf]
    · left
      simp [Turret.update, h, hf]
  · left
    simp [Turret.update, h]

theorem Turret.ticks_timed (L : Libm) (T : Transform) (dts : List Time) (t : Turret)
    (fl : List ShotInfo) (hnn : ∀ dt ∈ dts, 0 ≤ dt) :
    ((Turret.ticks L T t fl dts).2 = fl ∧
      (Turret.ticks L T t fl dts).1.m_isTrackingTarget = t.m_isTrackingTarget ∧
      (Turret.ticks L T t fl dts).1.m_timeSinceLastShot = t.m_timeSinceLastShot + dts.sum ∧
      (Turret.ticks L T t fl dts).1.m_reloadTime = t.m_reloadTime) ∨
    (t.m_isTrackingTarget = true ∧
      (Turret.ticks L T t fl dts).2.length = fl.length + 1 ∧
      (Turret.ticks L T t fl dts).1.m_isTrackingTarget = false ∧
      (Turret.ticks L T t fl dts).1.m_timeSinceLastShot ≤ dts.sum ∧
      (Turret.ticks L T t fl dts).1.m_reloadTime = t.m_reloadTime) := by
  induction dts generalizing t fl with
  | nil => left; simp [Turret.ticks]
  | cons dt dts ih =>
    have hdt : 0 ≤ dt := hnn dt (List.mem_cons_self _ _)
    have hrest : ∀ d ∈ dts, 0 ≤ d := fun d hd => hnn d (List.mem_cons_of_mem _ hd)
    have hsum : 0 ≤ dts.sum := List.sum_nonneg hrest
    simp only [Turret.ticks, List.sum_cons]
    rcases Turret.update_cases L T t dt fl with ⟨u1, u2, u3, u4⟩ | ⟨u0, u1, u2, u3, u4⟩
    · rcases ih (t.update L T dt fl).1 (t.update L T dt fl).2 hrest with
        ⟨i1, i2, i3, i4⟩ | ⟨i0, i1, i2, i3, i4⟩
      · left
        refine ⟨i1.trans u1, i2.trans u2, ?_, i4.trans u4⟩
        rw [i3, u3]; ring
      · right
        refine ⟨u2 ▸ i0, ?_, i2, ?_, i4.trans u4⟩
        · rw [i1, u1]
        · linarith
    · rcases ih (t.update L T dt fl).1 (t.update L T dt fl).2 hrest with
        ⟨i1, i2, i3, i4⟩ | ⟨i0, i1, i2, i3, i4⟩
      · right
        refine ⟨u0, ?_, i2.trans u2, ?_, i4.trans u4⟩
        · rw [i1, u1]
        · rw [i3, u3]; linarith
      · rw [u2] at i0
        exact absurd i0 (by simp)

theorem Turret.ticks_at_most_one (L : Libm) (T : Transform) (dts : List Time) (t : Turret)
    (fl : List ShotInfo) :
    (Turret.ticks L T t fl dts).2.length ≤ fl.length + 1 ∧
    (t.m_isTrackingTarget = false → (Turret.ticks L T t fl dts).2 = fl) := by
  induction dts generalizing t fl with
  | nil => simp [Turret.ticks]
  | cons dt dts ih =>
    simp only [Turret.ticks]
    have ih' := ih (t.update L T dt fl).1 (t.update L T dt fl).2
    rcases Turret.update_cases L T t dt fl with ⟨u1, u2, u3, u4⟩ | ⟨u0, u1, u2, u3, u4⟩
    · refine ⟨?_, fun hf => ?_⟩
      · have h1 := ih'.1
        rw [u1] at h1
        rw [u1]
        exact h1
      · rw [ih'.2 (u2.trans hf), u1]
    · refine ⟨?_, fun hf => ?_⟩
      · rw [ih'.2 u2, u1]
      · rw [u0] at hf; exact absurd hf (by simp)

/-- C5, as amended. Two fire commands to a turret, with ticks of non-negative duration between
them that add up to less than its reload time, result in at most one ShotInfo on the fire
list, however long the turret is ticked after the second command. -/
theorem two_fire_commands_at_most_one_shot (L : Libm) (T : Transform) (t : Turret)
    (target1 : Vector2f) (layer1 : Fin 2) (between : List Time)
    (target2 : Vector2f) (layer2 : Fin 2) (after : List Time)
    (hnn : ∀ dt ∈ between, 0 ≤ dt) (hlt : between.sum < t.m_reloadTime) :
    (Turret.twoCommands L T t target1 layer1 between target2 layer2 after).2.length ≤ 1 := by
  unfold Turret.twoCommands
  simp only []
  rcases Turret.ticks_timed L T between (t.fireCommand target1 layer1) [] hnn with
    ⟨i1, _, _, _⟩ | ⟨_, i1, i2, i3, i4⟩
  · rw [i1]
    exact (Turret.ticks_at_most_one L T after _ []).1
  · rw [Turret.fireCommand_reloadTime] at i4
    have hrej : ∀ u : Turret, u.m_reloadTime = t.m_reloadTime →
        u.m_timeSinceLastShot ≤ between.sum → u.fireCommand target2 layer2 = u := by
      intro u h1 h2
      unfold Turret.fireCommand
      rw [if_neg]
      rw [h1]
      exact not_lt.2 (le_of_lt (lt_of_le_of_lt h2 hlt))
    rw [hrej _ i4 i3, (Turret.ticks_at_most_one L T after _ _).2 i2, i1]
    simp



/-! ## C6: projectile velocity -/

theorem BattleState.resolveLoop_cons (L : Libm) (dt : Time) (b : BattleState) (p : Projectile)
    (ps : List Projectile) :
    BattleState.resolveLoop L dt b (p :: ps) =
      ((BattleState.resolveLoop L dt (b.afterTest L (p.update dt) dt) ps).1,
       (if b.removes L (p.update dt) dt then [] else [p.update dt]) ++
         (BattleState.resolveLoop L dt (b.afterTest L (p.update dt) dt) ps).2) := by
  simp only [BattleState.resolveLoop, BattleState.afterTest, BattleState.removes]
  by_cases h1 : (p.update dt).requiresCleanup = true
  · simp [h1]
  · by_cases h2 : (b.collide L (p.update dt) dt).1 = true
    · simp [h1, h2]
    · by_cases h3 : ((p.update dt).getGlobalBounds L).intersects BattleState.m_viewBounds = true
      · simp [h1, h2, h3]
      · simp [h1, h2, h3]

theorem BattleState.resolveLoop_append (L : Libm) (dt : Time) (pre : List Projectile) (b : BattleState)
    (ps : List Projectile) :
    BattleState.resolveLoop L dt b (pre ++ ps) =
      ((BattleState.resolveLoop L dt (BattleState.resolveLoop L dt b pre).1 ps).1,
       (BattleState.resolveLoop L dt b pre).2 ++
         (BattleState.resolveLoop L dt (BattleState.resolveLoop L dt b pre).1 ps).2) := by
  induction pre generalizing b with
  | nil => simp [BattleState.resolveLoop]
  | cons p pre ih =>
    rw [List.cons_append, BattleState.resolveLoop_cons, ih, BattleState.resolveLoop_cons]
    simp

/-- C7. In BattleState::resolveProjectiles, for the projectile at any place of the list (after the
projectiles pre, before the projectiles post): when its global bounds after this tick's move
do not intersect the rectangle (0, 0)-(4000, 4000), the resulting list is what is kept of pre
followed by what is kept of post, so the projectile is erased in this tick; when they
intersect it, the projectile did not collide and is not flagged finished, the moved
projectile stands in the resulting list between what is kept of pre and of post. -/
theorem out_of_bounds_projectile_removed (L : Libm) (b : BattleState) (dt : Time)
    (pre : List Projectile) (p : Projectile) (post : List Projectile)
    (h : b.m_projList = pre ++ p :: post) :
    (¬ ((p.update dt).getGlobalBounds L).intersects ⟨0, 0, 4000, 4000⟩ = true →
      (b.resolveProjectiles L dt).m_projList =
        (BattleState.resolveLoop L dt b pre).2 ++
        (BattleState.resolveLoop L dt
          ((BattleState.resolveLoop L dt b pre).1.afterTest L (p.update dt) dt) post).2) ∧
    (((p.update dt).getGlobalBounds L).intersects ⟨0, 0, 4000, 4000⟩ = true ∧
      ((BattleState.resolveLoop L dt b pre).1.collide L (p.update dt) dt).1 = false ∧
      (p.update dt).requiresCleanup = false →
      (b.resolveProjectiles L dt).m_projList =
        (BattleState.resolveLoop L dt b pre).2 ++ p.update dt ::
        (BattleState.resolveLoop L dt
          ((BattleState.resolveLoop L dt b pre).1.afterTest L (p.update dt) dt) post).2) := by
  have key : (b.resolveProjectiles L dt).m_projList =
      (BattleState.resolveLoop L dt b pre).2 ++
      ((if (BattleState.resolveLoop L dt b pre).1.removes L (p.update dt) dt then []
        else [p.update dt]) ++
      (BattleState.resolveLoop L dt
        ((BattleState.resolveLoop L dt b pre).1.afterTest L (p.update dt) dt) post).2) := by
    simp only [BattleState.resolveProjectiles, h, BattleState.resolveLoop_append,
      BattleState.resolveLoop_cons]
  constructor
  · intro hout
    have hout' : ((p.update dt).getGlobalBounds L).intersects BattleState.m_viewBounds = false := by
      simpa [BattleState.m_viewBounds] using hout
    rw [key]
    simp [BattleState.removes, hout']
  · rintro ⟨hin, hc, hf⟩
    have hin' : ((p.update dt).getGlobalBounds L).intersects BattleState.m_viewBounds = true := hin
    rw [key]
    simp [BattleState.removes, hin', hc, hf]


/-! ## C8: order of the movement states -/

theorem Ship.updateMovement_step (L : Libm) (s : Ship) (dt : Time) :
    MovementState.Step s.m_movementState (s.updateMovement L dt).m_movementState := by
  unfold Ship.updateMovement MovementState.Step
  cases hs : s.m_movementState <;> simp only []
  · simp [hs]
  · split <;> simp
  · split <;> simp
  · split <;> simp [hs]

theorem Ship.update_movementState (L : Libm) (s : Ship) (dt : Time) (fl : List ShotInfo) :
    (s.update L dt fl).1.m_movementState = (s.updateMovement L dt).m_movementState := rfl

theorem Ship.ticks_chain (L : Libm) (dts : List Time) (s : Ship) :
    List.Chain MovementState.Step s.m_movementState
      ((Ship.ticks L s dts).map fun t => t.m_movementState) := by
  induction dts generalizing s with
  | nil => exact List.Chain.nil
  | cons dt dts ih =>
    simp only [Ship.ticks, List.map_cons]
    exact List.Chain.cons (Ship.updateMovement_step L s dt) (ih _)

theorem MovementState.destutter_prefix (l : List MovementState) (q : MovementState)
    (h : List.Chain MovementState.Step q l) :
    (q :: l).destutter (· ≠ ·) <+: q.cycleFrom := by
  induction l generalizing q with
  | nil => cases q <;> simp [MovementState.cycleFrom, List.destutter, List.destutter']
  | cons a l ih =>
    rw [List.chain_cons] at h
    have ih' := ih a h.2
    rcases h.1 with h1 | ⟨h1, h2⟩ | ⟨h1, h2⟩ | ⟨h1, h2⟩
    · subst h1
      simpa [List.destutter, List.destutter'] using ih'
    all_goals
      subst h1 h2
      simp only [List.destutter, List.destutter', MovementState.cycleFrom] at ih' ⊢
      simp only [ne_eq, reduceCtorEq, not_false_eq_true, if_true]
      exact (List.prefix_cons_inj _).2 ih'

/-- C8. One call of Ship::update leaves the movement state as it is or moves it along ROTATING to
MOVING, MOVING to DECELERATING, DECELERATING to IDLE (an idle ship stays idle); and after a
move command followed by any number of ticks with no further command, the sequence of
distinct states observed is a prefix of ROTATING, MOVING, DECELERATING, IDLE. -/
theorem movement_states_in_order (L : Libm) (s : Ship) (target : Vector2f) (dts : List Time)
    (dt : Time) (fl : List ShotInfo) :
    MovementState.Step s.m_movementState (s.update L dt fl).1.m_movementState ∧
    (Ship.statesAfterMove L s target dts).destutter (· ≠ ·) <+:
      [MovementState.ROTATING, MovementState.MOVING, MovementState.DECELERATING,
       MovementState.IDLE] := by
  refine ⟨Ship.updateMovement_step L s dt, ?_⟩
  have h := Ship.ticks_chain L dts (s.moveCommand target)
  exact MovementState.destutter_prefix _ _ h


/-! ## C9: a hit on the anchor cell of the only turret -/

theorem Image.getPixel_setPixel_false (img : Image) (x y : Nat) :
    (img.setPixel x y false).getPixel x y = false := by
  simp only [Image.getPixel, Image.setPixel, List.getD_eq_getElem?_getD, List.getElem?_set]
  by_cases h : x + y * img.width < img.pixels.length
  · simp [h]
  · simp [h]

theorem Ship.anchorCell_x_ne (L : Libm) (s : Ship) (t : Turret) : (s.anchorCell L t).x ≠ -1 := by
  have h : (0 : Int) ≤ (s.anchorCell L t).x := Int.ofNat_nonneg _
  omega

theorem Ship.collide_anchor_hit (L : Libm) (s : Ship) (t : Turret) (proj : Projectile) (dt : Time)
    (hone : s.m_turrets = [t])
    (hbroad : (s.getGlobalBounds L).intersects (proj.getGlobalBounds L) = true)
    (hhit : s.firstPixelHit L proj dt = s.anchorCell L t) :
    (s.collide L proj dt).1 = true ∧ (s.collide L proj dt).2.m_turrets = [] := by
  have h1 : ((s.refreshTransform L).getGlobalBounds L).intersects (proj.getGlobalBounds L) = true :=
    hbroad
  have h2 : (s.refreshTransform L).firstPixelHit L proj dt = s.anchorCell L t := hhit
  have h3 : ((s.refreshTransform L).firstPixelHit L proj dt).x ≠ -1 := by
    rw [h2]
    exact Ship.anchorCell_x_ne L s t
  have h4 : Ship.collidePointResult L ((s.refreshTransform L).blackOut (s.anchorCell L t))
      ((s.toTransformable.getTransform L).transformPoint t.toTransformable.position) = false := by
    unfold Ship.collidePointResult
    simp only []
    split
    · exact Image.getPixel_setPixel_false _ _ _
    · rfl
  have h5 : (((s.refreshTransform L).blackOut (s.anchorCell L t)).eraseHitTurrets L).m_turrets = [] := by
    show List.filter _ s.m_turrets = []
    rw [hone, List.filter_cons, List.filter_nil]
    have h6 : Ship.collidePointResult L ((s.refreshTransform L).blackOut (s.anchorCell L t))
      ((((s.refreshTransform L).blackOut (s.anchorCell L t)).toTransformable.getTransform L).transformPoint
        t.toTransformable.position) = false := h4
    rw [h6]
    rfl
  constructor
  · simp [Ship.collide, h1, h3]
  · simp only [Ship.collide, h1, h3, if_true, ne_eq, not_false_eq_true, h2]
    simpa [Ship.anchorCell_x_ne] using h5


theorem BattleState.collideLoop_at (L : Libm) (proj : Projectile) (dt : Time) (pre : List Ship)
    (s : Ship) (post : List Ship) (hpre : ∀ u ∈ pre, (u.collide L proj dt).1 = false)
    (hs : (s.collide L proj dt).1 = true) :
    BattleState.collideLoop L proj dt (pre ++ s :: post) =
      (true,
       pre.map (Ship.refreshTransform L) ++
         (if (s.collide L proj dt).2.requiresCleanup then [] else [(s.collide L proj dt).2]) ++ post,
       (s.collide L proj dt).2.requiresCleanup) := by
  induction pre with
  | nil =>
    by_cases hc : (s.collide L proj dt).2.requiresCleanup = true
    · simp [BattleState.collideLoop, hs, hc]
    · simp [BattleState.collideLoop, hs, hc]
  | cons a pre ih =>
    have ha : (a.collide L proj dt).1 = false := hpre a (List.mem_cons_self _ _)
    have ih' := ih (fun u hu => hpre u (List.mem_cons_of_mem _ hu))
    simp [BattleState.collideLoop, ha, ih', Ship.collide_false L a proj dt ha]

/-- C9. For a ship whose only turret is t, standing in its layer list after ships the projectile
does not hit: when the broad phase passes, so that the ray is cast, and the ray cast returns
the key cell that the point collision test reads for the anchor point of t, Ship::collide
returns true and leaves the ship without turrets, and the same call of BattleState::collide
returns true and erases the ship from the list of its layer. -/
theorem single_turret_anchor_hit_removes_ship (L : Libm) (b : BattleState) (pre : List Ship)
    (s : Ship) (post : List Ship) (t : Turret) (proj : Projectile) (dt : Time)
    (hone : s.m_turrets = [t])
    (hbroad : (s.getGlobalBounds L).intersects (proj.getGlobalBounds L) = true)
    (hhit : s.firstPixelHit L proj dt = s.anchorCell L t)
    (hlist : b.shipList proj.getLayer = pre ++ s :: post)
    (hpre : ∀ u ∈ pre, (u.collide L proj dt).1 = false) :
    (s.collide L proj dt).1 = true ∧
    (s.collide L proj dt).2.m_turrets = [] ∧
    (b.collide L proj dt).1 = true ∧
    (b.collide L proj dt).2.shipList proj.getLayer = pre.map (Ship.refreshTransform L) ++ post := by
  have h := Ship.collide_anchor_hit L s t proj dt hone hbroad hhit
  have hc : (s.collide L proj dt).2.requiresCleanup = true := by
    simp [Ship.requiresCleanup, h.2]
  have hl := BattleState.collideLoop_at L proj dt pre s post hpre h.1
  refine ⟨h.1, h.2, ?_, ?_⟩
  · show (BattleState.collideLoop L proj dt (b.shipList proj.getLayer)).1 = true
    rw [hlist, hl]
  · rw [BattleState.collide_shipList_same, hlist, hl]
    simp [hc]


/-! ## C10: commands received from the peer -/

theorem NetworkManager.receiveOne_movePacket (L : Libm) (nm : NetworkManager)
    (shipID : Fin 4294967296) (x y : ℚ) :
    NetworkManager.receiveOne L nm (NetworkManager.movePacket shipID x y) =
      (nm.battle.issueMoveCommand 1 shipID.val ⟨x, y⟩).map fun b => { nm with battle := b } := by
  simp only [NetworkManager.receiveOne, NetworkManager.movePacket, Packet.readUint8,
    PacketType.toRaw, PacketType.ofRaw, NetworkManager.readCommand, Packet.readUint32,
    Packet.readFloat]
  cases nm.battle.issueMoveCommand 1 shipID.val ⟨x, y⟩ <;> rfl

theorem NetworkManager.receiveOne_firePacket (L : Libm) (nm : NetworkManager)
    (shipID : Fin 4294967296) (x y : ℚ) :
    NetworkManager.receiveOne L nm (NetworkManager.firePacket shipID x y) =
      (nm.battle.issueFireCommand 1 shipID.val ⟨x, y⟩ 0).map fun b => { nm with battle := b } := by
  simp only [NetworkManager.receiveOne, NetworkManager.firePacket, Packet.readUint8,
    PacketType.toRaw, PacketType.ofRaw, NetworkManager.readCommand, Packet.readUint32,
    Packet.readFloat]
  cases nm.battle.issueFireCommand 1 shipID.val ⟨x, y⟩ 0 <;> rfl

theorem BattleState.issueMoveCommand_layer1 (b : BattleState) (i : Nat) (d : Vector2f) (ship : Ship)
    (h : b.m_shipList1[i]? = some ship) :
    b.issueMoveCommand 1 i d =
      some { b with m_shipList1 := b.m_shipList1.set i (ship.moveCommand d) } := by
  have h1 : (b.shipList 1)[i]? = some ship := h
  simp only [BattleState.issueMoveCommand, h1]
  rfl

theorem BattleState.issueFireCommand_layer1 (b : BattleState) (i : Nat) (d : Vector2f) (k : Fin 2)
    (ship : Ship) (h : b.m_shipList1[i]? = some ship) :
    b.issueFireCommand 1 i d k =
      some { b with m_shipList1 := b.m_shipList1.set i (ship.fireCommand d k) } := by
  have h1 : (b.shipList 1)[i]? = some ship := h
  simp only [BattleState.issueFireCommand, h1]
  rfl

/-- C10. Receiving a MOVE packet with ship index i and destination (x, y) gives the battle that
issueMoveCommand(1, i, (x, y)) gives, and receiving a FIRE packet gives the battle that
issueFireCommand(1, i, (x, y), 0) gives. When layer 1 has a ship i, that ship is replaced by
its state after moveCommand (destination (x, y), speed 0, state ROTATING), respectively after
fireCommand. In both cases the list of layer 0 and the packets sent to the peer are
unchanged. -/
theorem peer_command_applied_as_local (L : Libm) (nm : NetworkManager) (shipID : Fin 4294967296)
    (x y : ℚ) :
    NetworkManager.receiveOne L nm (NetworkManager.movePacket shipID x y) =
      ((nm.battle.issueMoveCommand 1 shipID.val ⟨x, y⟩).map fun b => { nm with battle := b }) ∧
    NetworkManager.receiveOne L nm (NetworkManager.firePacket shipID x y) =
      ((nm.battle.issueFireCommand 1 shipID.val ⟨x, y⟩ 0).map fun b => { nm with battle := b }) ∧
    (∀ ship, nm.battle.m_shipList1[shipID.val]? = some ship →
      NetworkManager.receiveOne L nm (NetworkManager.movePacket shipID x y) =
        some { nm with battle := { nm.battle with
          m_shipList1 := nm.battle.m_shipList1.set shipID.val (ship.moveCommand ⟨x, y⟩) } } ∧
      (ship.moveCommand ⟨x, y⟩).m_destination = ⟨x, y⟩ ∧
      (ship.moveCommand ⟨x, y⟩).m_speed = 0 ∧
      (ship.moveCommand ⟨x, y⟩).m_movementState = MovementState.ROTATING ∧
      NetworkManager.receiveOne L nm (NetworkManager.firePacket shipID x y) =
        some { nm with battle := { nm.battle with
          m_shipList1 := nm.battle.m_shipList1.set shipID.val (ship.fireCommand ⟨x, y⟩ 0) } }) ∧
    (∀ nm1, (NetworkManager.receiveOne L nm (NetworkManager.movePacket shipID x y) = some nm1 ∨
        NetworkManager.receiveOne L nm (NetworkManager.firePacket shipID x y) = some nm1) →
      nm1.battle.m_shipList0 = nm.battle.m_shipList0 ∧ nm1.sent = nm.sent) := by
  refine ⟨NetworkManager.receiveOne_movePacket L nm shipID x y,
    NetworkManager.receiveOne_firePacket L nm shipID x y, ?_, ?_⟩
  · intro ship h
    rw [NetworkManager.receiveOne_movePacket, NetworkManager.receiveOne_firePacket,
      BattleState.issueMoveCommand_layer1 _ _ _ ship h,
      BattleState.issueFireCommand_layer1 _ _ _ _ ship h]
    exact ⟨rfl, rfl, rfl, rfl, rfl⟩
  · intro nm1 h
    rw [NetworkManager.receiveOne_movePacket, NetworkManager.receiveOne_firePacket] at h
    cases hs : nm.battle.m_shipList1[shipID.val]? with
    | none =>
      have h1 : (nm.battle.shipList 1)[shipID.val]? = none := hs
      simp [BattleState.issueMoveCommand, BattleState.issueFireCommand, h1] at h
    | some ship =>
      rw [BattleState.issueMoveCommand_layer1 _ _ _ ship hs,
        BattleState.issueFireCommand_layer1 _ _ _ _ ship hs] at h
      rcases h with h | h <;> (simp only [Option.map_some', Option.some.injEq] at h; subst h; exact ⟨rfl, rfl⟩)


/-! ## C11: the CONNECT payload is decoded to the ship that was sent -/

theorem ProjectileType.ofRaw_toRaw (ty : ProjectileType) :
    ProjectileType.ofRaw ty.toRaw = some ty := by
  cases ty <;> rfl

theorem NetworkManager.readTurrets_turretPayload (turrets : List TurretInfo) (rest : Packet) :
    NetworkManager.readTurrets turrets.length (NetworkManager.turretPayload turrets ++ rest) =
      some (turrets, rest) := by
  induction turrets with
  | nil => rfl
  | cons a l ih =>
    obtain ⟨ty, ⟨x, y⟩⟩ := a
    have h : NetworkManager.turretPayload (⟨ty, ⟨x, y⟩⟩ :: l) ++ rest =
        PacketValue.uint8 ty.toRaw :: PacketValue.float x :: PacketValue.float y ::
          (NetworkManager.turretPayload l ++ rest) := by
      simp [NetworkManager.turretPayload, List.flatMap_cons]
    rw [h]
    simp only [List.length_cons, NetworkManager.readTurrets, Packet.readUint8, Packet.readFloat,
      ProjectileType.ofRaw_toRaw, ih]

theorem Turret.getTurretInfo_ofTurretInfo (info : TurretInfo) :
    (Turret.ofTurretInfo info).getTurretInfo = info := rfl

theorem Ship.create_turrets (L : Libm) (position : Vector2f) (angle : ℚ)
    (turrets : List TurretInfo) (hull : Image) :
    (Ship.create L position angle turrets hull).m_turrets = turrets.map Turret.ofTurretInfo := by
  cases turrets <;> simp [Ship.create, Ship.addTurrets, Ship.refreshTransform]

/-- C11. The payload that sendShip writes after the message kind holds the position and the
angle chosen by the host flag, the number of turrets and the turrets in their order, and
unpackageShip decodes it to a createShip on layer 1 with that position, that angle and a turret
list whose types and local offsets are those of the build list, in the same order. The number of
turrets is sent as a 64-bit count, so the build list is shorter than 2 ^ 64. -/
theorem connect_round_trip (L : Libm) (sender receiver : NetworkManager)
    (hlen : sender.m_shipTurrets.length < 18446744073709551616) :
    sender.sendShip.sent = sender.sent ++
      [PacketValue.uint8 PacketType.CONNECT.toRaw ::
        NetworkManager.shipPayload sender.m_isHost sender.m_shipTurrets] ∧
    NetworkManager.shipPayload sender.m_isHost sender.m_shipTurrets =
      [PacketValue.float (NetworkManager.sentPosition sender.m_isHost).x,
       PacketValue.float (NetworkManager.sentPosition sender.m_isHost).y,
       PacketValue.float (NetworkManager.sentAngle sender.m_isHost),
       PacketValue.uint64 (Fin.ofNat sender.m_shipTurrets.length)] ++
      NetworkManager.turretPayload sender.m_shipTurrets ∧
    NetworkManager.unpackageShip L receiver
        (NetworkManager.shipPayload sender.m_isHost sender.m_shipTurrets) =
      some { receiver with
        battle := receiver.battle.createShip L 1 (NetworkManager.sentPosition sender.m_isHost)
          (NetworkManager.sentAngle sender.m_isHost) sender.m_shipTurrets } ∧
    (receiver.battle.createShip L 1 (NetworkManager.sentPosition sender.m_isHost)
        (NetworkManager.sentAngle sender.m_isHost) sender.m_shipTurrets).m_shipList1 =
      receiver.battle.m_shipList1 ++
        [Ship.create L (NetworkManager.sentPosition sender.m_isHost)
          (NetworkManager.sentAngle sender.m_isHost) sender.m_shipTurrets
          receiver.battle.hullTexture] ∧
    (Ship.create L (NetworkManager.sentPosition sender.m_isHost)
        (NetworkManager.sentAngle sender.m_isHost) sender.m_shipTurrets
        receiver.battle.hullTexture).m_turrets.map Turret.getTurretInfo = sender.m_shipTurrets := by
  have hpay : NetworkManager.shipPayload sender.m_isHost sender.m_shipTurrets =
      [PacketValue.float (NetworkManager.sentPosition sender.m_isHost).x,
       PacketValue.float (NetworkManager.sentPosition sender.m_isHost).y,
       PacketValue.float (NetworkManager.sentAngle sender.m_isHost),
       PacketValue.uint64 (Fin.ofNat sender.m_shipTurrets.length)] ++
      NetworkManager.turretPayload sender.m_shipTurrets := by
    cases sender.m_isHost <;> rfl
  refine ⟨rfl, hpay, ?_, rfl, ?_⟩
  · have hfin : (Fin.ofNat sender.m_shipTurrets.length : Fin 18446744073709551616).val =
        sender.m_shipTurrets.length := by
      simp [Fin.ofNat, Nat.mod_eq_of_lt hlen]
    have hrt := NetworkManager.readTurrets_turretPayload sender.m_shipTurrets []
    rw [List.append_nil] at hrt
    rw [hpay]
    simp only [NetworkManager.unpackageShip, List.cons_append, List.nil_append, Packet.readFloat,
      Packet.readUint64, hfin, hrt]
  · rw [Ship.create_turrets, List.map_map]
    simp [Function.comp_def, Turret.getTurretInfo_ofTurretInfo]

/-! ## C12: a fire command is accepted only after the reload -/

/-- C12. Where the time since the last shot exceeds the reload time, fireCommand makes the turret
track the given target point on the given layer and leaves the time since the last shot and
every other field as they were; otherwise the turret is unchanged. -/
theorem fireCommand_accepts_only_when_reloaded (t : Turret) (target : Vector2f) (layer : Fin 2) :
    (t.m_reloadTime < t.m_timeSinceLastShot →
      (t.fireCommand target layer).m_isTrackingTarget = true ∧
      (t.fireCommand target layer).m_targetPosition = target ∧
      (t.fireCommand target layer).m_targetlayer = layer ∧
      (t.fireCommand target layer).m_timeSinceLastShot = t.m_timeSinceLastShot ∧
      (t.fireCommand target layer).m_reloadTime = t.m_reloadTime ∧
      (t.fireCommand target layer).m_projType = t.m_projType ∧
      (t.fireCommand target layer).toTransformable = t.toTransformable) ∧
    (¬ t.m_reloadTime < t.m_timeSinceLastShot → t.fireCommand target layer = t) := by
  constructor
  · intro h
    simp [Turret.fireCommand, h]
  · intro h
    simp [Turret.fireCommand, h]

/-! ## C13: the shot of a turret that faces its target -/

theorem CSB.faceTargetAndCheck_position (L : Libm) (e : Transformable) (target : Vector2f)
    (dt : Time) :
    (CSB.faceTargetAndCheck L e target dt).1.position = e.position ∧
    (CSB.faceTargetAndCheck L e target dt).1.origin = e.origin := by
  unfold CSB.faceTargetAndCheck
  simp only []
  split <;> split <;> exact ⟨rfl, rfl⟩

/-- C13. On the tick on which a tracking turret comes to face its target, Turret::update appends
exactly one shot to the fire list, with the projectile type of the turret, the recorded target
layer, the parent transform applied to the local position of the turret and the recorded target
point; the time since the last shot becomes zero and the turret stops tracking. On every other
tick the fire list is unchanged and the time since the last shot grows by deltaTime. -/
theorem turret_update_fires_when_facing (L : Libm) (T : Transform) (t : Turret) (dt : Time)
    (fl : List ShotInfo) :
    (t.m_isTrackingTarget = true ∧
      (CSB.faceTargetAndCheck L t.toTransformable
        (T.getInverse.transformPoint t.m_targetPosition) dt).2 = true →
      (t.update L T dt fl).2 = fl ++ [⟨t.m_projType, t.m_targetlayer,
        T.transformPoint t.toTransformable.position, t.m_targetPosition⟩] ∧
      (t.update L T dt fl).1.m_timeSinceLastShot = 0 ∧
      (t.update L T dt fl).1.m_isTrackingTarget = false) ∧
    (¬ (t.m_isTrackingTarget = true ∧
      (CSB.faceTargetAndCheck L t.toTransformable
        (T.getInverse.transformPoint t.m_targetPosition) dt).2 = true) →
      (t.update L T dt fl).2 = fl ∧
      (t.update L T dt fl).1.m_timeSinceLastShot = t.m_timeSinceLastShot + dt ∧
      (t.update L T dt fl).1.m_isTrackingTarget = t.m_isTrackingTarget) := by
  constructor
  · rintro ⟨h1, h2⟩
    have hp := (CSB.faceTargetAndCheck_position L t.toTransformable
      (T.getInverse.transformPoint t.m_targetPosition) dt).1
    simp [Turret.update, Turret.fire, h1, h2, hp]
  · intro h
    by_cases h1 : t.m_isTrackingTarget = true
    · have h2 : (CSB.faceTargetAndCheck L t.toTransformable
          (T.getInverse.transformPoint t.m_targetPosition) dt).2 = false := by
        by_contra hc
        exact h ⟨h1, by simpa using hc⟩
      simp [Turret.update, h1, h2]
    · simp [Turret.update, h1]

/-! ## C14: the frame of a move command -/

/-- C14. Ship::moveCommand sets the speed to 0, the destination to the target and the state to
ROTATING, leaves the position, the rotation, the turrets and the destruction key unchanged, and
its result does not depend on the movement state in which it is issued. -/
theorem moveCommand_frame (s : Ship) (target : Vector2f) :
    (s.moveCommand target).m_speed = 0 ∧
    (s.moveCommand target).m_destination = target ∧
    (s.moveCommand target).m_movementState = MovementState.ROTATING ∧
    (s.moveCommand target).toTransformable.position = s.toTransformable.position ∧
    (s.moveCommand target).toTransformable.rotation = s.toTransformable.rotation ∧
    (s.moveCommand target).m_turrets = s.m_turrets ∧
    (s.moveCommand target).m_keyImage = s.m_keyImage ∧
    (∀ q : MovementState, ({ s with m_movementState := q } : Ship).moveCommand target =
      s.moveCommand target) :=
  ⟨rfl, rfl, rfl, rfl, rfl, rfl, rfl, fun _ => rfl⟩

/-! ## C15: where a ship comes to rest -/

/-- C15 (amended). A ship that is not idle becomes idle only from DECELERATING, on the tick on which
its speed runs out or its distance to the destination is below 0.0001; its speed is then zero and
it rests at the position it had at the start of that tick, which need not be the
destination. -/
theorem ship_becomes_idle_with_zero_speed (L : Libm) (s : Ship) (dt : Time) (fl : List ShotInfo)
    (hnot : s.m_movementState ≠ MovementState.IDLE)
    (hidle : (s.update L dt fl).1.m_movementState = MovementState.IDLE) :
    s.m_movementState = MovementState.DECELERATING ∧
    (s.update L dt fl).1.m_speed = 0 ∧
    (s.update L dt fl).1.toTransformable = s.toTransformable ∧
    (s.m_speed - s.m_deceleration * Time.asSeconds dt ≤ 0 ∨ s.remainingDistance L < 1 / 10000) := by
  have hid : (s.update L dt fl).1.m_movementState = (s.updateMovement L dt).m_movementState := rfl
  have hsp : (s.update L dt fl).1.m_speed = (s.updateMovement L dt).m_speed := rfl
  have htr : (s.update L dt fl).1.toTransformable = (s.updateMovement L dt).toTransformable := rfl
  rw [hid] at hidle
  rw [hsp, htr]
  cases hst : s.m_movementState with
  | IDLE => exact absurd hst hnot
  | ROTATING =>
    simp only [Ship.updateMovement, hst] at hidle
    split at hidle <;> simp at hidle
  | MOVING =>
    simp only [Ship.updateMovement, hst] at hidle
    split at hidle <;> simp at hidle
  | DECELERATING =>
    by_cases hc : s.m_speed - s.m_deceleration * Time.asSeconds dt ≤ 0 ∨
        s.remainingDistance L < 1 / 10000
    · have hc' := hc
      simp only [Ship.remainingDistance] at hc'
      simp only [Ship.updateMovement, hst, hc', if_true]
      exact ⟨trivial, trivial, trivial, hc⟩
    · have hc' := hc
      simp only [Ship.remainingDistance] at hc'
      simp only [Ship.updateMovement, hst, hc', if_false] at hidle
      simp at hidle

/-! ## C16: the switch from moving to decelerating -/

theorem Ship.update_moving (L : Libm) (s : Ship) (dt : Time) (fl : List ShotInfo)
    (hst : s.m_movementState = MovementState.MOVING) :
    (s.update L dt fl).1.m_speed = s.m_speed + s.m_acceleration * Time.asSeconds dt ∧
    (s.update L dt fl).1.m_movementState =
      if s.remainingDistance L / (s.m_speed + s.m_acceleration * Time.asSeconds dt) * 2 ≤
          (s.m_speed + s.m_acceleration * Time.asSeconds dt) / s.m_deceleration then
        MovementState.DECELERATING
      else MovementState.MOVING := by
  constructor
  · simp only [Ship.update, Ship.updateMovement, hst]
  · simp only [Ship.update, Ship.updateMovement, hst, Ship.remainingDistance]

/-- C16. A ship in MOVING with the acceleration 20 and the deceleration 10 of the constructor
gains 20 x deltaTime of speed in a tick and, the speed v after this gain being positive, the
tick leaves it DECELERATING exactly when the distance to the destination at the start of the
tick is at most v * v / (2 * 10), and MOVING otherwise. -/
theorem moving_switches_at_stopping_distance (L : Libm) (s : Ship) (dt : Time)
    (fl : List ShotInfo)
    (hst : s.m_movementState = MovementState.MOVING)
    (hacc : s.m_acceleration = 20) (hdec : s.m_deceleration = 10)
    (hv : 0 < s.m_speed + 20 * Time.asSeconds dt) :
    (s.update L dt fl).1.m_speed = s.m_speed + 20 * Time.asSeconds dt ∧
    ((s.update L dt fl).1.m_movementState = MovementState.DECELERATING ↔
      s.remainingDistance L ≤
        (s.m_speed + 20 * Time.asSeconds dt) * (s.m_speed + 20 * Time.asSeconds dt) / (2 * 10)) ∧
    ((s.update L dt fl).1.m_movementState = MovementState.MOVING ↔
      ¬ s.remainingDistance L ≤
        (s.m_speed + 20 * Time.asSeconds dt) * (s.m_speed + 20 * Time.asSeconds dt) / (2 * 10)) := by
  obtain ⟨h1, h2⟩ := Ship.update_moving L s dt fl hst
  rw [hacc] at h1 h2
  rw [hdec] at h2
  have key : (s.remainingDistance L / (s.m_speed + 20 * Time.asSeconds dt) * 2 ≤
      (s.m_speed + 20 * Time.asSeconds dt) / 10) ↔
      s.remainingDistance L ≤
        (s.m_speed + 20 * Time.asSeconds dt) * (s.m_speed + 20 * Time.asSeconds dt) / (2 * 10) := by
    set v := s.m_speed + 20 * Time.asSeconds dt with hvdef
    set len := s.remainingDistance L
    rw [div_mul_eq_mul_div, div_le_div_iff₀ hv (by norm_num : (0 : ℚ) < 10),
      le_div_iff₀ (by norm_num : (0 : ℚ) < 2 * 10)]
    constructor <;> intro h <;> linarith
  refine ⟨h1, ?_, ?_⟩
  · rw [h2, ← key]
    split <;> simp_all
  · rw [h2, ← key]
    split <;> simp_all

/-! ## C18: which container is touched under which lock -/

theorem LockEvent.run_append (g : Container → AccessKind → Option Mutex) (a b : List LockEvent)
    (held : List Mutex) :
    LockEvent.run g (a ++ b) held = (LockEvent.run g a held).bind (LockEvent.run g b) := by
  induction a generalizing held with
  | nil => rfl
  | cons e a ih =>
    cases e with
    | lock m => exact ih _
    | unlock m => exact ih _
    | access c k =>
      simp only [List.cons_append, LockEvent.run]
      cases g c k with
      | none => exact ih _
      | some m =>
        simp only []
        split
        · exact ih _
        · rfl

theorem LockEvent.Keeps.nil (g : Container → AccessKind → Option Mutex) (need : List Mutex) :
    LockEvent.Keeps g need [] := fun _ _ => rfl

theorem LockEvent.Keeps.append {g : Container → AccessKind → Option Mutex} {need : List Mutex}
    {a b : List LockEvent} (ha : LockEvent.Keeps g need a) (hb : LockEvent.Keeps g need b) :
    LockEvent.Keeps g need (a ++ b) := by
  intro held h
  rw [LockEvent.run_append, ha held h]
  exact hb held h

theorem LockEvent.Keeps.flatMap {α : Type} {g : Container → AccessKind → Option Mutex}
    {need : List Mutex} (f : α → List LockEvent) (l : List α)
    (h : ∀ a, LockEvent.Keeps g need (f a)) : LockEvent.Keeps g need (l.flatMap f) := by
  induction l with
  | nil => exact LockEvent.Keeps.nil g need
  | cons a l ih =>
    rw [List.flatMap_cons]
    exact (h a).append ih

theorem LockEvent.Keeps.replicate {g : Container → AccessKind → Option Mutex}
    {need : List Mutex} (n : Nat) {block : List LockEvent} (h : LockEvent.Keeps g need block) :
    LockEvent.Keeps g need (List.replicate n block).flatten := by
  induction n with
  | zero => exact LockEvent.Keeps.nil g need
  | succ n ih =>
    rw [List.replicate_succ, List.flatten_cons]
    exact h.append ih

theorem LockEvent.Keeps.locked {g : Container → AccessKind → Option Mutex} {need : List Mutex}
    (m : Mutex) {block : List LockEvent} (h : LockEvent.Keeps g (m :: need) block) :
    LockEvent.Keeps g need ([LockEvent.lock m] ++ block ++ [LockEvent.unlock m]) := by
  intro held hh
  rw [LockEvent.run_append, LockEvent.run_append]
  have h1 : LockEvent.run g [LockEvent.lock m] held = some (m :: held) := rfl
  rw [h1]
  simp only [Option.some_bind]
  rw [h (m :: held) (by
    intro x hx
    rcases List.mem_cons.1 hx with rfl | hx
    · exact List.mem_cons_self _ _
    · exact List.mem_cons_of_mem _ (hh x hx))]
  simp [LockEvent.run]

theorem LockEvent.Keeps.access {g : Container → AccessKind → Option Mutex} {need : List Mutex}
    (c : Container) (k : AccessKind)
    (h : ∀ m, g c k = some m → m ∈ need) : LockEvent.Keeps g need [LockEvent.access c k] := by
  intro held hh
  simp only [LockEvent.run]
  cases hg : g c k with
  | none => rfl
  | some m => simp [hh m (h m hg)]


theorem LockEvent.Keeps.cons_access {g : Container → AccessKind → Option Mutex}
    {need : List Mutex} (c : Container) (k : AccessKind) {block : List LockEvent}
    (h : ∀ m, g c k = some m → m ∈ need) (hb : LockEvent.Keeps g need block) :
    LockEvent.Keeps g need (LockEvent.access c k :: block) :=
  (LockEvent.Keeps.access c k h).append hb

theorem LockEvent.Keeps.run_nil {g : Container → AccessKind → Option Mutex}
    {block : List LockEvent} (h : LockEvent.Keeps g [] block) :
    LockEvent.run g block [] = some [] :=
  h [] (fun _ hm => absurd hm (List.not_mem_nil _))

theorem LockEvent.codeGuard_shipLists (k : AccessKind) (m : Mutex)
    (h : LockEvent.codeGuard Container.shipLists k = some m) : m = Mutex.shipMutex := by
  cases k with
  | traverse => simp [LockEvent.codeGuard] at h
  | mutate =>
    simp only [LockEvent.codeGuard, Option.some.injEq] at h
    exact h.symm

theorem LockEvent.codeGuard_projList (k : AccessKind) (m : Mutex)
    (h : LockEvent.codeGuard Container.projList k = some m) : m = Mutex.projMutex := by
  cases k <;>
  · simp only [LockEvent.codeGuard, Option.some.injEq] at h
    exact h.symm

theorem LockEvent.shipGuard_shipLists (k : AccessKind) (m : Mutex)
    (h : LockEvent.shipGuard Container.shipLists k = some m) : m = Mutex.shipMutex := by
  cases k <;>
  · simp only [LockEvent.shipGuard, Option.some.injEq] at h
    exact h.symm

theorem LockEvent.shipGuard_projList (k : AccessKind) (m : Mutex)
    (h : LockEvent.shipGuard Container.projList k = some m) : m = Mutex.projMutex := by
  cases k <;> simp [LockEvent.shipGuard] at h

theorem Ship.turretLoopEvents_keeps (g : Container → AccessKind → Option Mutex)
    (need : List Mutex) : LockEvent.Keeps g need Ship.turretLoopEvents :=
  @LockEvent.Keeps.locked g need Mutex.turretMutex [] (LockEvent.Keeps.nil g _)

theorem Ship.keeps_collideEvents (g : Container → AccessKind → Option Mutex)
    (need : List Mutex) (hit : Bool) : LockEvent.Keeps g need (Ship.collideEvents hit) := by
  cases hit
  · exact LockEvent.Keeps.nil g need
  · exact Ship.turretLoopEvents_keeps g need

theorem Ship.keeps_updateEvents (g : Container → AccessKind → Option Mutex)
    (need : List Mutex) (hq : ∀ k, g Container.fireQueue k = none) (fires : List Bool) :
    LockEvent.Keeps g need (Ship.updateEvents fires) := by
  refine LockEvent.Keeps.locked Mutex.turretMutex (LockEvent.Keeps.flatMap _ _ fun f => ?_)
  cases f
  · exact LockEvent.Keeps.nil g _
  · exact LockEvent.Keeps.access _ _ (by simp [hq])

theorem BattleState.shipLoopEvents_keeps (g : Container → AccessKind → Option Mutex)
    (hs : ∀ k m, g Container.shipLists k = some m → m = Mutex.shipMutex)
    (hq : ∀ k, g Container.fireQueue k = none) (ships : List (List Bool)) :
    LockEvent.Keeps g [] (BattleState.shipLoopEvents ships) := by
  refine LockEvent.Keeps.locked Mutex.shipMutex (LockEvent.Keeps.flatMap _ _ fun fires => ?_)
  refine LockEvent.Keeps.cons_access _ _ ?_ (Ship.keeps_updateEvents g _ hq fires)
  intro m hm
  simp [hs _ m hm]

theorem BattleState.drawEvents_keeps (g : Container → AccessKind → Option Mutex)
    (hs : ∀ k m, g Container.shipLists k = some m → m = Mutex.shipMutex)
    (hp : ∀ k m, g Container.projList k = some m → m = Mutex.projMutex)
    (ships projectiles : Nat) :
    LockEvent.Keeps g [] (BattleState.drawEvents ships projectiles) := by
  have h1 : LockEvent.Keeps g []
      ([LockEvent.lock Mutex.shipMutex] ++
        (List.replicate ships
          (LockEvent.access Container.shipLists AccessKind.traverse ::
            Ship.turretLoopEvents)).flatten ++ [LockEvent.unlock Mutex.shipMutex]) := by
    refine LockEvent.Keeps.locked Mutex.shipMutex (LockEvent.Keeps.replicate _ ?_)
    refine LockEvent.Keeps.cons_access _ _ ?_ (Ship.turretLoopEvents_keeps g _)
    intro m hm
    simp [hs _ m hm]
  have h2 : LockEvent.Keeps g []
      ([LockEvent.lock Mutex.projMutex] ++
        List.replicate projectiles (LockEvent.access Container.projList AccessKind.traverse) ++
        [LockEvent.unlock Mutex.projMutex]) := by
    refine LockEvent.Keeps.locked Mutex.projMutex ?_
    induction projectiles with
    | zero => exact LockEvent.Keeps.nil g _
    | succ n ih =>
      rw [List.replicate_succ]
      refine LockEvent.Keeps.cons_access _ _ ?_ ih
      intro m hm
      simp [hp _ m hm]
  have h := h1.append h2
  simpa [BattleState.drawEvents, List.append_assoc] using h

theorem BattleState.collideEvents_keeps (need : List Mutex) (misses : Nat) (hit : Option Bool) :
    LockEvent.Keeps LockEvent.codeGuard need (BattleState.collideEvents misses hit) := by
  have ht : LockEvent.Keeps LockEvent.codeGuard need
      [LockEvent.access Container.shipLists AccessKind.traverse] :=
    LockEvent.Keeps.access _ _ (by simp [LockEvent.codeGuard])
  refine (ht.append (LockEvent.Keeps.replicate _ ?_)).append ?_
  · exact (ht.append (Ship.keeps_collideEvents _ _ false)).append ht
  · cases hit with
    | none => exact ht
    | some erased =>
      refine (ht.append (Ship.keeps_collideEvents _ _ true)).append ?_
      cases erased
      · exact LockEvent.Keeps.nil _ _
      · have h := (@LockEvent.Keeps.locked LockEvent.codeGuard need Mutex.shipMutex
          [LockEvent.access Container.shipLists AccessKind.mutate]
          (LockEvent.Keeps.access _ _ (by simp [LockEvent.codeGuard]))).append ht
        simpa [BattleState.eraseShipEvents] using h

theorem BattleState.resolveProjectilesEvents_keeps (runs : List BattleState.ProjectileRun) :
    LockEvent.Keeps LockEvent.codeGuard [] (BattleState.resolveProjectilesEvents runs) := by
  refine LockEvent.Keeps.locked Mutex.projMutex (LockEvent.Keeps.flatMap _ _ fun r => ?_)
  have hp : ∀ k, LockEvent.Keeps LockEvent.codeGuard [Mutex.projMutex]
      [LockEvent.access Container.projList k] := fun k =>
    LockEvent.Keeps.access _ _ (by cases k <;> simp [LockEvent.codeGuard])
  refine ((hp _).append ?_).append (hp _)
  cases r.finished
  · exact BattleState.collideEvents_keeps _ _ _
  · exact LockEvent.Keeps.nil _ _

theorem BattleState.updateEvents_keeps (queued : Nat) (runs : List BattleState.ProjectileRun)
    (ships : List (List Bool)) :
    LockEvent.Keeps LockEvent.codeGuard [] (BattleState.updateEvents queued runs ships) := by
  have h1 : LockEvent.Keeps LockEvent.codeGuard []
      ([LockEvent.lock Mutex.projMutex] ++
        (List.replicate queued
          (LockEvent.access Container.fireQueue AccessKind.traverse ::
            BattleState.createProjectileEvents)).flatten ++
        [LockEvent.unlock Mutex.projMutex]) := by
    refine LockEvent.Keeps.locked Mutex.projMutex (LockEvent.Keeps.replicate _ ?_)
    refine LockEvent.Keeps.cons_access _ _ (by simp [LockEvent.codeGuard]) ?_
    exact @LockEvent.Keeps.locked _ _ Mutex.projMutex
      [LockEvent.access Container.projList AccessKind.mutate]
      (LockEvent.Keeps.access _ _ (by simp [LockEvent.codeGuard]))
  have h2 : LockEvent.Keeps LockEvent.codeGuard []
      [LockEvent.access Container.fireQueue AccessKind.mutate] :=
    LockEvent.Keeps.access _ _ (by simp [LockEvent.codeGuard])
  have h := ((h1.append h2).append (BattleState.resolveProjectilesEvents_keeps runs)).append
    (BattleState.shipLoopEvents_keeps LockEvent.codeGuard
      LockEvent.codeGuard_shipLists (by intro k; cases k <;> rfl) ships)
  simpa [BattleState.updateEvents, List.append_assoc] using h

/-- C18 (amended). On every run of update and of draw each traversal or mutation of the
projectile list is made while projMutex is held and each mutation of a ship list (the push_back
of createShip, the erase of collide) while shipMutex is held, and every lock is released at the
end; the traversals of the ship lists in draw and in the ship loop of update are made while
shipMutex is held as well. The traversal of a ship list in collide and the accesses to the
pending-fire queue are outside this discipline. -/
theorem locks_held_where_the_code_locks (queued : Nat) (runs : List BattleState.ProjectileRun)
    (ships : List (List Bool)) (drawnShips drawnProjectiles : Nat) :
    LockEvent.run LockEvent.codeGuard (BattleState.updateEvents queued runs ships) [] = some [] ∧
    LockEvent.run LockEvent.codeGuard (BattleState.drawEvents drawnShips drawnProjectiles) []
      = some [] ∧
    LockEvent.run LockEvent.codeGuard BattleState.createShipEvents [] = some [] ∧
    LockEvent.run LockEvent.codeGuard BattleState.issueMoveCommandEvents [] = some [] ∧
    LockEvent.run LockEvent.codeGuard BattleState.issueFireCommandEvents [] = some [] ∧
    LockEvent.run LockEvent.shipGuard (BattleState.drawEvents drawnShips drawnProjectiles) []
      = some [] ∧
    LockEvent.run LockEvent.shipGuard (BattleState.shipLoopEvents ships) [] = some [] ∧
    LockEvent.run LockEvent.shipGuard BattleState.createShipEvents [] = some [] := by
  exact ⟨(BattleState.updateEvents_keeps queued runs ships).run_nil,
    (BattleState.drawEvents_keeps _ LockEvent.codeGuard_shipLists LockEvent.codeGuard_projList
      _ _).run_nil,
    by decide, by decide, by decide,
    (BattleState.drawEvents_keeps _ LockEvent.shipGuard_shipLists LockEvent.shipGuard_projList
      _ _).run_nil,
    (BattleState.shipLoopEvents_keeps _ LockEvent.shipGuard_shipLists
      (by intro k; cases k <;> rfl) ships).run_nil,
    by decide⟩

/-! ## C19: when the battle is left -/

theorem BattleState.foldl_createProjectile_leftBattle (L : Libm) (infos : List ShotInfo)
    (b : BattleState) :
    (infos.foldl (BattleState.createProjectile L) b).leftBattle = b.leftBattle := by
  induction infos generalizing b with
  | nil => rfl
  | cons i is ih => simp only [List.foldl_cons, ih]; rfl

theorem BattleState.setShipList_leftBattle (b : BattleState) (l : Fin 2) (ships : List Ship) :
    (b.setShipList l ships).leftBattle = b.leftBattle := by
  unfold BattleState.setShipList
  split <;> rfl

theorem BattleState.collide_leftBattle (L : Libm) (b : BattleState) (p : Projectile) (dt : Time) :
    (b.collide L p dt).2.leftBattle = b.leftBattle := by
  unfold BattleState.collide
  simp only []
  split
  · exact BattleState.setShipList_leftBattle _ _ _
  · exact BattleState.setShipList_leftBattle _ _ _

theorem BattleState.resolveLoop_leftBattle (L : Libm) (dt : Time) (ps : List Projectile)
    (b : BattleState) : (BattleState.resolveLoop L dt b ps).1.leftBattle = b.leftBattle := by
  induction ps generalizing b with
  | nil => rfl
  | cons p ps ih =>
    simp only [BattleState.resolveLoop]
    split
    · exact ih b
    · split
      · rw [ih, BattleState.collide_leftBattle]
      · split
        · rw [ih, BattleState.collide_leftBattle]
        · rw [ih, BattleState.collide_leftBattle]

/-- C19 (amended). The collision pass of an update never leaves the battle, and the update leaves
the battle at its end exactly when the finished flag is set at the end of its own collision
pass, a battle that was left before staying left: the transition is made by the update call in
which the list became empty, not by the following one. -/
theorem transition_at_end_of_same_update (L : Libm) (b : BattleState) (dt : Time) :
    ((b.spawnQueued L).resolveProjectiles L dt).leftBattle = b.leftBattle ∧
    (b.update L dt).leftBattle =
      (b.leftBattle || ((b.spawnQueued L).resolveProjectiles L dt).m_isFinished) := by
  have h1 : ((b.spawnQueued L).resolveProjectiles L dt).leftBattle = b.leftBattle := by
    simp only [BattleState.resolveProjectiles, BattleState.resolveLoop_leftBattle]
    exact BattleState.foldl_createProjectile_leftBattle L _ b
  refine ⟨h1, ?_⟩
  by_cases hf : ((b.spawnQueued L).resolveProjectiles L dt).m_isFinished = true
  · have hf' := hf
    simp only [BattleState.spawnQueued] at hf'
    simp only [BattleState.update, hf', if_true, BattleState.changeToBuildState, hf,
      Bool.or_true]
  · have hf' := hf
    have h1' := h1
    simp only [BattleState.spawnQueued] at hf' h1'
    simp only [BattleState.update, hf', if_false, h1']
    simp [hf]

/-! ## C20: the cells the ray cast tests -/

theorem bresenhamOffset_bounds (n m i : Nat) (hn : 0 < n) :
    2 * (n * bresenhamOffset n m i) + 1 ≤ 2 * (i * m) + n ∧
    2 * (i * m) + n ≤ 2 * (n * bresenhamOffset n m i) + 2 * n := by
  unfold bresenhamOffset
  have h1 := Nat.div_add_mod (2 * i * m + n - 1) (2 * n)
  have h2 := Nat.mod_lt (2 * i * m + n - 1) (by omega : 0 < 2 * n)
  have e1 : 2 * n * ((2 * i * m + n - 1) / (2 * n)) = 2 * (n * ((2 * i * m + n - 1) / (2 * n))) := by
    ring
  have e2 : 2 * i * m = 2 * (i * m) := by ring
  rw [e1] at h1
  rw [e2] at h1 h2 ⊢
  generalize n * ((2 * (i * m) + n - 1) / (2 * n)) = P at h1 ⊢
  generalize (2 * (i * m) + n - 1) % (2 * n) = R at h1 h2
  generalize i * m = A at h1 ⊢
  omega

theorem bresenhamOffset_unique (n m i k : Nat)
    (h1 : 2 * (n * k) + 1 ≤ 2 * (i * m) + n) (h2 : 2 * (i * m) + n ≤ 2 * (n * k) + 2 * n) :
    bresenhamOffset n m i = k := by
  unfold bresenhamOffset
  apply Nat.div_eq_of_lt_le
  · have e : k * (2 * n) = 2 * (n * k) := by ring
    have e2 : 2 * i * m = 2 * (i * m) := by ring
    rw [e, e2]
    omega
  · have e : (k + 1) * (2 * n) = 2 * (n * k) + 2 * n := by ring
    have e2 : 2 * i * m = 2 * (i * m) := by ring
    rw [e, e2]
    omega

theorem bresenhamOffset_zero (n m : Nat) : bresenhamOffset n m 0 = 0 := by
  unfold bresenhamOffset
  rcases Nat.eq_zero_or_pos n with h | h
  · subst h; simp
  · exact Nat.div_eq_of_lt (by omega)

theorem bresenhamOffset_succ_step (n m i : Nat) (hn : 0 < n) (hmn : m ≤ n)
    (h : n + 2 * (n * bresenhamOffset n m i) < 2 * ((i + 1) * m)) :
    bresenhamOffset n m (i + 1) = bresenhamOffset n m i + 1 := by
  obtain ⟨b1, b2⟩ := bresenhamOffset_bounds n m i hn
  apply bresenhamOffset_unique n m (i + 1) _
  · have e : n * (bresenhamOffset n m i + 1) = n * bresenhamOffset n m i + n := by ring
    rw [e]; omega
  · have e : n * (bresenhamOffset n m i + 1) = n * bresenhamOffset n m i + n := by ring
    have e2 : (i + 1) * m = i * m + m := by ring
    rw [e, e2]; omega

theorem bresenhamOffset_succ_stay (n m i : Nat) (hn : 0 < n)
    (h : ¬ n + 2 * (n * bresenhamOffset n m i) < 2 * ((i + 1) * m)) :
    bresenhamOffset n m (i + 1) = bresenhamOffset n m i := by
  obtain ⟨b1, b2⟩ := bresenhamOffset_bounds n m i hn
  apply bresenhamOffset_unique n m (i + 1) _
  · have e2 : (i + 1) * m = i * m + m := by ring
    rw [e2]; omega
  · omega

theorem Ship.firstPixelHitLoop_spec (key : Image) (isSteep : Bool) (xStep yStep : Int)
    (n m : Nat) (hmn : m ≤ n) (X0 Y0 : Int) :
    ∀ r i, i + r = n →
      Ship.firstPixelHitLoop key isSteep xStep yStep (n : ℚ) (m : ℚ) r
          (X0 + (i : Int) * xStep) (Y0 + (bresenhamOffset n m i : Int) * yStep)
          ((n : ℚ) / 2 - (i : ℚ) * (m : ℚ) + (bresenhamOffset n m i : ℚ) * (n : ℚ)) =
        (((List.range' i r).map (Ship.lineCell isSteep X0 Y0 xStep yStep n m)).find?
          (Ship.cellTest key isSteep)).getD ⟨-1, -1⟩ := by
  intro r
  induction r with
  | zero => intro i _; rfl
  | succ r ih =>
    intro i hi
    have hn : 0 < n := by omega
    rw [List.range'_succ, List.map_cons, List.find?_cons]
    have hcell : Ship.cellTest key isSteep (Ship.lineCell isSteep X0 Y0 xStep yStep n m i) =
        (IntRect.contains key.width key.height (Y0 + (bresenhamOffset n m i : Int) * yStep)
            (X0 + (i : Int) * xStep) &&
          (if isSteep then
            key.getPixel (Y0 + (bresenhamOffset n m i : Int) * yStep).toNat
              (X0 + (i : Int) * xStep).toNat
          else
            key.getPixel (X0 + (i : Int) * xStep).toNat
              (Y0 + (bresenhamOffset n m i : Int) * yStep).toNat)) := by
      cases isSteep <;> simp [Ship.cellTest, Ship.lineCell]
    rw [Ship.firstPixelHitLoop]
    rw [hcell]
    by_cases ht : (IntRect.contains key.width key.height (Y0 + (bresenhamOffset n m i : Int) * yStep)
            (X0 + (i : Int) * xStep) &&
          (if isSteep then
            key.getPixel (Y0 + (bresenhamOffset n m i : Int) * yStep).toNat
              (X0 + (i : Int) * xStep).toNat
          else
            key.getPixel (X0 + (i : Int) * xStep).toNat
              (Y0 + (bresenhamOffset n m i : Int) * yStep).toNat)) = true
    · rw [if_pos ht]
      simp only [ht]
      cases isSteep <;> simp [Ship.lineCell]
    · rw [if_neg ht]
      have ht' := ht
      simp only [Bool.not_eq_true] at ht'
      simp only [ht']
      have hx : X0 + (i : Int) * xStep + xStep = X0 + ((i + 1 : Nat) : Int) * xStep := by
        push_cast; ring
      by_cases hs : n + 2 * (n * bresenhamOffset n m i) < 2 * ((i + 1) * m)
      · have hoff := bresenhamOffset_succ_step n m i hn hmn hs
        have herr : (n : ℚ) / 2 - (i : ℚ) * (m : ℚ) + (bresenhamOffset n m i : ℚ) * (n : ℚ) -
            (m : ℚ) < 0 := by
          have hq : ((n + 2 * (n * bresenhamOffset n m i) : Nat) : ℚ) <
              ((2 * ((i + 1) * m) : Nat) : ℚ) := by exact_mod_cast hs
          push_cast at hq
          linarith
        simp only [herr, if_true]
        have hy : Y0 + (bresenhamOffset n m i : Int) * yStep + yStep =
            Y0 + (bresenhamOffset n m (i + 1) : Int) * yStep := by
          rw [hoff]; push_cast; ring
        have he : (n : ℚ) / 2 - (i : ℚ) * (m : ℚ) + (bresenhamOffset n m i : ℚ) * (n : ℚ) -
            (m : ℚ) + (n : ℚ) =
            (n : ℚ) / 2 - ((i + 1 : Nat) : ℚ) * (m : ℚ) +
              (bresenhamOffset n m (i + 1) : ℚ) * (n : ℚ) := by
          rw [hoff]; push_cast; ring
        rw [hx, hy, he]
        exact ih (i + 1) (by omega)
      · have hoff := bresenhamOffset_succ_stay n m i hn hs
        have herr : ¬ ((n : ℚ) / 2 - (i : ℚ) * (m : ℚ) + (bresenhamOffset n m i : ℚ) * (n : ℚ) -
            (m : ℚ) < 0) := by
          have hs' : 2 * ((i + 1) * m) ≤ n + 2 * (n * bresenhamOffset n m i) := by omega
          have hq : ((2 * ((i + 1) * m) : Nat) : ℚ) ≤
              ((n + 2 * (n * bresenhamOffset n m i) : Nat) : ℚ) := by exact_mod_cast hs'
          push_cast at hq
          linarith
        simp only [herr, if_false]
        have hy : Y0 + (bresenhamOffset n m i : Int) * yStep =
            Y0 + (bresenhamOffset n m (i + 1) : Int) * yStep := by
          rw [hoff]
        have he : (n : ℚ) / 2 - (i : ℚ) * (m : ℚ) + (bresenhamOffset n m i : ℚ) * (n : ℚ) -
            (m : ℚ) =
            (n : ℚ) / 2 - ((i + 1 : Nat) : ℚ) * (m : ℚ) +
              (bresenhamOffset n m (i + 1) : ℚ) * (n : ℚ) := by
          rw [hoff]; push_cast; ring
        rw [hx, hy, he]
        exact ih (i + 1) (by omega)

theorem Ship.castRay_eq_find (key : Image) (a b : Vector2i) :
    Ship.castRay key a b =
      ((Ship.bresenhamCells a b).find? (Ship.cellTest key (Ship.isSteepLine a b))).getD
        ⟨-1, -1⟩ := by
  have hcast : ∀ z : Int, (((|z| : Int)) : ℚ) = ((z.natAbs : Nat) : ℚ) := by
    intro z
    have hz : (|z| : Int) = ((z.natAbs : Nat) : Int) := (Int.natCast_natAbs z).symm
    rw [hz]
    exact Int.cast_natCast _
  by_cases hst : Ship.isSteepLine a b = true
  · have hd : |b.x - a.x| < |b.y - a.y| := by simpa [Ship.isSteepLine] using hst
    have hmn : (b.x - a.x).natAbs ≤ (b.y - a.y).natAbs := by
      have hd' := hd
      rw [← Int.natCast_natAbs, ← Int.natCast_natAbs] at hd'
      omega
    have hn0 := bresenhamOffset_zero (b.y - a.y).natAbs (b.x - a.x).natAbs
    have h := Ship.firstPixelHitLoop_spec key true (if b.y < a.y then -1 else 1)
      (if a.x < b.x then 1 else -1) (b.y - a.y).natAbs (b.x - a.x).natAbs hmn a.y a.x
      (b.y - a.y).natAbs 0 (by omega)
    rw [hn0] at h
    simp only [Nat.cast_zero, zero_mul, add_zero, sub_zero] at h
    simp only [Ship.castRay, Ship.bresenhamCells, hst, hd, decide_True, if_true, hcast,
      List.range_eq_range']
    exact h
  · have hst' : Ship.isSteepLine a b = false := by simpa using hst
    have hd : ¬ |b.x - a.x| < |b.y - a.y| := by simpa [Ship.isSteepLine] using hst
    have hmn : (b.y - a.y).natAbs ≤ (b.x - a.x).natAbs := by
      have hd' := hd
      rw [← Int.natCast_natAbs, ← Int.natCast_natAbs] at hd'
      omega
    have hn0 := bresenhamOffset_zero (b.x - a.x).natAbs (b.y - a.y).natAbs
    have h := Ship.firstPixelHitLoop_spec key false (if b.x < a.x then -1 else 1)
      (if a.y < b.y then 1 else -1) (b.x - a.x).natAbs (b.y - a.y).natAbs hmn a.x a.y
      (b.x - a.x).natAbs 0 (by omega)
    rw [hn0] at h
    simp only [Nat.cast_zero, zero_mul, add_zero, sub_zero] at h
    simp only [Ship.castRay, Ship.bresenhamCells, hst', hd, decide_False, if_false, hcast,
      List.range_eq_range']
    exact h

theorem Ship.cellTest_eq_solidAt (key : Image) (isSteep : Bool)
    (h : isSteep = true ∨ key.width = key.height) (c : Vector2i) :
    Ship.cellTest key isSteep c = key.solidAt c := by
  rcases h with h | h
  · subst h; rfl
  · cases isSteep
    · simp only [Ship.cellTest, Image.solidAt, IntRect.contains, h, Bool.false_eq_true, if_false]
      congr 1
      cases decide (0 ≤ c.y) <;> cases decide (c.y < (key.height : Int)) <;>
        cases decide (0 ≤ c.x) <;> cases decide (c.x < (key.height : Int)) <;> rfl
    · rfl

/-- C20 (amended). For a steep line or a square key, Ship::firstPixelHit tests the cells of the
Bresenham line from the cell of the previous position of the projectile towards the cell of its
current position, in order from the start and the end cell left out, and returns the first of
them that is inside the key and solid; where none of them is, and the end cell is not solid
either, it returns (-1, -1). -/
theorem firstPixelHit_tests_bresenham_line (L : Libm) (s : Ship) (proj : Projectile) (dt : Time)
    (hkey : Ship.isSteepLine (s.startCell L proj dt) (s.endCell L proj) = true ∨
      s.m_keyImage.width = s.m_keyImage.height) :
    (∀ c, (Ship.bresenhamCells (s.startCell L proj dt) (s.endCell L proj)).find?
        s.m_keyImage.solidAt = some c → s.firstPixelHit L proj dt = c) ∧
    ((Ship.bresenhamCells (s.startCell L proj dt) (s.endCell L proj)).find?
        s.m_keyImage.solidAt = none →
      s.m_keyImage.solidAt (s.endCell L proj) = false →
      s.firstPixelHit L proj dt = ⟨-1, -1⟩) := by
  have h1 : s.firstPixelHit L proj dt =
      Ship.castRay s.m_keyImage (s.startCell L proj dt) (s.endCell L proj) := rfl
  have h2 : Ship.cellTest s.m_keyImage
      (Ship.isSteepLine (s.startCell L proj dt) (s.endCell L proj)) = s.m_keyImage.solidAt := by
    funext c
    exact Ship.cellTest_eq_solidAt _ _ hkey c
  rw [h1, Ship.castRay_eq_find, h2]
  constructor
  · intro c hc
    rw [hc]; rfl
  · intro hn _
    rw [hn]; rfl

/-! ## C21: what a hit changes -/

theorem Ship.cellTest_spec (key : Image) (isSteep : Bool) (c : Vector2i)
    (h : Ship.cellTest key isSteep c = true) :
    0 ≤ c.x ∧ 0 ≤ c.y ∧ key.getPixel c.x.toNat c.y.toNat = true := by
  cases isSteep <;>
  · simp only [Ship.cellTest, IntRect.contains, Bool.and_eq_true, decide_eq_true_eq,
      Bool.false_eq_true, if_false, if_true] at h
    exact ⟨by omega, by omega, h.2⟩

theorem Ship.firstPixelHit_eq_find (L : Libm) (s : Ship) (proj : Projectile) (dt : Time) :
    s.firstPixelHit L proj dt =
      ((Ship.bresenhamCells (s.startCell L proj dt) (s.endCell L proj)).find?
        (Ship.cellTest s.m_keyImage
          (Ship.isSteepLine (s.startCell L proj dt) (s.endCell L proj)))).getD ⟨-1, -1⟩ := by
  have h1 : s.firstPixelHit L proj dt =
      Ship.castRay s.m_keyImage (s.startCell L proj dt) (s.endCell L proj) := rfl
  rw [h1, Ship.castRay_eq_find]

theorem Ship.firstPixelHit_hit (L : Libm) (s : Ship) (proj : Projectile) (dt : Time)
    (h : (s.firstPixelHit L proj dt).x ≠ -1) :
    (Ship.bresenhamCells (s.startCell L proj dt) (s.endCell L proj)).find?
        (Ship.cellTest s.m_keyImage
          (Ship.isSteepLine (s.startCell L proj dt) (s.endCell L proj))) =
      some (s.firstPixelHit L proj dt) := by
  rw [Ship.firstPixelHit_eq_find] at h ⊢
  cases hf : (Ship.bresenhamCells (s.startCell L proj dt) (s.endCell L proj)).find?
      (Ship.cellTest s.m_keyImage (Ship.isSteepLine (s.startCell L proj dt) (s.endCell L proj))) with
  | none => rw [hf] at h; exact absurd rfl h
  | some c => rfl

/-- When Ship::collide(projectile) returns true, the cell returned by firstPixelHit has
non-negative coordinates and was solid in the key, the key after the call is the key before
with that cell made transparent, every other entry of the pixel buffer is unchanged (and so is
every other cell of the key when the returned column is below the width of the key), and the
turrets after the call are the turrets before, in their order, that pass the point collision
test at their anchor point against the ship after the call. When it returns false, the key
and the turrets are unchanged. -/
theorem Ship.collide_buffer_effect (L : Libm) (s : Ship) (proj : Projectile) (dt : Time) :
    ((s.collide L proj dt).1 = true →
      0 ≤ (s.firstPixelHit L proj dt).x ∧ 0 ≤ (s.firstPixelHit L proj dt).y ∧
      s.m_keyImage.getPixel (s.firstPixelHit L proj dt).x.toNat
        (s.firstPixelHit L proj dt).y.toNat = true ∧
      (s.collide L proj dt).2.m_keyImage =
        s.m_keyImage.setPixel (s.firstPixelHit L proj dt).x.toNat
          (s.firstPixelHit L proj dt).y.toNat false ∧
      (s.collide L proj dt).2.m_keyImage.getPixel (s.firstPixelHit L proj dt).x.toNat
        (s.firstPixelHit L proj dt).y.toNat = false ∧
      (∀ i, i ≠ (s.firstPixelHit L proj dt).x.toNat +
            (s.firstPixelHit L proj dt).y.toNat * s.m_keyImage.width →
        (s.collide L proj dt).2.m_keyImage.pixels.getD i false =
          s.m_keyImage.pixels.getD i false) ∧
      ((s.firstPixelHit L proj dt).x < (s.m_keyImage.width : Int) →
        ∀ x y, x < s.m_keyImage.width →
          (x ≠ (s.firstPixelHit L proj dt).x.toNat ∨ y ≠ (s.firstPixelHit L proj dt).y.toNat) →
          (s.collide L proj dt).2.m_keyImage.getPixel x y = s.m_keyImage.getPixel x y) ∧
      (s.collide L proj dt).2.m_turrets =
        s.m_turrets.filter fun t =>
          (s.collide L proj dt).2.collidePointResult L
            (((s.collide L proj dt).2.toTransformable.getTransform L).transformPoint
              t.toTransformable.position)) ∧
    ((s.collide L proj dt).1 = false →
      (s.collide L proj dt).2.m_keyImage = s.m_keyImage ∧
      (s.collide L proj dt).2.m_turrets = s.m_turrets) := by
  constructor
  · intro h
    have hfp : (s.refreshTransform L).firstPixelHit L proj dt = s.firstPixelHit L proj dt := rfl
    by_cases h1 : ((s.refreshTransform L).getGlobalBounds L).intersects
        (proj.getGlobalBounds L) = true
    · by_cases h2 : (s.firstPixelHit L proj dt).x = -1
      · simp [Ship.collide, h1, hfp, h2] at h
      · have hr : (s.collide L proj dt).2 =
            ((s.refreshTransform L).blackOut (s.firstPixelHit L proj dt)).eraseHitTurrets L := by
          simp [Ship.collide, h1, hfp, h2]
        obtain ⟨hx, hy, hp⟩ := Ship.cellTest_spec _ _ _
          (List.find?_some (Ship.firstPixelHit_hit L s proj dt h2))
        rw [hr]
        have hother : ∀ i, i ≠ (s.firstPixelHit L proj dt).x.toNat +
              (s.firstPixelHit L proj dt).y.toNat * s.m_keyImage.width →
            (((s.refreshTransform L).blackOut (s.firstPixelHit L proj dt)).eraseHitTurrets
              L).m_keyImage.pixels.getD i false = s.m_keyImage.pixels.getD i false := by
          intro i hi
          simp [Ship.eraseHitTurrets, Ship.blackOut, Ship.refreshTransform, Image.setPixel,
            List.getD_eq_getElem?_getD, List.getElem?_set_ne (Ne.symm hi)]
        refine ⟨hx, hy, hp, rfl, ?_, hother, ?_, rfl⟩
        · have hlt : (s.firstPixelHit L proj dt).x.toNat +
              (s.firstPixelHit L proj dt).y.toNat * s.m_keyImage.width <
              s.m_keyImage.pixels.length := by
            by_contra hc
            have : s.m_keyImage.getPixel (s.firstPixelHit L proj dt).x.toNat
                (s.firstPixelHit L proj dt).y.toNat = false := by
              simp only [Image.getPixel, List.getD_eq_getElem?_getD]
              rw [List.getElem?_eq_none (by omega)]
              rfl
            rw [this] at hp
            exact absurd hp (by decide)
          simp [Ship.eraseHitTurrets, Ship.blackOut, Ship.refreshTransform, Image.setPixel,
            Image.getPixel, List.getD_eq_getElem?_getD, hlt]
        · intro hin x y hxw hne
          have hw : (((s.refreshTransform L).blackOut (s.firstPixelHit L proj dt)).eraseHitTurrets
              L).m_keyImage.width = s.m_keyImage.width := rfl
          simp only [Image.getPixel, hw]
          apply hother
          intro heq
          have hcx : (s.firstPixelHit L proj dt).x.toNat < s.m_keyImage.width := by omega
          have h5 := congrArg (fun n => n % s.m_keyImage.width) heq
          simp only [Nat.add_mul_mod_self_right, Nat.mod_eq_of_lt hxw, Nat.mod_eq_of_lt hcx] at h5
          rcases hne with hne | hne
          · exact hne h5
          · apply hne
            rw [h5] at heq
            have h6 : y * s.m_keyImage.width =
                (s.firstPixelHit L proj dt).y.toNat * s.m_keyImage.width := by omega
            exact Nat.eq_of_mul_eq_mul_right (by omega) h6
    · simp [Ship.collide, h1] at h
  · intro h
    rw [Ship.collide_false L s proj dt h]
    exact ⟨rfl, rfl⟩

/-! ## C22: the key of a hull texture -/

theorem Image.setPixel_true_getD (key : Image) (x y i : Nat) :
    ((key.setPixel x y true).pixels.getD i false = true ↔
      key.pixels.getD i false = true ∨ (i < key.pixels.length ∧ x + y * key.width = i)) := by
  simp only [Image.setPixel, List.getD_eq_getElem?_getD, List.getElem?_set]
  by_cases h : x + y * key.width = i
  · subst h
    by_cases hl : x + y * key.width < key.pixels.length
    · simp [hl]
    · simp [hl, List.getElem?_eq_none (not_lt.1 hl)]
  · simp [h]

theorem Image.foldl_setPixel_spec {α : Type} (c : α → Bool) (px py : α → Nat) (l : List α)
    (key : Image) :
    (l.foldl (fun k x => if c x then k.setPixel (px x) (py x) true else k) key).width = key.width ∧
    (l.foldl (fun k x => if c x then k.setPixel (px x) (py x) true else k) key).height =
      key.height ∧
    (l.foldl (fun k x => if c x then k.setPixel (px x) (py x) true else k) key).pixels.length =
      key.pixels.length ∧
    ∀ i, ((l.foldl (fun k x => if c x then k.setPixel (px x) (py x) true else k)
        key).pixels.getD i false = true ↔
      key.pixels.getD i false = true ∨
        (i < key.pixels.length ∧ ∃ x ∈ l, c x = true ∧ px x + py x * key.width = i)) := by
  induction l generalizing key with
  | nil => simp
  | cons a l ih =>
    simp only [List.foldl_cons]
    by_cases hc : c a = true
    · obtain ⟨h1, h2, h3, h4⟩ := ih (key.setPixel (px a) (py a) true)
      simp only [hc, if_true]
      have hw : (key.setPixel (px a) (py a) true).width = key.width := rfl
      have hl : (key.setPixel (px a) (py a) true).pixels.length = key.pixels.length := by
        simp [Image.setPixel]
      refine ⟨h1.trans hw, h2, h3.trans hl, fun i => ?_⟩
      rw [h4 i, Image.setPixel_true_getD, hw, hl]
      constructor
      · rintro ((h | ⟨h, h'⟩) | ⟨h, x, hx, hcx, hi⟩)
        · exact Or.inl h
        · exact Or.inr ⟨h, a, List.mem_cons_self _ _, hc, h'⟩
        · exact Or.inr ⟨h, x, List.mem_cons_of_mem _ hx, hcx, hi⟩
      · rintro (h | ⟨h, x, hx, hcx, hi⟩)
        · exact Or.inl (Or.inl h)
        · rcases List.mem_cons.1 hx with rfl | hx
          · exact Or.inl (Or.inr ⟨h, hi⟩)
          · exact Or.inr ⟨h, x, hx, hcx, hi⟩
    · obtain ⟨h1, h2, h3, h4⟩ := ih key
      simp only [hc, Bool.false_eq_true, if_false]
      refine ⟨h1, h2, h3, fun i => ?_⟩
      rw [h4 i]
      constructor
      · rintro (h | ⟨h, x, hx, hcx, hi⟩)
        · exact Or.inl h
        · exact Or.inr ⟨h, x, List.mem_cons_of_mem _ hx, hcx, hi⟩
      · rintro (h | ⟨h, x, hx, hcx, hi⟩)
        · exact Or.inl h
        · rcases List.mem_cons.1 hx with rfl | hx
          · exact absurd hcx hc
          · exact Or.inr ⟨h, x, hx, hcx, hi⟩

theorem Image.foldl_rows_spec (c : Nat → Nat → Bool) (px py : Nat → Nat → Nat) (cols : List Nat)
    (rows : List Nat) (key : Image) :
    (rows.foldl (fun k yb =>
        cols.foldl (fun k xb => if c xb yb then k.setPixel (px xb yb) (py xb yb) true else k) k)
      key).width = key.width ∧
    (rows.foldl (fun k yb =>
        cols.foldl (fun k xb => if c xb yb then k.setPixel (px xb yb) (py xb yb) true else k) k)
      key).height = key.height ∧
    (rows.foldl (fun k yb =>
        cols.foldl (fun k xb => if c xb yb then k.setPixel (px xb yb) (py xb yb) true else k) k)
      key).pixels.length = key.pixels.length ∧
    ∀ i, ((rows.foldl (fun k yb =>
        cols.foldl (fun k xb => if c xb yb then k.setPixel (px xb yb) (py xb yb) true else k) k)
      key).pixels.getD i false = true ↔
      key.pixels.getD i false = true ∨
        (i < key.pixels.length ∧ ∃ yb ∈ rows, ∃ xb ∈ cols, c xb yb = true ∧
          px xb yb + py xb yb * key.width = i)) := by
  induction rows generalizing key with
  | nil => simp
  | cons yb rows ih =>
    simp only [List.foldl_cons]
    obtain ⟨a1, a2, a3, a4⟩ := Image.foldl_setPixel_spec (fun xb => c xb yb)
      (fun xb => px xb yb) (fun xb => py xb yb) cols key
    obtain ⟨h1, h2, h3, h4⟩ := ih
      (cols.foldl (fun k xb => if c xb yb then k.setPixel (px xb yb) (py xb yb) true else k) key)
    refine ⟨h1.trans a1, h2.trans a2, h3.trans a3, fun i => ?_⟩
    rw [h4 i, a4 i, a1, a3]
    constructor
    · rintro ((h | ⟨h, x, hx, hcx, hi⟩) | ⟨h, y, hy, x, hx, hcx, hi⟩)
      · exact Or.inl h
      · exact Or.inr ⟨h, yb, List.mem_cons_self _ _, x, hx, hcx, hi⟩
      · exact Or.inr ⟨h, y, List.mem_cons_of_mem _ hy, x, hx, hcx, hi⟩
    · rintro (h | ⟨h, y, hy, x, hx, hcx, hi⟩)
      · exact Or.inl (Or.inl h)
      · rcases List.mem_cons.1 hy with rfl | hy
        · exact Or.inl (Or.inr ⟨h, x, hx, hcx, hi⟩)
        · exact Or.inr ⟨h, y, hy, x, hx, hcx, hi⟩

theorem Ship.buildKey_size (texture : Image) :
    (Ship.buildKey texture).width = texture.width / 4 ∧
    (Ship.buildKey texture).height = texture.height / 4 := by
  obtain ⟨h1, h2, _, _⟩ := Image.foldl_rows_spec
    (fun xb yb => Ship.blockHasSolidPixel texture (xb * Ship.KEY_SIZE_FACTOR)
      (yb * Ship.KEY_SIZE_FACTOR))
    (fun xb _ => xb * Ship.KEY_SIZE_FACTOR / Ship.KEY_SIZE_FACTOR)
    (fun _ yb => yb * Ship.KEY_SIZE_FACTOR / Ship.KEY_SIZE_FACTOR)
    (List.range ((texture.width + (Ship.KEY_SIZE_FACTOR - 1)) / Ship.KEY_SIZE_FACTOR))
    (List.range ((texture.height + (Ship.KEY_SIZE_FACTOR - 1)) / Ship.KEY_SIZE_FACTOR))
    (Image.create (texture.width / Ship.KEY_SIZE_FACTOR) (texture.height / Ship.KEY_SIZE_FACTOR))
  exact ⟨h1, h2⟩

theorem Ship.blockHasSolidPixel_eq_blockAlpha (texture : Image) (a b cx cy : Nat)
    (hw : texture.width = 4 * a) (hh : texture.height = 4 * b) (hx : cx < a) (hy : cy < b) :
    Ship.blockHasSolidPixel texture (cx * Ship.KEY_SIZE_FACTOR) (cy * Ship.KEY_SIZE_FACTOR) =
      texture.blockAlpha cx cy := by
  rw [Bool.eq_iff_iff]
  simp only [Ship.blockHasSolidPixel, Image.blockAlpha, Ship.KEY_SIZE_FACTOR, List.any_eq_true,
    List.mem_range, Image.alphaAt, Bool.and_eq_true, decide_eq_true_eq]
  constructor
  · rintro ⟨j, hj, i, hi, h⟩
    refine ⟨j, hj, i, hi, ⟨by omega, by omega⟩, ?_⟩
    rw [Nat.mul_comm 4 cx, Nat.mul_comm 4 cy]
    exact h
  · rintro ⟨j, hj, i, hi, _, h⟩
    refine ⟨j, hj, i, hi, ?_⟩
    rw [Nat.mul_comm cx 4, Nat.mul_comm cy 4]
    exact h

/-- The key of a hull texture whose width and height are multiples of 4: it has a quarter of
the width and of the height, and a cell is solid exactly when one of the 16 pixels of its block
has a non-zero alpha. -/
theorem Ship.buildKey_spec (texture : Image) (a b : Nat)
    (hw : texture.width = 4 * a) (hh : texture.height = 4 * b) :
    (Ship.buildKey texture).width = a ∧ (Ship.buildKey texture).height = b ∧
    ∀ cx cy, cx < a → cy < b →
      (Ship.buildKey texture).getPixel cx cy = texture.blockAlpha cx cy := by
  obtain ⟨h1, h2, h3, h4⟩ := Image.foldl_rows_spec
    (fun xb yb => Ship.blockHasSolidPixel texture (xb * Ship.KEY_SIZE_FACTOR)
      (yb * Ship.KEY_SIZE_FACTOR))
    (fun xb _ => xb * Ship.KEY_SIZE_FACTOR / Ship.KEY_SIZE_FACTOR)
    (fun _ yb => yb * Ship.KEY_SIZE_FACTOR / Ship.KEY_SIZE_FACTOR)
    (List.range ((texture.width + (Ship.KEY_SIZE_FACTOR - 1)) / Ship.KEY_SIZE_FACTOR))
    (List.range ((texture.height + (Ship.KEY_SIZE_FACTOR - 1)) / Ship.KEY_SIZE_FACTOR))
    (Image.create (texture.width / Ship.KEY_SIZE_FACTOR) (texture.height / Ship.KEY_SIZE_FACTOR))
  have hkw : texture.width / Ship.KEY_SIZE_FACTOR = a := by
    simp only [Ship.KEY_SIZE_FACTOR, hw]; omega
  have hkh : texture.height / Ship.KEY_SIZE_FACTOR = b := by
    simp only [Ship.KEY_SIZE_FACTOR, hh]; omega
  have hna : (texture.width + (Ship.KEY_SIZE_FACTOR - 1)) / Ship.KEY_SIZE_FACTOR = a := by
    simp only [Ship.KEY_SIZE_FACTOR, hw]; omega
  have hnb : (texture.height + (Ship.KEY_SIZE_FACTOR - 1)) / Ship.KEY_SIZE_FACTOR = b := by
    simp only [Ship.KEY_SIZE_FACTOR, hh]; omega
  have hbk : Ship.buildKey texture =
      (List.range ((texture.height + (Ship.KEY_SIZE_FACTOR - 1)) / Ship.KEY_SIZE_FACTOR)).foldl
        (fun k yb =>
          (List.range ((texture.width + (Ship.KEY_SIZE_FACTOR - 1)) / Ship.KEY_SIZE_FACTOR)).foldl
            (fun k xb =>
              if Ship.blockHasSolidPixel texture (xb * Ship.KEY_SIZE_FACTOR)
                  (yb * Ship.KEY_SIZE_FACTOR) then
                k.setPixel (xb * Ship.KEY_SIZE_FACTOR / Ship.KEY_SIZE_FACTOR)
                  (yb * Ship.KEY_SIZE_FACTOR / Ship.KEY_SIZE_FACTOR) true
              else k) k)
        (Image.create (texture.width / Ship.KEY_SIZE_FACTOR)
          (texture.height / Ship.KEY_SIZE_FACTOR)) := rfl
  rw [← hbk] at h1 h2 h3 h4
  rw [hkw, hkh] at h1 h2 h3 h4
  have hcw : (Image.create a b).width = a := rfl
  have hcl : (Image.create a b).pixels.length = a * b := by simp [Image.create]
  have hc0 : ∀ i, (Image.create a b).pixels.getD i false = false := by
    intro i
    simp only [Image.create, List.getD_eq_getElem?_getD, List.getElem?_replicate]
    split <;> rfl
  refine ⟨h1, h2, fun cx cy hx hy => ?_⟩
  rw [← Ship.blockHasSolidPixel_eq_blockAlpha texture a b cx cy hw hh hx hy, Bool.eq_iff_iff]
  have hg : (Ship.buildKey texture).getPixel cx cy =
      (Ship.buildKey texture).pixels.getD (cx + cy * a) false := by
    simp only [Image.getPixel, h1, hcw]
  rw [hg, h4 (cx + cy * a), hc0, hcw, hcl, hna, hnb]
  have hdiv : ∀ n : Nat, n * Ship.KEY_SIZE_FACTOR / Ship.KEY_SIZE_FACTOR = n := by
    intro n
    simp [Ship.KEY_SIZE_FACTOR]
  simp only [hdiv, List.mem_range, Bool.false_eq_true, false_or]
  constructor
  · rintro ⟨_, yb, hyb, xb, hxb, hc, hi⟩
    have hxe : xb = cx := by
      have h5 := congrArg (fun n => n % a) hi
      simp only [Nat.add_mul_mod_self_right, Nat.mod_eq_of_lt hxb, Nat.mod_eq_of_lt hx] at h5
      exact h5
    subst hxe
    have hye : yb = cy := by
      have h6 : yb * a = cy * a := by omega
      exact Nat.eq_of_mul_eq_mul_right (by omega) h6
    subst hye
    exact hc
  · intro hc
    refine ⟨?_, cy, hy, cx, hx, hc, rfl⟩
    calc cx + cy * a < a + cy * a := by omega
      _ = (cy + 1) * a := by ring
      _ ≤ b * a := Nat.mul_le_mul_right a (by omega)
      _ = a * b := Nat.mul_comm b a

/-! ## C23: the point collision test -/

/-- Ship::collide(point) returns true exactly when the pixel position of the point, which is the
point in local coordinates with both components truncated, lies inside the local bounds of the
hull and the read of the key at that position divided by 4 finds a solid pixel, whether or not
that position is a cell of the key; the call changes neither the key nor the turrets. -/
theorem Ship.collidePoint_reads (L : Libm) (s : Ship) (globalPosition : Vector2f) :
    ((s.collidePoint L globalPosition).1 = true ↔
      0 ≤ (s.getPixelPosition L globalPosition).x ∧
      (s.getPixelPosition L globalPosition).x < (s.texWidth : Int) ∧
      0 ≤ (s.getPixelPosition L globalPosition).y ∧
      (s.getPixelPosition L globalPosition).y < (s.texHeight : Int) ∧
      s.m_keyImage.getPixel ((s.getPixelPosition L globalPosition).x.toNat / 4)
        ((s.getPixelPosition L globalPosition).y.toNat / 4) = true) ∧
    (s.collidePoint L globalPosition).2.m_keyImage = s.m_keyImage ∧
    (s.collidePoint L globalPosition).2.m_turrets = s.m_turrets := by
  refine ⟨?_, rfl, rfl⟩
  have hw : (0 : ℚ) ≤ (s.texWidth : ℚ) := Nat.cast_nonneg _
  have hh : (0 : ℚ) ≤ (s.texHeight : ℚ) := Nat.cast_nonneg _
  have hcx : ∀ z : Int, ((z : ℚ) < (s.texWidth : ℚ)) ↔ z < (s.texWidth : Int) := by
    intro z
    rw [← Int.cast_natCast, Int.cast_lt]
  have hcy : ∀ z : Int, ((z : ℚ) < (s.texHeight : ℚ)) ↔ z < (s.texHeight : Int) := by
    intro z
    rw [← Int.cast_natCast, Int.cast_lt]
  simp only [Ship.collidePoint, Ship.collidePointResult, Ship.getLocalBounds, FloatRect.contains,
    Vector2i.toVector2f, zero_add, min_eq_left hw, min_eq_left hh, max_eq_right hw,
    max_eq_right hh, Bool.and_eq_true, decide_eq_true_eq, Int.cast_nonneg, hcx, hcy,
    Ship.KEY_SIZE_FACTOR]
  constructor
  · intro h
    split at h
    · rename_i hc
      exact ⟨hc.1.1.1, hc.1.1.2, hc.1.2, hc.2, h⟩
    · exact absurd h (by decide)
  · rintro ⟨h1, h2, h3, h4, h5⟩
    rw [if_pos ⟨⟨⟨h1, h2⟩, h3⟩, h4⟩]
    exact h5

/-! ## C24: the direction of a turn -/

/-- C24. For a rotation and a bearing in [0, 360), whenever CSB::faceTargetAndCheck returns false
it has rotated the entity by 45 x deltaTime degrees: in the positive direction where the arc
from the rotation to the bearing is below 180 degrees, in the negative direction where it is
above 180 degrees. -/
theorem turn_direction_is_shorter_arc (L : Libm) (entity : Transformable) (target : Vector2f)
    (deltaTime : Time)
    (hr : 0 ≤ entity.rotation ∧ entity.rotation < 360)
    (ha : 0 ≤ CSB.angleToPoint L entity.position target ∧
      CSB.angleToPoint L entity.position target < 360)
    (hfalse : (CSB.faceTargetAndCheck L entity target deltaTime).2 = false) :
    (CSB.arcTo entity.rotation (CSB.angleToPoint L entity.position target) < 180 →
      (CSB.faceTargetAndCheck L entity target deltaTime).1 =
        entity.rotate (45 * Time.asSeconds deltaTime)) ∧
    (180 < CSB.arcTo entity.rotation (CSB.angleToPoint L entity.position target) →
      (CSB.faceTargetAndCheck L entity target deltaTime).1 =
        entity.rotate (-(45 * Time.asSeconds deltaTime))) := by
  obtain ⟨hr0, hr1⟩ := hr
  obtain ⟨ha0, ha1⟩ := ha
  set a := CSB.angleToPoint L entity.position target with hadef
  have hres : ∀ direction : ℚ,
      (if (a - entity.rotation < 0 ∧ |a - entity.rotation| < 180) ∨
          (180 ≤ |a - entity.rotation| ∧ entity.rotation < a) then (-1 : ℚ) else 1) = direction →
      (CSB.faceTargetAndCheck L entity target deltaTime).1 =
        entity.rotate (direction * Time.asSeconds deltaTime * 45) := by
    intro direction hd
    have h2 := hfalse
    simp only [CSB.faceTargetAndCheck, CSB.DEGREES_PER_SECOND, ← hadef, hd] at h2 ⊢
    split at h2
    · exact absurd h2 (by simp)
    · rename_i hc
      rw [if_neg hc]
  constructor
  · intro harc
    have hdir : (if (a - entity.rotation < 0 ∧ |a - entity.rotation| < 180) ∨
          (180 ≤ |a - entity.rotation| ∧ entity.rotation < a) then (-1 : ℚ) else 1) = 1 := by
      rw [if_neg]
      unfold CSB.arcTo at harc
      rintro (⟨h1, h2⟩ | ⟨h1, h2⟩)
      · rw [if_neg (by linarith)] at harc
        rw [abs_of_neg h1] at h2
        linarith
      · rw [if_pos (le_of_lt h2)] at harc
        rw [abs_of_pos (by linarith)] at h1
        linarith
    rw [hres 1 hdir]
    congr 1
    ring
  · intro harc
    have hdir : (if (a - entity.rotation < 0 ∧ |a - entity.rotation| < 180) ∨
          (180 ≤ |a - entity.rotation| ∧ entity.rotation < a) then (-1 : ℚ) else 1) = -1 := by
      rw [if_pos]
      unfold CSB.arcTo at harc
      by_cases hle : entity.rotation ≤ a
      · rw [if_pos hle] at harc
        right
        refine ⟨?_, by linarith⟩
        rw [abs_of_pos (by linarith)]
        linarith
      · rw [if_neg hle] at harc
        left
        have hneg : a - entity.rotation < 0 := by linarith [not_le.1 hle]
        refine ⟨hneg, ?_⟩
        rw [abs_of_neg hneg]
        linarith
    rw [hres (-1) hdir]
    congr 1
    ring

/-! ## C25: the projectile part of the tick and the phased procedure -/

theorem BattleState.foldl_createProjectile_projList (L : Libm) (infos : List ShotInfo)
    (b : BattleState) :
    (infos.foldl (BattleState.createProjectile L) b).m_projList =
      b.m_projList ++ infos.map (Projectile.ofShotInfo L) := by
  induction infos generalizing b with
  | nil => simp
  | cons i is ih =>
    simp only [List.foldl_cons, ih, List.map_cons]
    simp [BattleState.createProjectile]

theorem BattleState.resolveLoop_unfinished (L : Libm) (dt : Time) (ps : List Projectile)
    (hps : ∀ p ∈ ps, p.m_isFinished = false) (b : BattleState) :
    ∀ p ∈ (BattleState.resolveLoop L dt b ps).2, p.m_isFinished = false := by
  induction ps generalizing b with
  | nil => intro p hp; simp [BattleState.resolveLoop] at hp
  | cons q ps ih =>
    have ih' := fun b => ih (fun r hr => hps r (List.mem_cons_of_mem _ hr)) b
    have hq : q.m_isFinished = false := hps q (List.mem_cons_self _ _)
    simp only [BattleState.resolveLoop]
    split
    · exact ih' b
    · split
      · exact ih' _
      · split
        · exact ih' _
        · intro p hp
          rcases List.mem_cons.1 hp with rfl | hp
          · exact hq
          · exact ih' _ p hp

theorem Projectile.advance_eq_update (p : Projectile) (dt : Time) : p.advance dt = p.update dt :=
  rfl

theorem BattleState.collideLoop_eq_specTestShips (L : Libm) (proj : Projectile) (dt : Time)
    (ships : List Ship) :
    (BattleState.collideLoop L proj dt ships).1 = (BattleState.specTestShips L proj dt ships).1 ∧
    (BattleState.collideLoop L proj dt ships).2.1 =
      (BattleState.specTestShips L proj dt ships).2 := by
  induction ships with
  | nil => exact ⟨rfl, rfl⟩
  | cons ship rest ih =>
    simp only [BattleState.collideLoop, BattleState.specTestShips, Ship.requiresCleanup]
    by_cases h : (ship.collide L proj dt).1 = true
    · by_cases hz : (ship.collide L proj dt).2.m_turrets.length = 0
      · simp [h, hz]
      · simp [h, hz]
    · simp [h, ih.1, ih.2]

theorem BattleState.collide_eq_specTestShips (L : Libm) (b : BattleState) (proj : Projectile)
    (dt : Time) :
    (b.collide L proj dt).1 =
      (BattleState.specTestShips L proj dt
        (if proj.m_layer = 0 then b.m_shipList0 else b.m_shipList1)).1 ∧
    ((b.collide L proj dt).2.m_shipList0, (b.collide L proj dt).2.m_shipList1) =
      (if proj.m_layer = 0 then
        ((BattleState.specTestShips L proj dt b.m_shipList0).2, b.m_shipList1)
      else (b.m_shipList0, (BattleState.specTestShips L proj dt b.m_shipList1).2)) := by
  obtain ⟨h1, h2⟩ := BattleState.collideLoop_eq_specTestShips L proj dt
    (b.shipList proj.getLayer)
  have hl : proj.getLayer = proj.m_layer := rfl
  by_cases h0 : proj.m_layer = 0
  · rw [hl] at h1 h2
    simp only [BattleState.shipList, h0, if_true] at h1 h2
    simp only [BattleState.collide, hl, BattleState.shipList, BattleState.setShipList, h0,
      if_true, h1, h2]
    refine ⟨trivial, ?_⟩
    split <;> rfl
  · rw [hl] at h1 h2
    simp only [BattleState.shipList, h0, if_false] at h1 h2
    simp only [BattleState.collide, hl, BattleState.shipList, BattleState.setShipList, h0,
      if_false, h1, h2]
    refine ⟨trivial, ?_⟩
    split <;> rfl

theorem BattleState.resolveLoop_eq_phases (L : Libm) (dt : Time) (ps : List Projectile)
    (hps : ∀ p ∈ ps, p.m_isFinished = false) (b : BattleState) :
    (BattleState.resolveLoop L dt b ps).2 =
      BattleState.removeSpent L (ps.map fun p => p.advance dt)
        (BattleState.specTestAll L dt (b.m_shipList0, b.m_shipList1)
          (ps.map fun p => p.advance dt)).2 ∧
    ((BattleState.resolveLoop L dt b ps).1.m_shipList0,
      (BattleState.resolveLoop L dt b ps).1.m_shipList1) =
      (BattleState.specTestAll L dt (b.m_shipList0, b.m_shipList1)
        (ps.map fun p => p.advance dt)).1 := by
  induction ps generalizing b with
  | nil => exact ⟨rfl, rfl⟩
  | cons p ps ih =>
    have hp : (p.update dt).requiresCleanup = false := hps p (List.mem_cons_self _ _)
    have ih' := fun b => ih (fun q hq => hps q (List.mem_cons_of_mem _ hq)) b
    obtain ⟨c1, c2⟩ := BattleState.collide_eq_specTestShips L b (p.update dt) dt
    have hships : (if (p.update dt).m_layer = 0 then
          ((BattleState.specTestShips L (p.update dt) dt
            (if (p.update dt).m_layer = 0 then b.m_shipList0 else b.m_shipList1)).2,
            b.m_shipList1)
        else (b.m_shipList0, (BattleState.specTestShips L (p.update dt) dt
            (if (p.update dt).m_layer = 0 then b.m_shipList0 else b.m_shipList1)).2)) =
        ((b.collide L (p.update dt) dt).2.m_shipList0,
          (b.collide L (p.update dt) dt).2.m_shipList1) := by
      rw [c2]
      by_cases h0 : (p.update dt).m_layer = 0
      · simp only [h0, if_true]
      · simp only [h0, if_false]
    simp only [List.map_cons, Projectile.advance_eq_update, BattleState.specTestAll,
      BattleState.removeSpent, hp, Bool.or_false, hships, ← c1]
    simp only [Projectile.advance_eq_update] at ih'
    simp only [BattleState.resolveLoop, hp, Bool.false_eq_true, if_false]
    by_cases hc : (b.collide L (p.update dt) dt).1 = true
    · simp only [hc, if_true, Bool.true_or]
      exact ih' _
    · have hc' : (b.collide L (p.update dt) dt).1 = false := by simpa using hc
      simp only [hc', Bool.false_eq_true, if_false, Bool.false_or]
      by_cases hb : (!((p.update dt).getGlobalBounds L).intersects BattleState.m_viewBounds) = true
      · simp only [hb, if_true]
        exact ih' _
      · simp only [hb, if_false, Bool.false_eq_true]
        exact ⟨by rw [(ih' _).1], (ih' _).2⟩

theorem BattleState.update_projList (L : Libm) (b : BattleState) (dt : Time) :
    (b.update L dt).m_projList = ((b.spawnQueued L).resolveProjectiles L dt).m_projList := by
  simp only [BattleState.update, BattleState.spawnQueued]
  split <;> rfl

theorem BattleState.collide_readyToFire (L : Libm) (b : BattleState) (p : Projectile) (dt : Time) :
    (b.collide L p dt).2.m_readyToFire = b.m_readyToFire := by
  unfold BattleState.collide BattleState.setShipList
  simp only []
  split <;> split <;> rfl

theorem BattleState.resolveLoop_readyToFire (L : Libm) (dt : Time) (ps : List Projectile)
    (b : BattleState) :
    (BattleState.resolveLoop L dt b ps).1.m_readyToFire = b.m_readyToFire := by
  induction ps generalizing b with
  | nil => rfl
  | cons p ps ih =>
    simp only [BattleState.resolveLoop]
    split
    · exact ih b
    · split
      · rw [ih, BattleState.collide_readyToFire]
      · split
        · rw [ih, BattleState.collide_readyToFire]
        · rw [ih, BattleState.collide_readyToFire]

/-- C25. In a battle none of whose projectiles is flagged finished, the projectile part of
BattleState::update, which creates the queued projectiles with createProjectile and then
advances and tests the projectiles one at a time, leaves the projectile list and the ship
lists of both layers, with the keys and the turrets of the ships, that the phased procedure of
the specification gives: one projectile per queued shot in queue order, every projectile
advanced, every projectile tested in list order against the ships of its layer, the spent
projectiles removed. The queue is empty afterwards, the projectile list of the whole update is
that list, and no projectile is flagged finished afterwards either. -/
theorem projectile_part_equals_phased_procedure (L : Libm) (b : BattleState) (deltaTime : Time)
    (hunfinished : ∀ p ∈ b.m_projList, p.m_isFinished = false) :
    ((b.spawnQueued L).resolveProjectiles L deltaTime).m_projList =
      (b.phasedProjectiles L deltaTime).1 ∧
    ((b.spawnQueued L).resolveProjectiles L deltaTime).m_shipList0 =
      (b.phasedProjectiles L deltaTime).2.1 ∧
    ((b.spawnQueued L).resolveProjectiles L deltaTime).m_shipList1 =
      (b.phasedProjectiles L deltaTime).2.2 ∧
    ((b.spawnQueued L).resolveProjectiles L deltaTime).m_readyToFire = [] ∧
    (b.update L deltaTime).m_projList = (b.phasedProjectiles L deltaTime).1 ∧
    (∀ p ∈ ((b.spawnQueued L).resolveProjectiles L deltaTime).m_projList,
      p.m_isFinished = false) := by
  have hpl : (b.spawnQueued L).m_projList =
      b.m_projList ++ b.m_readyToFire.map (Projectile.ofShotInfo L) := by
    simp only [BattleState.spawnQueued, BattleState.foldl_createProjectile_projList]
  have hall : ∀ p ∈ (b.spawnQueued L).m_projList, p.m_isFinished = false := by
    intro p hp
    rw [hpl] at hp
    simp only [List.mem_append, List.mem_map] at hp
    rcases hp with hp | ⟨i, _, rfl⟩
    · exact hunfinished p hp
    · rfl
  have hs0 : (b.spawnQueued L).m_shipList0 = b.m_shipList0 := by
    have := BattleState.foldl_createProjectile_shipList L b.m_readyToFire b 0
    simpa [BattleState.spawnQueued, BattleState.shipList] using this
  have hs1 : (b.spawnQueued L).m_shipList1 = b.m_shipList1 := by
    have := BattleState.foldl_createProjectile_shipList L b.m_readyToFire b 1
    simpa [BattleState.spawnQueued, BattleState.shipList] using this
  obtain ⟨h1, h2⟩ := BattleState.resolveLoop_eq_phases L deltaTime _ hall (b.spawnQueued L)
  rw [hpl, hs0, hs1] at h1 h2
  have hproj : ((b.spawnQueued L).resolveProjectiles L deltaTime).m_projList =
      (b.phasedProjectiles L deltaTime).1 := by
    simp only [BattleState.resolveProjectiles, BattleState.phasedProjectiles, hpl]
    exact h1
  refine ⟨hproj, ?_, ?_, ?_, ?_, ?_⟩
  · simp only [BattleState.resolveProjectiles, BattleState.phasedProjectiles, hpl]
    exact congrArg Prod.fst h2
  · simp only [BattleState.resolveProjectiles, BattleState.phasedProjectiles, hpl]
    exact congrArg Prod.snd h2
  · simp only [BattleState.resolveProjectiles, BattleState.resolveLoop_readyToFire]
    rfl
  · rw [BattleState.update_projList, hproj]
  · simp only [BattleState.resolveProjectiles]
    exact BattleState.resolveLoop_unfinished L deltaTime _ hall _

/-! ## C26: the sentinel of the ray cast -/

/-- C27, the code on every newly constructed turret. The constructor sets the time since the last
shot to the reload time, and the test of fireCommand is strict, so a fire command issued before
any update is rejected: the turret is unchanged and does not track the target. -/
theorem new_turret_rejects_fire_command (info : TurretInfo) (target : Vector2f) (layer : Fin 2) :
    (Turret.ofTurretInfo info).m_timeSinceLastShot = (Turret.ofTurretInfo info).m_reloadTime ∧
    (Turret.ofTurretInfo info).fireCommand target layer = Turret.ofTurretInfo info ∧
    ((Turret.ofTurretInfo info).fireCommand target layer).m_isTrackingTarget = false := by
  have h : (Turret.ofTurretInfo info).fireCommand target layer = Turret.ofTurretInfo info := by
    simp [Turret.fireCommand, Turret.ofTurretInfo]
  exact ⟨rfl, h, by rw [h]; rfl⟩

/-! ## C28: the cells the ray cast reads -/

/-- On a steep line or a square key a cell that firstPixelHit returns as a hit lies inside the
key and is solid. -/
theorem Ship.firstPixelHit_inside (L : Libm) (s : Ship) (proj : Projectile) (dt : Time)
    (hkey : Ship.isSteepLine (s.startCell L proj dt) (s.endCell L proj) = true ∨
      s.m_keyImage.width = s.m_keyImage.height)
    (hhit : (s.firstPixelHit L proj dt).x ≠ -1) :
    s.m_keyImage.solidAt (s.firstPixelHit L proj dt) = true := by
  rw [← Ship.cellTest_eq_solidAt s.m_keyImage
    (Ship.isSteepLine (s.startCell L proj dt) (s.endCell L proj)) hkey]
  exact List.find?_some (Ship.firstPixelHit_hit L s proj dt hhit)

/-! ## C29: the divisors of a tick -/

/-- A ship in DECELERATING divides by a distance of at least 0.0001 only. -/
theorem Ship.updateDivisors_decelerating (L : Libm) (s : Ship) (dt : Time)
    (hst : s.m_movementState = MovementState.DECELERATING) :
    ∀ d ∈ s.updateDivisors L dt, d ≠ 0 := by
  intro d hd
  simp only [Ship.updateDivisors, hst] at hd
  split at hd
  · exact absurd hd (List.not_mem_nil _)
  · rename_i hc
    rw [List.mem_singleton] at hd
    rw [hd]
    intro h0
    apply hc
    right
    rw [h0]
    norm_num

/-! ## C30: the fire rate of a turret -/

theorem Turret.call_cases (L : Libm) (t : Turret) (c : TurretCall) :
    ((t.call L c).2 = [] ∧
      ((t.call L c).1.m_isTrackingTarget = true →
        t.m_isTrackingTarget = true ∨ t.m_reloadTime < t.m_timeSinceLastShot) ∧
      (t.call L c).1.m_timeSinceLastShot = t.m_timeSinceLastShot + c.deltaTime ∧
      (t.call L c).1.m_reloadTime = t.m_reloadTime) ∨
    ((t.call L c).2 ≠ [] ∧ t.m_isTrackingTarget = true ∧
      (t.call L c).1.m_isTrackingTarget = false ∧
      (t.call L c).1.m_timeSinceLastShot = 0 ∧
      (t.call L c).1.m_reloadTime = t.m_reloadTime) := by
  cases c with
  | update T dt =>
    rcases Turret.update_cases L T t dt [] with ⟨u1, u2, u3, u4⟩ | ⟨u0, u1, u2, u3, u4⟩
    · left
      exact ⟨u1, fun h => Or.inl (u2 ▸ h), u3, u4⟩
    · right
      refine ⟨?_, u0, u2, u3, u4⟩
      intro h
      simp only [Turret.call] at h
      rw [h] at u1
      simp at u1
  | fireCommand target layer =>
    left
    refine ⟨rfl, ?_, ?_, Turret.fireCommand_reloadTime t target layer⟩
    · intro h
      by_cases hr : t.m_reloadTime < t.m_timeSinceLastShot
      · exact Or.inr hr
      · left
        simpa [Turret.call, Turret.fireCommand, hr] using h
    · simp only [Turret.call, Turret.fireCommand, TurretCall.deltaTime, add_zero]
      split <;> rfl

theorem Turret.calls_rate (L : Libm) (cs : List TurretCall) (hnn : ∀ c ∈ cs, 0 ≤ c.deltaTime)
    (t : Turret) (since : Option Time)
    (htrack : t.m_isTrackingTarget = true → t.m_reloadTime < t.m_timeSinceLastShot)
    (hsince : ∀ e, since = some e → e = t.m_timeSinceLastShot) :
    ((t.calls L cs).m_isTrackingTarget = true →
      (t.calls L cs).m_reloadTime < (t.calls L cs).m_timeSinceLastShot) ∧
    (t.calls L cs).m_reloadTime = t.m_reloadTime ∧
    (∀ gap ∈ Turret.shotGaps L t since cs, t.m_reloadTime < gap) := by
  induction cs generalizing t since with
  | nil => exact ⟨htrack, rfl, fun g hg => absurd hg (List.not_mem_nil _)⟩
  | cons c cs ih =>
    have hc : 0 ≤ c.deltaTime := hnn c (List.mem_cons_self _ _)
    have hrest : ∀ d ∈ cs, 0 ≤ d.deltaTime := fun d hd => hnn d (List.mem_cons_of_mem _ hd)
    have hcalls : t.calls L (c :: cs) = (t.call L c).1.calls L cs := rfl
    rw [hcalls]
    rcases Turret.call_cases L t c with ⟨e1, e2, e3, e4⟩ | ⟨e1, e0, e2, e3, e4⟩
    · have ih' := ih hrest (t.call L c).1 (since.map fun e => e + c.deltaTime)
        (by
          intro h
          rw [e3, e4]
          rcases e2 h with h' | h'
          · have := htrack h'
            linarith
          · linarith)
        (by
          intro e he
          cases since with
          | none => simp at he
          | some e0 =>
            simp only [Option.map_some', Option.some.injEq] at he
            rw [e3, ← he, hsince e0 rfl])
      refine ⟨ih'.1, ih'.2.1.trans e4, ?_⟩
      intro g hg
      simp only [Turret.shotGaps, e1, if_true] at hg
      rw [← e4]
      exact ih'.2.2 g hg
    · have ih' := ih hrest (t.call L c).1 (some 0)
        (by intro h; rw [e2] at h; exact absurd h (by decide))
        (by intro e he; rw [e3]; exact (Option.some.inj he).symm)
      refine ⟨ih'.1, ih'.2.1.trans e4, ?_⟩
      intro g hg
      simp only [Turret.shotGaps, e1, if_false, List.mem_append] at hg
      rcases hg with hg | hg
      · cases since with
        | none => simp at hg
        | some e =>
          simp only [Option.map_some', Option.toList_some, List.mem_singleton] at hg
          have h1 := htrack e0
          have h2 := hsince e rfl
          rw [hg, h2]
          linarith
      · rw [← e4]
        exact ih'.2.2 g hg

/-- C30. After any sequence of fireCommand and update calls with non-negative deltaTime on a
newly constructed turret, a tracking turret has a time since its last shot above its reload
time, and for every two consecutive shots of the turret the deltaTimes of the updates after
the first shot, up to and including the update of the second, add up to more than the reload
time, which is 0.5 s for a laser, 1 s for a missile and 3 s for plasma. -/
theorem fire_rate_limit (L : Libm) (info : TurretInfo) (cs : List TurretCall)
    (hnn : ∀ c ∈ cs, 0 ≤ c.deltaTime) :
    (((Turret.ofTurretInfo info).calls L cs).m_isTrackingTarget = true →
      Turret.typeReloadTime info.projType <
        ((Turret.ofTurretInfo info).calls L cs).m_timeSinceLastShot) ∧
    (∀ gap ∈ Turret.shotGaps L (Turret.ofTurretInfo info) none cs,
      Turret.typeReloadTime info.projType < gap) ∧
    Turret.typeReloadTime ProjectileType.LASER = 500000 ∧
    Turret.typeReloadTime ProjectileType.MISSILE = 1000000 ∧
    Turret.typeReloadTime ProjectileType.PLASMA = 3000000 := by
  have h := Turret.calls_rate L cs hnn (Turret.ofTurretInfo info) none
    (by intro h; exact absurd h (by simp [Turret.ofTurretInfo]))
    (by intro e he; exact absurd he (by simp))
  have hr : (Turret.ofTurretInfo info).m_reloadTime = Turret.typeReloadTime info.projType := rfl
  rw [hr] at h
  refine ⟨?_, h.2.2, by decide, by decide, by decide⟩
  intro ht
  have := h.1 ht
  rw [h.2.1] at this
  exact this

/-! ## Evaluations on the sample inputs -/

section Evaluations

attribute [local semireducible] Rat.add Rat.mul Rat.inv Rat.sub

/-- The sample shot, moved by a tick of 4000 microseconds, hits the sample ship: the only cell of
its key, solid before the call of Ship::collide, is transparent after it. -/
theorem sample_hit_blacks_out_cell :
    sampleShip.m_keyImage.pixels = [true] ∧
    (sampleShip.calls sampleLibm
      [ShipCall.collide ((sampleShot 0).update 4000) 4000]).m_keyImage.pixels = [false] := by
  decide

/-- Witness of C3 on the sample battle, in which every ship has its turret. -/
theorem update_keeps_ships_armed_witness :
    (∀ l, ∀ s ∈ sampleBattle.shipList l, 0 < s.m_turrets.length) ∧
    (∀ l, ∀ s ∈ (sampleBattle.update sampleLibm 4000).shipList l, 0 < s.m_turrets.length) :=
  ⟨by decide, update_keeps_ships_armed sampleLibm sampleBattle 4000 (by decide)⟩

/-- C4, the code at the failing input. In the sample battle the shot of layer 0 destroys the only
ship of layer 0, which sets the flag m_isFinished; the shot of layer 1 then destroys one of the
two ships of layer 1, and the assignment of the flag in BattleState::collide overwrites it with
false. At the end of the collision pass layer 0 is empty and the flag is false, and the update
of that tick does not leave the battle. -/
theorem finished_flag_overwritten_by_later_removal :
    sampleBattle.m_shipList0.length = 1 ∧
    sampleBattle.m_shipList1.length = 2 ∧
    (sampleBattle.collide sampleLibm ((sampleShot 0).update 4000) 4000).2.m_shipList0 = [] ∧
    (sampleBattle.collide sampleLibm ((sampleShot 0).update 4000) 4000).2.m_isFinished = true ∧
    (sampleBattle.resolveProjectiles sampleLibm 4000).m_shipList0 = [] ∧
    (sampleBattle.resolveProjectiles sampleLibm 4000).m_shipList1.length = 1 ∧
    (sampleBattle.resolveProjectiles sampleLibm 4000).m_isFinished = false ∧
    (sampleBattle.update sampleLibm 4000).leftBattle = false := by
  decide

set_option maxRecDepth 100000 in
/-- Counterexample to C5 as stated. The sample laser turret (reload 0.5 s, rotation 0) is ordered
twice, 0.1 s apart, to fire at a point straight behind it; the first command is accepted. The
turret turns at 45 degrees per second and needs 4 s to face the target, so after 1 s of
ticking no ShotInfo has been pushed on the fire list. -/
theorem two_fire_commands_no_shot :
    sampleTurret.m_reloadTime = 500000 ∧
    [(100000 : Time)].sum < sampleTurret.m_reloadTime ∧
    (sampleTurret.fireCommand ⟨-99, 1⟩ 0).m_isTrackingTarget = true ∧
    ([(100000 : Time)] ++ List.replicate 9 100000).sum = 1000000 ∧
    (Turret.twoCommands sampleLibm Transform.identity sampleTurret ⟨-99, 1⟩ 0 [100000]
      ⟨-99, 1⟩ 0 (List.replicate 9 100000)).2.length ≠ 1 := by
  decide

/-- Witness of C5 as amended: the sample turret ordered twice, 0.1 s apart, to fire at a point
straight ahead. -/
theorem two_fire_commands_witness :
    ((∀ dt ∈ [(100000 : Time)], 0 ≤ dt) ∧ [(100000 : Time)].sum < sampleTurret.m_reloadTime) ∧
    (Turret.twoCommands sampleLibm Transform.identity sampleTurret ⟨3, 1⟩ 0 [100000]
      ⟨3, 1⟩ 0 (List.replicate 9 100000)).2.length ≤ 1 :=
  ⟨⟨by decide, by decide⟩,
   two_fire_commands_at_most_one_shot sampleLibm Transform.identity sampleTurret ⟨3, 1⟩ 0
     [100000] ⟨3, 1⟩ 0 (List.replicate 9 100000) (by decide) (by decide)⟩

set_option maxRecDepth 100000 in
/-- The scenario of C5 with a target straight ahead of the sample turret: exactly one ShotInfo is
pushed, a laser from the anchor point of the turret to the target. -/
theorem two_fire_commands_one_shot_when_facing :
    (Turret.twoCommands sampleLibm Transform.identity sampleTurret ⟨3, 1⟩ 0 [100000]
      ⟨3, 1⟩ 0 (List.replicate 9 100000)).2 =
      [⟨ProjectileType.LASER, 0, ⟨1, 1⟩, ⟨3, 1⟩⟩] := by
  decide

set_option maxRecDepth 100000 in
/-- Witness of C7 on the battle sampleSky, whose projectile list is the far shot followed by the
stray shot. The bounds of the stray shot intersect the playable area before the tick and do not
intersect it after the move of the tick: it is erased. The far shot still intersects the
playable area, does not collide and is not flagged finished: it stays. The resulting list is
the moved far shot alone. -/
theorem out_of_bounds_projectile_removed_witness :
    sampleSky.m_projList = [farShot] ++ strayShot :: [] ∧
    (strayShot.getGlobalBounds sampleLibm).intersects ⟨0, 0, 4000, 4000⟩ = true ∧
    ¬ ((strayShot.update 4000).getGlobalBounds sampleLibm).intersects ⟨0, 0, 4000, 4000⟩ = true ∧
    (sampleSky.resolveProjectiles sampleLibm 4000).m_projList =
      (BattleState.resolveLoop sampleLibm 4000 sampleSky [farShot]).2 ++
      (BattleState.resolveLoop sampleLibm 4000
        ((BattleState.resolveLoop sampleLibm 4000 sampleSky [farShot]).1.afterTest
          sampleLibm (strayShot.update 4000) 4000) []).2 ∧
    sampleSky.m_projList = [] ++ farShot :: [strayShot] ∧
    (((farShot.update 4000).getGlobalBounds sampleLibm).intersects ⟨0, 0, 4000, 4000⟩ = true ∧
      ((BattleState.resolveLoop sampleLibm 4000 sampleSky []).1.collide sampleLibm
        (farShot.update 4000) 4000).1 = false ∧
      (farShot.update 4000).requiresCleanup = false) ∧
    (sampleSky.resolveProjectiles sampleLibm 4000).m_projList =
      (BattleState.resolveLoop sampleLibm 4000 sampleSky []).2 ++ farShot.update 4000 ::
      (BattleState.resolveLoop sampleLibm 4000
        ((BattleState.resolveLoop sampleLibm 4000 sampleSky []).1.afterTest
          sampleLibm (farShot.update 4000) 4000) [strayShot]).2 ∧
    (sampleSky.resolveProjectiles sampleLibm 4000).m_projList = [farShot.update 4000] :=
  ⟨by decide, by decide, by decide,
   (out_of_bounds_projectile_removed sampleLibm sampleSky 4000 [farShot] strayShot []
     (by decide)).1 (by decide),
   by decide, by decide,
   (out_of_bounds_projectile_removed sampleLibm sampleSky 4000 [] farShot [strayShot]
     (by decide)).2 (by decide),
   by decide⟩

/-- Witness of C9: the sample shot of layer 0, moved by a tick of 4000 microseconds, hits the key
cell under the only turret of the sample ship, the only ship of layer 0. -/
theorem single_turret_anchor_hit_witness :
    (sampleShip.m_turrets = [Turret.ofTurretInfo ⟨ProjectileType.LASER, ⟨1, 1⟩⟩] ∧
     (sampleShip.getGlobalBounds sampleLibm).intersects
       (((sampleShot 0).update 4000).getGlobalBounds sampleLibm) = true ∧
     sampleShip.firstPixelHit sampleLibm ((sampleShot 0).update 4000) 4000 =
       sampleShip.anchorCell sampleLibm (Turret.ofTurretInfo ⟨ProjectileType.LASER, ⟨1, 1⟩⟩) ∧
     sampleBattle.shipList ((sampleShot 0).update 4000).getLayer = [] ++ sampleShip :: []) ∧
    ((sampleShip.collide sampleLibm ((sampleShot 0).update 4000) 4000).1 = true ∧
     (sampleShip.collide sampleLibm ((sampleShot 0).update 4000) 4000).2.m_turrets = [] ∧
     (sampleBattle.collide sampleLibm ((sampleShot 0).update 4000) 4000).1 = true ∧
     (sampleBattle.collide sampleLibm ((sampleShot 0).update 4000) 4000).2.shipList
        ((sampleShot 0).update 4000).getLayer = [].map (Ship.refreshTransform sampleLibm) ++ []) :=
  ⟨⟨by decide, by decide, by decide, by decide⟩,
   single_turret_anchor_hit_removes_ship sampleLibm sampleBattle [] sampleShip []
     (Turret.ofTurretInfo ⟨ProjectileType.LASER, ⟨1, 1⟩⟩) ((sampleShot 0).update 4000) 4000
     (by decide) (by decide) (by decide) (by decide) (by simp)⟩


/-- C11, witness: the sample network manager sends its build list of one laser turret to
itself. -/
theorem connect_round_trip_witness :
    sampleNetworkManager.m_shipTurrets.length < 18446744073709551616 ∧
    (Ship.create sampleLibm (NetworkManager.sentPosition sampleNetworkManager.m_isHost)
        (NetworkManager.sentAngle sampleNetworkManager.m_isHost) sampleNetworkManager.m_shipTurrets
        sampleNetworkManager.battle.hullTexture).m_turrets.map Turret.getTurretInfo =
      sampleNetworkManager.m_shipTurrets :=
  ⟨by decide,
   (connect_round_trip sampleLibm sampleNetworkManager sampleNetworkManager (by decide)).2.2.2.2⟩

set_option maxRecDepth 100000 in
/-- C15, counterexample. The sample ship at (2, 2) is ordered to (37, 2) and updated in ticks of
one second: it turns in the first tick, moves to (22, 2) and (62, 2), decelerates through
(32, 2), (52, 2) and (42, 2), and becomes idle at (42, 2), which is not its destination. -/
theorem ship_stops_off_destination :
    sampleMover.m_destination = ⟨37, 2⟩ ∧
    Ship.statesAfterMove sampleLibm sampleShip ⟨37, 2⟩ (List.replicate 7 1000000) =
      [MovementState.ROTATING, MovementState.MOVING, MovementState.MOVING,
       MovementState.DECELERATING, MovementState.DECELERATING, MovementState.DECELERATING,
       MovementState.DECELERATING, MovementState.IDLE] ∧
    (Ship.ticks sampleLibm sampleMover (List.replicate 7 1000000)).map
        (fun s => s.toTransformable.position) =
      [⟨2, 2⟩, ⟨22, 2⟩, ⟨62, 2⟩, ⟨32, 2⟩, ⟨52, 2⟩, ⟨42, 2⟩, ⟨42, 2⟩] ∧
    ((Ship.ticks sampleLibm sampleMover (List.replicate 7 1000000)).map
        (fun s => s.toTransformable.position)).getLast? ≠ some sampleMover.m_destination := by
  decide

set_option maxRecDepth 100000 in
/-- C15, witness: the sample braker becomes idle in a tick of one second, with speed 0 and at
(42, 2), where it was. -/
theorem ship_becomes_idle_witness :
    sampleBraker.m_movementState ≠ MovementState.IDLE ∧
    (sampleBraker.update sampleLibm 1000000 []).1.m_movementState = MovementState.IDLE ∧
    (sampleBraker.update sampleLibm 1000000 []).1.m_speed = 0 ∧
    (sampleBraker.update sampleLibm 1000000 []).1.toTransformable = sampleBraker.toTransformable :=
  ⟨by decide, by decide,
   (ship_becomes_idle_with_zero_speed sampleLibm sampleBraker 1000000 [] (by decide)
     (by decide)).2.1,
   (ship_becomes_idle_with_zero_speed sampleLibm sampleBraker 1000000 [] (by decide)
     (by decide)).2.2.1⟩

set_option maxRecDepth 100000 in
/-- C16, witness: the sample mover after its first tick is MOVING with speed 0 at (2, 2), 35
from its destination; a tick of one second gives it the speed 20, whose stopping distance is
20, so it stays MOVING. -/
theorem moving_switches_witness :
    (sampleMover.update sampleLibm 1000000 []).1.m_movementState = MovementState.MOVING ∧
    (0 : ℚ) < (sampleMover.update sampleLibm 1000000 []).1.m_speed +
      20 * Time.asSeconds 1000000 ∧
    (((sampleMover.update sampleLibm 1000000 []).1.update sampleLibm 1000000 []).1.m_movementState
        = MovementState.DECELERATING ↔
      (sampleMover.update sampleLibm 1000000 []).1.remainingDistance sampleLibm ≤
        ((sampleMover.update sampleLibm 1000000 []).1.m_speed + 20 * Time.asSeconds 1000000) *
          ((sampleMover.update sampleLibm 1000000 []).1.m_speed + 20 * Time.asSeconds 1000000) /
          (2 * 10)) :=
  ⟨by decide, by decide,
   (moving_switches_at_stopping_distance sampleLibm (sampleMover.update sampleLibm 1000000 []).1
     1000000 [] (by decide) (by decide) (by decide) (by decide)).2.1⟩

set_option maxRecDepth 100000 in
/-- C17, evaluation at the failing input. A ship at (2, 2) heading 350 degrees is ordered to
(37, 2), whose bearing is 0: the shorter arc is 10 degrees and a tick of one second allows 45,
yet the ship stays ROTATING and turns past the bearing to 35 degrees. The same happens from
359.5 degrees in a tick of 16666 microseconds. -/
theorem rotating_ship_overshoots_across_zero :
    CSB.angleToPoint sampleLibm (sampleTurner 350).toTransformable.position
      (sampleTurner 350).m_destination = 0 ∧
    (sampleTurner 350).m_movementState = MovementState.ROTATING ∧
    ((sampleTurner 350).update sampleLibm 1000000 []).1.m_movementState = MovementState.ROTATING ∧
    ((sampleTurner 350).update sampleLibm 1000000 []).1.toTransformable.rotation = 35 ∧
    ((sampleTurner (719 / 2)).update sampleLibm 16666 []).1.m_movementState =
      MovementState.ROTATING ∧
    ((sampleTurner (719 / 2)).update sampleLibm 16666 []).1.toTransformable.rotation =
      24997 / 100000 := by
  decide

/-- C18, counterexample. An update with nothing queued, no projectile and no ship clears the
pending-fire queue after projMutex was unlocked, with no mutex held, so the discipline fails
whichever mutex is taken to be the one of the queue; and collide, called by resolveProjectiles
with projMutex held, walks through a ship list while shipMutex is not held. -/
theorem containers_touched_without_their_lock :
    BattleState.updateEvents 0 [] [] =
      [LockEvent.lock Mutex.projMutex, LockEvent.unlock Mutex.projMutex,
       LockEvent.access Container.fireQueue AccessKind.mutate,
       LockEvent.lock Mutex.projMutex, LockEvent.unlock Mutex.projMutex,
       LockEvent.lock Mutex.shipMutex, LockEvent.unlock Mutex.shipMutex] ∧
    LockEvent.run (LockEvent.specGuard Mutex.shipMutex) (BattleState.updateEvents 0 [] []) []
      = none ∧
    LockEvent.run (LockEvent.specGuard Mutex.projMutex) (BattleState.updateEvents 0 [] []) []
      = none ∧
    LockEvent.run (LockEvent.specGuard Mutex.turretMutex) (BattleState.updateEvents 0 [] []) []
      = none ∧
    BattleState.collideEvents 0 none =
      [LockEvent.access Container.shipLists AccessKind.traverse,
       LockEvent.access Container.shipLists AccessKind.traverse] ∧
    LockEvent.run (LockEvent.specGuard Mutex.projMutex) (BattleState.collideEvents 0 none)
      [Mutex.projMutex] = none := by
  decide

set_option maxRecDepth 100000 in
/-- C19, counterexample. In the sample duel the shot of layer 0 destroys the only ship of that
layer during the collision pass of an update of 4000 microseconds, and the same update call
leaves the battle. -/
theorem battle_left_in_same_update :
    sampleDuel.leftBattle = false ∧
    sampleDuel.m_shipList0 = [sampleShip] ∧
    ((sampleDuel.spawnQueued sampleLibm).resolveProjectiles sampleLibm 4000).m_shipList0 = [] ∧
    (sampleDuel.update sampleLibm 4000).leftBattle = true := by
  decide

set_option maxRecDepth 100000 in
/-- C20, counterexample. The key of the ring ship has 3 x 3 cells of which only (1, 1) is solid.
The slanted shot went from the cell (0, 0) to the cell (2, 1); the straight segment between the
centres of these cells passes through the inside of the cell (1, 1), at the point (1.75, 1.125),
but the ray cast tests the cells (0, 0) and (1, 0) only and reports no hit. -/
theorem firstPixelHit_skips_crossed_cell :
    ringShip.m_keyImage = ⟨3, 3, [false, false, false, false, true, false, false, false, false]⟩ ∧
    ringShip.startCell sampleLibm slantShot 4000 = ⟨0, 0⟩ ∧
    ringShip.endCell sampleLibm slantShot = ⟨2, 1⟩ ∧
    Ship.insideCell (Ship.segmentPoint ⟨0, 0⟩ ⟨2, 1⟩ (5 / 8)) ⟨1, 1⟩ = true ∧
    ringShip.m_keyImage.solidAt ⟨1, 1⟩ = true ∧
    Ship.bresenhamCells ⟨0, 0⟩ ⟨2, 1⟩ = [⟨0, 0⟩, ⟨1, 0⟩] ∧
    ringShip.firstPixelHit sampleLibm slantShot 4000 = ⟨-1, -1⟩ := by
  decide

set_option maxRecDepth 100000 in
/-- C20, witness: the key of the sample ship is square, the sample shot starts in its solid cell
(0, 0), and the ray cast returns that cell. -/
theorem firstPixelHit_bresenham_witness :
    (Ship.isSteepLine (sampleShip.startCell sampleLibm ((sampleShot 0).update 4000) 4000)
        (sampleShip.endCell sampleLibm ((sampleShot 0).update 4000)) = true ∨
      sampleShip.m_keyImage.width = sampleShip.m_keyImage.height) ∧
    (Ship.bresenhamCells (sampleShip.startCell sampleLibm ((sampleShot 0).update 4000) 4000)
        (sampleShip.endCell sampleLibm ((sampleShot 0).update 4000))).find?
        sampleShip.m_keyImage.solidAt = some ⟨0, 0⟩ ∧
    sampleShip.firstPixelHit sampleLibm ((sampleShot 0).update 4000) 4000 = ⟨0, 0⟩ :=
  ⟨Or.inr (by decide), by decide,
   (firstPixelHit_tests_bresenham_line sampleLibm sampleShip ((sampleShot 0).update 4000) 4000
     (Or.inr (by decide))).1 ⟨0, 0⟩ (by decide)⟩

set_option maxRecDepth 100000 in
/-- On the sample ship the sample shot hits the only cell of its key, which becomes
transparent, and the only turret, anchored on that cell, is removed. -/
theorem sample_collide_buffer_effect :
    (sampleShip.collide sampleLibm ((sampleShot 0).update 4000) 4000).1 = true ∧
    sampleShip.firstPixelHit sampleLibm ((sampleShot 0).update 4000) 4000 = ⟨0, 0⟩ ∧
    (sampleShip.collide sampleLibm ((sampleShot 0).update 4000) 4000).2.m_keyImage =
      sampleShip.m_keyImage.setPixel
        (sampleShip.firstPixelHit sampleLibm ((sampleShot 0).update 4000) 4000).x.toNat
        (sampleShip.firstPixelHit sampleLibm ((sampleShot 0).update 4000) 4000).y.toNat false :=
  ⟨by decide, by decide,
   ((Ship.collide_buffer_effect sampleLibm sampleShip ((sampleShot 0).update 4000)
     4000).1 (by decide)).2.2.2.1⟩

set_option maxRecDepth 100000 in
/-- C22, the code at the failing input. The hull texture of 6 x 8 pixels has its only solid pixel
at (4, 0). Its key has 1 x 2 cells. The block loop of the constructor also runs at x = 4, finds
that pixel and sets the key pixel (1, 0), which in the buffer of a key of width 1 is the cell
(0, 1): that cell is solid although the 16 pixels of its block, (0..3, 4..7), are all
transparent. -/
theorem key_cell_set_from_another_block :
    Ship.buildKey oddHull = ⟨1, 2, [false, true]⟩ ∧
    (Ship.create sampleLibm ⟨3, 4⟩ 0 [] oddHull).m_keyImage = ⟨1, 2, [false, true]⟩ ∧
    (Ship.create sampleLibm ⟨3, 4⟩ 0 [] oddHull).m_keyImage.getPixel 0 1 = true ∧
    oddHull.blockAlpha 0 1 = false ∧
    oddHull.alphaAt 4 0 = true := by
  decide

set_option maxRecDepth 100000 in
/-- C24, witness: an entity at (2, 2) with rotation 350 and the target (37, 2), whose bearing
is 0. The arc is 10 degrees; a tick of one second does not end the turn (C17) and rotates the
entity by 45 degrees in the positive direction. -/
theorem turn_direction_witness :
    CSB.angleToPoint sampleLibm (sampleTurner 350).toTransformable.position ⟨37, 2⟩ = 0 ∧
    (CSB.faceTargetAndCheck sampleLibm (sampleTurner 350).toTransformable ⟨37, 2⟩
      1000000).2 = false ∧
    CSB.arcTo 350 0 = 10 ∧
    (CSB.faceTargetAndCheck sampleLibm (sampleTurner 350).toTransformable ⟨37, 2⟩ 1000000).1 =
      (sampleTurner 350).toTransformable.rotate (45 * Time.asSeconds 1000000) :=
  ⟨by decide, by decide, by decide,
   (turn_direction_is_shorter_arc sampleLibm (sampleTurner 350).toTransformable ⟨37, 2⟩ 1000000
     (by decide) (by decide) (by decide)).1 (by decide)⟩

set_option maxRecDepth 100000 in
/-- C21, the code at the failing input. On the tall ship, whose key has the cells (0, 0),
transparent, and (0, 1), solid, Ship::collide returns true for the level shot. The cell that
firstPixelHit returned is (1, 0), which is no solid cell of the key before the call and is none
after it; the cell that was cleared is (0, 1), a cell other than the returned one. -/
theorem collide_clears_cell_not_returned :
    tallShip.m_keyImage = ⟨1, 2, [false, true]⟩ ∧
    (tallShip.collide sampleLibm levelShot 12000).1 = true ∧
    tallShip.firstPixelHit sampleLibm levelShot 12000 = ⟨1, 0⟩ ∧
    tallShip.m_keyImage.solidAt ⟨1, 0⟩ = false ∧
    (tallShip.collide sampleLibm levelShot 12000).2.m_keyImage.solidAt ⟨1, 0⟩ = false ∧
    tallShip.m_keyImage.solidAt ⟨0, 1⟩ = true ∧
    (tallShip.collide sampleLibm levelShot 12000).2.m_keyImage.solidAt ⟨0, 1⟩ = false := by
  decide

set_option maxRecDepth 100000 in
/-- C23, the code at the failing input. The hull of the side ship has 6 x 8 pixels and its key
1 x 2 cells, of which only (0, 1) is solid. The point (5, 0) has the pixel position (5, 0),
inside the local bounds; the key cell (5 / 4, 0 / 4) = (1, 0) lies outside the key, so it is no
solid cell of the key, yet Ship::collide(point) returns true: getPixel(1, 0) reads the buffer
entry of the cell (0, 1). -/
theorem collide_point_reads_outside_key :
    sideShip.texWidth = 6 ∧ sideShip.texHeight = 8 ∧
    sideShip.m_keyImage = ⟨1, 2, [false, true]⟩ ∧
    sideShip.getPixelPosition sampleLibm ⟨5, 0⟩ = ⟨5, 0⟩ ∧
    sideShip.m_keyImage.solidAt ⟨5 / 4, 0 / 4⟩ = false ∧
    (sideShip.collidePoint sampleLibm ⟨5, 0⟩).1 = true := by
  decide

set_option maxRecDepth 100000 in
/-- Witness of C25 on the battle sampleVolley: one shot is queued and one shot is in flight on
each layer. The phased procedure leaves the projectile created for the queued shot, advanced by
the tick, as the only projectile: the two shots in flight each destroy a ship, which leaves no
ship on layer 0 and one on layer 1. -/
theorem projectile_part_phased_witness :
    (∀ p ∈ sampleVolley.m_projList, p.m_isFinished = false) ∧
    sampleVolley.m_readyToFire.length = 1 ∧
    (sampleVolley.phasedProjectiles sampleLibm 4000).1 =
      [(Projectile.ofShotInfo sampleLibm ⟨ProjectileType.LASER, 1, ⟨100, 2⟩, ⟨200, 2⟩⟩).advance
        4000] ∧
    ((sampleVolley.phasedProjectiles sampleLibm 4000).2.1.length = 0 ∧
      (sampleVolley.phasedProjectiles sampleLibm 4000).2.2.length = 1) ∧
    (sampleVolley.update sampleLibm 4000).m_projList =
      (sampleVolley.phasedProjectiles sampleLibm 4000).1 ∧
    ((sampleVolley.spawnQueued sampleLibm).resolveProjectiles sampleLibm 4000).m_shipList1 =
      (sampleVolley.phasedProjectiles sampleLibm 4000).2.2 :=
  ⟨by decide, by decide, by decide, by decide,
   (projectile_part_equals_phased_procedure sampleLibm sampleVolley 4000 (by decide)).2.2.2.2.1,
   (projectile_part_equals_phased_procedure sampleLibm sampleVolley 4000 (by decide)).2.2.1⟩

set_option maxRecDepth 100000 in
/-- C28, the code at the failing input. The key of the tall ship has one column and two rows,
the cell (0, 0) transparent and the cell (0, 1) solid. The level shot flew along the top row,
from the cell (0, 0) to the cell (2, 0), so the line is not steep. At x = 1, y = 0 the bounds
test contains(y, x) compares y with the width and x with the height and passes; getPixel(1, 0)
then reads the buffer entry of the cell (0, 1), and the ray cast returns the hit (1, 0), whose
column is not below the width of the key. Ship::collide then clears the cell (0, 1). -/
theorem firstPixelHit_returns_cell_outside_key :
    tallShip.m_keyImage = ⟨1, 2, [false, true]⟩ ∧
    tallShip.startCell sampleLibm levelShot 12000 = ⟨0, 0⟩ ∧
    tallShip.endCell sampleLibm levelShot = ⟨2, 0⟩ ∧
    Ship.isSteepLine ⟨0, 0⟩ ⟨2, 0⟩ = false ∧
    Ship.cellTest tallShip.m_keyImage false ⟨1, 0⟩ = true ∧
    tallShip.firstPixelHit sampleLibm levelShot 12000 = ⟨1, 0⟩ ∧
    ¬ (tallShip.firstPixelHit sampleLibm levelShot 12000).x < (tallShip.m_keyImage.width : Int) ∧
    (tallShip.collide sampleLibm levelShot 12000).1 = true ∧
    (tallShip.collide sampleLibm levelShot 12000).2.m_keyImage = ⟨1, 2, [false, false]⟩ := by
  decide

set_option maxRecDepth 100000 in
/-- C29, the code at the failing input. The sample ship is ordered to move to its own position
(2, 2); after one tick of one second it is MOVING at its destination. In the next tick the
distance to the destination is 0, and the first division of the MOVING branch,
vectorDistance / vectorLength, divides by it; the speed it divides by afterwards is 20. -/
theorem moving_ship_divides_by_zero_distance :
    sampleStayer.m_movementState = MovementState.MOVING ∧
    sampleStayer.toTransformable.position = ⟨2, 2⟩ ∧
    sampleStayer.m_destination = ⟨2, 2⟩ ∧
    Ship.updateDivisors sampleLibm sampleStayer 1000000 = [0, 20] := by
  decide

set_option maxRecDepth 100000 in
/-- C30, witness: in the sample calls a new laser turret fires twice, and the updates after the
first shot, up to the update of the second, take 601000 microseconds. -/
theorem fire_rate_limit_witness :
    (∀ c ∈ sampleCalls, 0 ≤ c.deltaTime) ∧
    Turret.shotGaps sampleLibm (Turret.ofTurretInfo ⟨ProjectileType.LASER, ⟨1, 1⟩⟩) none
      sampleCalls = [601000] ∧
    (∀ gap ∈ Turret.shotGaps sampleLibm (Turret.ofTurretInfo ⟨ProjectileType.LASER, ⟨1, 1⟩⟩) none
        sampleCalls, Turret.typeReloadTime ProjectileType.LASER < gap) :=
  ⟨by decide, by decide,
   (fire_rate_limit sampleLibm ⟨ProjectileType.LASER, ⟨1, 1⟩⟩ sampleCalls (by decide)).2.1⟩

end Evaluations

end CSBattles
